import Mathlib

/-!
# pcphone: HFP signalling and AEC render FIFO of `pc_phone_gui.c`

A shallow embedding of the AT-event parsing, the call state machine and the
AEC render FIFO of `src/pc_phone_gui.c`, with theorems about them.

Conventions of the embedding:

* a C `char` buffer is a `List Nat` of byte values; reading past the end of the
  list reads the terminating NUL (the listener `memset`s its 512-byte buffer
  before every `read` of at most 511 bytes);
* a `char *` into a buffer is the suffix of the buffer that starts there, so
  two pointers into the same buffer are equal exactly when the suffixes have
  the same length;
* C `int`/`long` values are `Int`; conversions wrap explicitly.
-/

namespace PcPhone

/-! ## C strings -/

/-- Byte values of an ASCII literal. -/
def bytes (s : String) : List Nat := s.toList.map Char.toNat

/-- The C string stored at the start of a buffer: the bytes before the first NUL. -/
def cstr (b : List Nat) : List Nat := b.takeWhile (fun c => c != 0)

/-- C `strlen`. -/
def strlen (b : List Nat) : Nat := (cstr b).length

/-- Whether the bytes of `needle` stand at the start of `s`. -/
def startsWith : List Nat → List Nat → Bool
  | [], _ => true
  | _ :: _, [] => false
  | n :: ns, c :: cs => n == c && startsWith ns cs

/-- C `strstr(hay, needle)`: the suffix of `hay` that starts at the first
occurrence of `needle` inside the C string `hay`, or `none` (NULL). -/
def strstr : List Nat → List Nat → Option (List Nat)
  | [], needle => if needle = [] then some [] else none
  | c :: cs, needle =>
    if startsWith needle (c :: cs) then some (c :: cs)
    else if c = 0 then none
    else strstr cs needle

/-- C `strchr(s, ch)` for a non-NUL `ch`: the suffix of `s` that starts at the
first `ch` inside the C string `s`, or `none` (NULL). -/
def strchr : List Nat → Nat → Option (List Nat)
  | [], _ => none
  | c :: cs, ch =>
    if c = ch then some (c :: cs)
    else if c = 0 then none
    else strchr cs ch

/-- C `isspace` in the "C" locale. -/
def isspace (c : Nat) : Bool := c == 32 || (9 ≤ c && c ≤ 13)

/-- C `isdigit`. -/
def isdigit (c : Nat) : Bool := 48 ≤ c && c ≤ 57

/-- The test of the loops `while (*p == ' ' || *p == '\t') p++`. -/
def isBlank (c : Nat) : Bool := c == 32 || c == 9

/-- The loop `while (*p == ' ' || *p == '\t') p++`. -/
def skipBlanks (p : List Nat) : List Nat := p.dropWhile isBlank

/-- Largest `long` (LP64). -/
def LONG_MAX : Int := 2 ^ 63 - 1

/-- Smallest `long` (LP64). -/
def LONG_MIN : Int := -(2 ^ 63)

/-- Value of a run of decimal digit bytes. -/
def digitsVal (ds : List Nat) : Nat := ds.foldl (fun acc d => 10 * acc + (d - 48)) 0

/-- C library `strtol(p, &end, 10)` with a 64-bit `long`: skips `isspace`
bytes, takes an optional sign and the longest run of digits, and clamps the
value to the range of `long`. Returns the value and `end`; when no digit is
found no conversion is made and `end` is `p` itself. -/
def strtol (p : List Nat) : Int × List Nat :=
  let s := p.dropWhile isspace
  let neg : Bool := s.head? == some 45
  let s1 := if s.head? == some 45 || s.head? == some 43 then s.tail else s
  let ds := s1.takeWhile isdigit
  if ds.isEmpty then (0, p)
  else
    let v : Int := if neg then -(digitsVal ds : Int) else (digitsVal ds : Int)
    (max LONG_MIN (min LONG_MAX v), s1.dropWhile isdigit)

/-- The conversion `(int)x` of a `long` to a 32-bit `int`. -/
def toInt32 (x : Int) : Int := (x + 2 ^ 31) % 2 ^ 32 - 2 ^ 31

/-- The literal `"+CIEV:"`. -/
def CIEV : List Nat := [43, 67, 73, 69, 86, 58]

/-- `parse_ciev(buf, &indicator, &value)`: the returned flag and the contents
of `*indicator` and `*value` afterwards (`indicator`, `value` are their
contents before the call). -/
def parse_ciev (buf : List Nat) (indicator value : Int) : Bool × Int × Int :=
  match strstr buf CIEV with
  | none => (false, indicator, value)
  | some p0 =>
    let p := skipBlanks (p0.drop CIEV.length)
    let (ind, end1) := strtol p
    if end1.length = p.length then (false, indicator, value)
    else
      let e1 := skipBlanks end1
      if e1.head? != some 44 then (false, indicator, value)
      else
        let e2 := skipBlanks e1.tail
        let (val, end2) := strtol e2
        if end2.length = e2.length then (false, indicator, value)
        else (true, toInt32 ind, toInt32 val)


/-! ## Decimal numerals (specification side) -/

/-- The optional sign of a decimal numeral. -/
inductive Sign where
  | bare
  | plus
  | minus
  deriving DecidableEq, Repr

/-- The bytes of a sign: nothing, `+` or `-`. -/
def Sign.toBytes : Sign → List Nat
  | .bare => []
  | .plus => [43]
  | .minus => [45]

/-- An optionally signed decimal numeral with digit bytes `ds`. -/
def numeral (sg : Sign) (ds : List Nat) : List Nat := sg.toBytes ++ ds

/-- The integer a numeral denotes. -/
def numeralVal (sg : Sign) (ds : List Nat) : Int :=
  match sg with
  | .minus => -(digitsVal ds : Int)
  | _ => (digitsVal ds : Int)

/-- The text `t` begins with a decimal numeral that `strtol` would convert:
white space, an optional sign and at least one digit. -/
def BeginsNumber (t : List Nat) : Prop :=
  ∃ sp sg ds rest, t = sp ++ (numeral sg ds ++ rest) ∧ (∀ c ∈ sp, isspace c = true) ∧
    ds ≠ [] ∧ ∀ c ∈ ds, isdigit c = true

/-- Largest C `int`. -/
def INT_MAX : Int := 2 ^ 31 - 1

/-- Smallest C `int`. -/
def INT_MIN : Int := -(2 ^ 31)

/-! ## AEC render FIFO -/

/-- `AEC_FRAME_SAMPLES`: 10 ms at 8 kHz. -/
def AEC_FRAME_SAMPLES : Nat := 80

/-- `AEC_FIFO_CAPACITY`: `AEC_FRAME_SAMPLES * 50`. -/
def AEC_FIFO_CAPACITY : Nat := AEC_FRAME_SAMPLES * 50

/-- The render FIFO: the array `aec_render_fifo` (a map from index to sample)
and the three cursors `aec_fifo_head`, `aec_fifo_tail`, `aec_fifo_size`. -/
structure AecFifo where
  aec_render_fifo : Nat → Int
  aec_fifo_head : Nat
  aec_fifo_tail : Nat
  aec_fifo_size : Nat

/-- The array store `a[i] = v`. -/
def store (a : Nat → Int) (i : Nat) (v : Int) : Nat → Int :=
  fun j => if j = i then v else a j

/-- The state at program start: a zeroed array and zero cursors. -/
def AecFifo.initial : AecFifo :=
  { aec_render_fifo := fun _ => 0, aec_fifo_head := 0, aec_fifo_tail := 0, aec_fifo_size := 0 }

/-- `aec_fifo_clear()`. -/
def aec_fifo_clear (f : AecFifo) : AecFifo :=
  { f with aec_fifo_head := 0, aec_fifo_tail := 0, aec_fifo_size := 0 }

/-- One turn of the loop of `aec_fifo_push`, storing the sample `v`. -/
def aec_fifo_push_step (f : AecFifo) (v : Int) : AecFifo :=
  let buf := store f.aec_render_fifo f.aec_fifo_head v
  let head := (f.aec_fifo_head + 1) % AEC_FIFO_CAPACITY
  if f.aec_fifo_size < AEC_FIFO_CAPACITY then
    { aec_render_fifo := buf, aec_fifo_head := head, aec_fifo_tail := f.aec_fifo_tail,
      aec_fifo_size := f.aec_fifo_size + 1 }
  else
    { aec_render_fifo := buf, aec_fifo_head := head,
      aec_fifo_tail := (f.aec_fifo_tail + 1) % AEC_FIFO_CAPACITY,
      aec_fifo_size := f.aec_fifo_size }

/-- `aec_fifo_push(samples, count)` where `samples` lists the `count` samples
read; with no sample (`count <= 0`) the state is returned as it is. -/
def aec_fifo_push (f : AecFifo) (samples : List Int) : AecFifo :=
  samples.foldl aec_fifo_push_step f

/-- The loop of `aec_fifo_pop`: `k` turns left, `i` the loop counter; gives
the `out` array and `aec_fifo_tail` after the loop. -/
def aec_fifo_pop_loop (buf : Nat → Int) : Nat → Nat → (Nat → Int) → Nat → (Nat → Int) × Nat
  | 0, _, out, tail => (out, tail)
  | k + 1, i, out, tail =>
    aec_fifo_pop_loop buf k (i + 1) (store out i (buf tail)) ((tail + 1) % AEC_FIFO_CAPACITY)

/-- `aec_fifo_pop(out, count)`: the returned flag, the `out` array afterwards
and the FIFO afterwards. -/
def aec_fifo_pop (f : AecFifo) (out : Nat → Int) (count : Int) :
    Bool × (Nat → Int) × AecFifo :=
  if count ≤ 0 then (false, out, f)
  else if (f.aec_fifo_size : Int) ≥ count then
    let r := aec_fifo_pop_loop f.aec_render_fifo count.toNat 0 out f.aec_fifo_tail
    (true, r.1, { f with aec_fifo_tail := r.2, aec_fifo_size := f.aec_fifo_size - count.toNat })
  else (false, out, f)

/-- The samples a FIFO holds, oldest first (the order in which `aec_fifo_pop`
hands them out). -/
def AecFifo.contents (f : AecFifo) : List Int :=
  (List.range f.aec_fifo_size).map
    (fun k => f.aec_render_fifo ((f.aec_fifo_tail + k) % AEC_FIFO_CAPACITY))

/-- The states the FIFO can be in: the initial one and whatever the three
operations make of a reachable one. -/
inductive AecFifo.Reachable : AecFifo → Prop
  | initial : AecFifo.Reachable AecFifo.initial
  | clear (f : AecFifo) : AecFifo.Reachable f → AecFifo.Reachable (aec_fifo_clear f)
  | push (f : AecFifo) (samples : List Int) :
      AecFifo.Reachable f → AecFifo.Reachable (aec_fifo_push f samples)
  | pop (f : AecFifo) (out : Nat → Int) (count : Int) :
      AecFifo.Reachable f → AecFifo.Reachable (aec_fifo_pop f out count).2.2

/-- The representation invariant of the FIFO: at most `AEC_FIFO_CAPACITY`
samples, the read cursor inside the array, and the write cursor `size` places
after the read cursor, modulo the capacity. -/
def AecFifo.Inv (f : AecFifo) : Prop :=
  f.aec_fifo_size ≤ AEC_FIFO_CAPACITY ∧ f.aec_fifo_tail < AEC_FIFO_CAPACITY ∧
    f.aec_fifo_head = (f.aec_fifo_tail + f.aec_fifo_size) % AEC_FIFO_CAPACITY

/-- The last `n` elements of a list. -/
def lastN (n : Nat) (l : List Int) : List Int := l.drop (l.length - n)

/-! ## Application state

The globals of `pc_phone_gui.c` that the call handling reads and writes. The
GTK widgets are taken as built (`window`, `log_buffer` and the call widgets are
non-NULL), which is the case once `main` has set up the window. Calls into GLib,
GTK and the socket layer are recorded in `trace`. -/

/-- `CallState`. -/
inductive CallState where
  | CALL_IDLE
  | CALL_RINGING
  | CALL_OUTGOING
  | CALL_ACTIVE
  deriving DecidableEq, Repr

/-- `AppState`. -/
inductive AppState where
  | STATE_IDLE
  | STATE_DISCOVERABLE
  | STATE_PAIRING
  | STATE_PAIRED
  | STATE_CONNECTING
  | STATE_CONNECTED
  | STATE_ERROR
  deriving DecidableEq, Repr

/-- `Contact`: `char name[128]; char number[64];`. -/
structure Contact where
  name : List Nat
  number : List Nat
  deriving DecidableEq, Repr

/-- The callbacks handed to `g_idle_add`, to be run by the main loop. The text
of a log line is left out. -/
inductive IdleCb where
  | hfp_update_call_state_cb (new_state : CallState)
  | hfp_refresh_ui_cb
  | restart_incoming_listener_cb
  | append_log_ui
  | lambda_log
  deriving DecidableEq, Repr

/-- Calls into GLib, GTK and the socket layer, and entries into `sco_connect`,
in the order they are made. -/
inductive Effect where
  | g_timeout_add
  | g_source_remove (id : Nat)
  | bring_window_to_front
  | update_call_ui
  | update_ui
  | shutdown (fd : Int)
  | close (fd : Int)
  | sco_connect
  | pthread_create
  | socket
  | connect (fd : Int)
  | write (fd : Int) (data : List Nat)
  | read (fd : Int)
  | g_thread_new
  | g_thread_join
  | gtk_widget_set_sensitive
  | gtk_clipboard_set_text
  | gtk_dialog_run
  deriving DecidableEq, Repr

/-- The program state. `glib_sources` counts the GLib sources created so far
(a new source gets the next id, which is never 0); `all_contacts` holds the
first `all_contacts_count` entries of the array; a thread handle is `true` when
the pointer is non-NULL. -/
structure Phone where
  current_state : AppState
  current_call_state : CallState
  current_call_number : List Nat
  current_call_name : List Nat
  ringtone_timer_id : Nat
  sco_socket : Int
  sco_audio_running : Bool
  sco_mtu : Int
  aec_enabled : Bool
  fifo : AecFifo
  device_addr : List Nat
  all_contacts : List Contact
  incoming_call_thread : Bool
  incoming_call_running : Bool
  idle_queue : List IdleCb
  glib_sources : Nat
  trace : List Effect
  hfp_socket : Int
  hfp_listen_socket : Int
  hfp_listen_paused : Bool
  hfp_monitor_running : Bool
  hfp_monitor_thread_handle : Bool

/-- What the system answers during one `sco_connect()`. -/
structure ScoEnv where
  socket1 : Int
  setsockopt_ok : Bool
  connect1_errno : Int
  socket2 : Int
  connect2_ok : Bool
  getsockopt_mtu : Option Int
  aec_ok : Bool

/-- The assignment `sco_socket = v`. -/
def set_sco_socket (v : Int) (st : Phone) : Phone := { st with sco_socket := v }

/-- The assignment `sco_audio_running = v`. -/
def set_sco_audio_running (v : Bool) (st : Phone) : Phone := { st with sco_audio_running := v }

/-- The assignment `sco_mtu = v`. -/
def set_sco_mtu (v : Int) (st : Phone) : Phone := { st with sco_mtu := v }

/-- The assignment `aec_enabled = v`. -/
def set_aec_enabled (v : Bool) (st : Phone) : Phone := { st with aec_enabled := v }

/-- The assignment `current_call_state = v`. -/
def set_current_call_state (v : CallState) (st : Phone) : Phone :=
  { st with current_call_state := v }

/-- The assignment `ringtone_timer_id = v`. -/
def set_ringtone_timer_id (v : Nat) (st : Phone) : Phone := { st with ringtone_timer_id := v }

/-- Writes the array `current_call_number`. -/
def set_current_call_number (v : List Nat) (st : Phone) : Phone :=
  { st with current_call_number := v }

/-- Writes the array `current_call_name`. -/
def set_current_call_name (v : List Nat) (st : Phone) : Phone :=
  { st with current_call_name := v }

/-- `g_idle_add(cb, ...)`. -/
def g_idle_add (cb : IdleCb) (st : Phone) : Phone :=
  { st with idle_queue := st.idle_queue ++ [cb] }

/-- `log_msg(msg)`: prints the line and queues `append_log_ui`. -/
def log_msg (st : Phone) : Phone := g_idle_add IdleCb.append_log_ui st

/-- Appends one call to the trace. -/
def emit (e : Effect) (st : Phone) : Phone := { st with trace := st.trace ++ [e] }

/-- `g_timeout_add(1000, ringtone_tick, NULL)`: creates the next source and
gives its id. -/
def g_timeout_add (st : Phone) : Nat × Phone :=
  (st.glib_sources + 1, emit Effect.g_timeout_add { st with glib_sources := st.glib_sources + 1 })

/-- `start_ringtone()`. -/
def start_ringtone (st : Phone) : Phone :=
  if st.ringtone_timer_id ≠ 0 then st
  else set_ringtone_timer_id (g_timeout_add st).1 (g_timeout_add st).2

/-- `stop_ringtone()`. -/
def stop_ringtone (st : Phone) : Phone :=
  if st.ringtone_timer_id = 0 then st
  else set_ringtone_timer_id 0 (emit (Effect.g_source_remove st.ringtone_timer_id) st)

/-- `bring_window_to_front()`. -/
def bring_window_to_front (st : Phone) : Phone := emit Effect.bring_window_to_front st

/-- `update_call_ui()`. -/
def update_call_ui (st : Phone) : Phone := emit Effect.update_call_ui st

/-- `update_ui()`. -/
def update_ui (st : Phone) : Phone := emit Effect.update_ui st

/-- `aec_fifo_clear()` on the FIFO of the program state. -/
def clear_fifo (st : Phone) : Phone := { st with fifo := aec_fifo_clear st.fifo }

/-- `shutdown_webrtc_aec()`. -/
def shutdown_webrtc_aec (st : Phone) : Phone := clear_fifo (set_aec_enabled false st)

/-- `init_webrtc_aec()`; `engine_ok` tells whether the engine ends up enabled. -/
def init_webrtc_aec (engine_ok : Bool) (st : Phone) : Phone :=
  clear_fifo (log_msg (set_aec_enabled engine_ok st))

/-- The step `shutdown(sco_socket, SHUT_RDWR); close(sco_socket); sco_socket = -1;`. -/
def close_sco_socket (st : Phone) : Phone :=
  set_sco_socket (-1) (emit (Effect.close st.sco_socket) (emit (Effect.shutdown st.sco_socket) st))

/-- `stop_sco_audio(reason)`; `reason` tells whether the pointer is non-NULL. -/
def stop_sco_audio (reason : Bool) (st : Phone) : Phone :=
  let was_running := st.sco_audio_running || decide (st.sco_socket ≥ 0)
  let st := set_sco_audio_running false st
  let st := if st.sco_socket ≥ 0 then close_sco_socket st else st
  let st := if reason && was_running then g_idle_add IdleCb.lambda_log st else st
  shutdown_webrtc_aec st

/-- `clear_call_info()`. -/
def clear_call_info (st : Phone) : Phone :=
  set_current_call_name (List.replicate 128 0) (set_current_call_number (List.replicate 64 0) st)

/-- `set_call_state(new_state)`. -/
def set_call_state (new_state : CallState) (st : Phone) : Phone :=
  if st.current_call_state = new_state then st
  else
    let st := set_current_call_state new_state st
    let st :=
      if st.current_call_state = CallState.CALL_RINGING then
        bring_window_to_front (start_ringtone st)
      else stop_ringtone st
    let st := if st.current_call_state = CallState.CALL_IDLE then stop_sco_audio false st else st
    update_call_ui st

/-- `hfp_update_call_state_cb(data)`. -/
def hfp_update_call_state_cb (new_state : CallState) (st : Phone) : Phone :=
  let st :=
    if new_state = CallState.CALL_IDLE then clear_call_info (stop_sco_audio false st) else st
  update_ui (set_call_state new_state st)

/-- `errno` value `EMLINK`. -/
def EMLINK : Int := 31

/-- `errno` value `EBUSY`. -/
def EBUSY : Int := 16

/-- The part of `sco_connect()` from the label `sco_connected` on. -/
def sco_connected (env : ScoEnv) (st : Phone) : Bool × Phone :=
  let st := log_msg st
  let st :=
    match env.getsockopt_mtu with
    | some mtu => log_msg (set_sco_mtu mtu st)
    | none => log_msg (set_sco_mtu 48 st)
  let st := init_webrtc_aec env.aec_ok st
  let st := set_sco_audio_running true st
  (true, emit Effect.pthread_create (emit Effect.pthread_create st))

/-- The start of `sco_connect()`: a previous channel that is still running is
stopped and a socket left open is closed. -/
def sco_close_previous (st : Phone) : Phone :=
  let st := if st.sco_audio_running then stop_sco_audio false (log_msg st) else st
  if st.sco_socket ≥ 0 then close_sco_socket st else st

/-- The recovery of `sco_connect()` after `EMLINK` or `EBUSY`: one more
`socket` and `connect`. -/
def sco_connect_retry (env : ScoEnv) (st : Phone) : Bool × Phone :=
  let st := set_sco_socket env.socket2 (log_msg st)
  if st.sco_socket ≥ 0 then
    if env.connect2_ok then sco_connected env (log_msg st)
    else (false, set_sco_socket (-1) (emit (Effect.close st.sco_socket) st))
  else (false, st)

/-- The body of `if (connect(...) < 0)` in `sco_connect()`. -/
def sco_connect_failed (env : ScoEnv) (st : Phone) : Bool × Phone :=
  let st := log_msg st
  let st := set_sco_socket (-1) (emit (Effect.close st.sco_socket) st)
  if env.connect1_errno = EMLINK ∨ env.connect1_errno = EBUSY then sco_connect_retry env st
  else (false, st)

/-- `sco_connect()`; `connect` fails when `env.connect1_errno` is not 0. -/
def sco_connect (env : ScoEnv) (st : Phone) : Bool × Phone :=
  let st := emit Effect.sco_connect st
  if st.device_addr.head?.getD 0 = 0 then (false, st)
  else
    let st := set_sco_socket env.socket1 (sco_close_previous st)
    if st.sco_socket < 0 then (false, log_msg st)
    else
      let st := if env.setsockopt_ok then st else log_msg st
      let st := log_msg st
      if env.connect1_errno ≠ 0 then sco_connect_failed env st
      else sco_connected env st

/-- The guarded call `if (!sco_audio_running && sco_socket < 0) sco_connect();`. -/
def sco_connect_if_closed (env : ScoEnv) (st : Phone) : Phone :=
  if !st.sco_audio_running && decide (st.sco_socket < 0) then (sco_connect env st).2 else st

/-- `handle_ciev_event(ind, val)`. -/
def handle_ciev_event (env : ScoEnv) (ind val : Int) (st : Phone) : Phone :=
  if ind = 1 then
    if val = 1 then
      g_idle_add (IdleCb.hfp_update_call_state_cb CallState.CALL_ACTIVE)
        (sco_connect_if_closed env (log_msg st))
    else if val = 0 then
      if st.current_call_state ≠ CallState.CALL_IDLE then
        g_idle_add (IdleCb.hfp_update_call_state_cb CallState.CALL_IDLE) (log_msg st)
      else st
    else st
  else if ind = 2 then
    if val = 0 then
      let st :=
        if st.current_call_state = CallState.CALL_OUTGOING ∨
            st.current_call_state = CallState.CALL_RINGING then log_msg st
        else st
      if st.current_call_state ≠ CallState.CALL_ACTIVE then
        g_idle_add (IdleCb.hfp_update_call_state_cb CallState.CALL_IDLE) st
      else st
    else if val = 1 then
      if st.current_call_state ≠ CallState.CALL_RINGING then
        g_idle_add (IdleCb.hfp_update_call_state_cb CallState.CALL_RINGING) (log_msg st)
      else st
    else if val = 2 ∨ val = 3 then
      let st :=
        if st.current_call_state ≠ CallState.CALL_OUTGOING then
          g_idle_add (IdleCb.hfp_update_call_state_cb CallState.CALL_OUTGOING) (log_msg st)
        else st
      sco_connect_if_closed env st
    else st
  else st

/-- `start_incoming_call_listener()`; the listener thread itself runs apart. -/
def start_incoming_call_listener (st : Phone) : Phone :=
  if st.incoming_call_thread then st
  else if st.device_addr.head?.getD 0 = 0 then st
  else { st with incoming_call_running := true, incoming_call_thread := true }

/-- `restart_incoming_listener_cb(data)`. -/
def restart_incoming_listener_cb (st : Phone) : Phone :=
  if st.current_state = AppState.STATE_CONNECTED ∧ st.incoming_call_thread = false then
    start_incoming_call_listener (log_msg st)
  else st

/-- Runs one queued callback on the main loop. -/
def dispatch (cb : IdleCb) (st : Phone) : Phone :=
  match cb with
  | IdleCb.hfp_update_call_state_cb new_state => hfp_update_call_state_cb new_state st
  | IdleCb.hfp_refresh_ui_cb => update_call_ui st
  | IdleCb.restart_incoming_listener_cb => restart_incoming_listener_cb st
  | IdleCb.append_log_ui => st
  | IdleCb.lambda_log => log_msg st

/-- Runs the callbacks of `l` in order. -/
def run_callbacks (l : List IdleCb) (st : Phone) : Phone :=
  l.foldl (fun s cb => dispatch cb s) st

/-- One turn of the GLib main loop: the callbacks queued so far run in the
order they were queued; what they queue themselves waits for the next turn. -/
def g_main_iteration (st : Phone) : Phone :=
  run_callbacks st.idle_queue { st with idle_queue := [] }

/-! ## The listener's handling of one received chunk -/

/-- The literal `"+CLIP:"`. -/
def CLIP : List Nat := [43, 67, 76, 73, 80, 58]

/-- The literal `"RING"`. -/
def RING : List Nat := [82, 73, 78, 71]

/-- The literal `"NO CARRIER"`. -/
def NO_CARRIER : List Nat := [78, 79, 32, 67, 65, 82, 82, 73, 69, 82]

/-- The literal `"BUSY"`. -/
def BUSY : List Nat := [66, 85, 83, 89]

/-- The literal `"NO ANSWER"`. -/
def NO_ANSWER : List Nat := [78, 79, 32, 65, 78, 83, 87, 69, 82]

/-- The literal `"ERROR"`. -/
def ERROR : List Nat := [69, 82, 82, 79, 82]

/-- C `strncpy(dest, src, n)` for `n` within `dest`: the first `n` bytes of
`dest` become the C string `src`, cut at `n` bytes or padded with NULs. -/
def strncpy (dest src : List Nat) (n : Nat) : List Nat :=
  let s := (cstr src).take n
  s ++ List.replicate (n - s.length) 0 ++ dest.drop n

/-- The test `strcmp(a, b) == 0`. -/
def strcmp_eq (a b : List Nat) : Bool := cstr a == cstr b

/-- The loop that counts quotes after the number, started at `name_search`
with `quote_count`; gives `name_start` (NULL when the fourth quote is not found). -/
def clip_name_scan : List Nat → Nat → Option (List Nat)
  | [], _ => none
  | c :: cs, quote_count =>
    if c = 0 ∨ ¬ quote_count < 4 then none
    else if c = 34 then
      if quote_count + 1 = 4 then some cs else clip_name_scan cs (quote_count + 1)
    else clip_name_scan cs quote_count

/-- The array `normalized_incoming` / `normalized_contact` built from a number:
its last 10 bytes when it has at least 10, the number itself otherwise. -/
def normalize_number (number : List Nat) : List Nat :=
  let len := strlen number
  if len ≥ 10 then strncpy (List.replicate 32 0) (number.drop (len - 10)) 10
  else strncpy (List.replicate 32 0) number 31

/-- The loop over `all_contacts`: the first contact whose normalized number
equals the normalized incoming number. -/
def find_contact (normalized_incoming : List Nat) : List Contact → Option Contact
  | [] => none
  | c :: cs =>
    if strcmp_eq normalized_incoming (normalize_number c.number) then some c
    else find_contact normalized_incoming cs

/-- The name part of the `+CLIP:` block, from `char *name_search = num_end + 1`
to the end of `if (name_start) { ... }`: the fourth quote after the number is
looked for and the text up to the next quote is copied. -/
def clip_take_name (buf name_search : List Nat) (st : Phone) : List Nat × Phone :=
  match clip_name_scan name_search 0 with
  | none => (buf, st)
  | some name_start =>
    match strchr name_start 34 with
    | none => (buf, st)
    | some name_end =>
      if name_end.length < name_start.length then
        let buf := buf.set (buf.length - name_end.length) 0
        let name := strncpy st.current_call_name (buf.drop (buf.length - name_start.length)) 127
        (buf, set_current_call_name name st)
      else (buf, st)

/-- The block `if (!current_call_name[0]) { ... }`: the name is taken from the
first contact with the same normalized number. -/
def clip_lookup_contact (st : Phone) : Phone :=
  if st.current_call_name.head?.getD 0 = 0 then
    match find_contact (normalize_number st.current_call_number) st.all_contacts with
    | some c => set_current_call_name (strncpy st.current_call_name c.name 127) st
    | none => st
  else st

/-- The end of the `+CLIP:` block: the log line, then a refresh when already
Ringing and a transition to Ringing otherwise. -/
def clip_notify (st : Phone) : Phone :=
  let st := log_msg st
  if st.current_call_state = CallState.CALL_RINGING then g_idle_add IdleCb.hfp_refresh_ui_cb st
  else g_idle_add (IdleCb.hfp_update_call_state_cb CallState.CALL_RINGING) st

/-- The `+CLIP:` block of the listener: gives the buffer as it leaves it (the
closing quotes found are overwritten with NUL) and the state. -/
def listener_clip (buf : List Nat) (st : Phone) : List Nat × Phone :=
  match strstr buf CLIP with
  | none => (buf, st)
  | some clip =>
    match strchr clip 34 with
    | none => (buf, st)
    | some quote =>
      let num_start := quote.tail
      match strchr num_start 34 with
      | none => (buf, st)
      | some num_end =>
        let buf := buf.set (buf.length - num_end.length) 0
        let number := strncpy st.current_call_number (buf.drop (buf.length - num_start.length)) 63
        let st := set_current_call_number number st
        let st := set_current_call_name (st.current_call_name.set 0 0) st
        let r := clip_take_name buf num_end.tail st
        (r.1, clip_notify (clip_lookup_contact r.2))

/-- What the body of the listener loop does with one chunk read into `buf`
(`read` returned more than 0): the debug log line, the `+CLIP:` block, the
`RING` test and the `+CIEV:` / end-of-call test. -/
def incoming_call_listener_chunk (env : ScoEnv) (chunk : List Nat) (st : Phone) : Phone :=
  let st := log_msg st
  let (buf, st) := listener_clip chunk st
  let st :=
    if (strstr buf RING).isSome && decide (st.current_call_state ≠ CallState.CALL_RINGING) then
      g_idle_add (IdleCb.hfp_update_call_state_cb CallState.CALL_RINGING) (log_msg st)
    else st
  if (strstr buf CIEV).isSome then
    let r := parse_ciev buf (-1) (-1)
    if r.1 then handle_ciev_event env r.2.1 r.2.2 st else st
  else if (strstr buf NO_CARRIER).isSome || (strstr buf BUSY).isSome ||
      (strstr buf NO_ANSWER).isSome || (strstr buf ERROR).isSome then
    g_idle_add (IdleCb.hfp_update_call_state_cb CallState.CALL_IDLE) (log_msg st)
  else st

/-- The listener thread handles the chunk, then the main loop runs one turn:
the callbacks the listener queued run after the whole chunk has been handled. -/
def listener_chunk_then_main (env : ScoEnv) (chunk : List Nat) (st : Phone) : Phone :=
  g_main_iteration (incoming_call_listener_chunk env chunk st)

/-- A connected session with no call in progress, the listener running and
nothing queued, with the given contacts and device address. -/
def Phone.initial (contacts : List Contact) (addr : List Nat) : Phone :=
  { current_state := AppState.STATE_CONNECTED,
    current_call_state := CallState.CALL_IDLE,
    current_call_number := List.replicate 64 0,
    current_call_name := List.replicate 128 0,
    ringtone_timer_id := 0,
    sco_socket := -1,
    sco_audio_running := false,
    sco_mtu := 48,
    aec_enabled := false,
    fifo := AecFifo.initial,
    device_addr := addr,
    all_contacts := contacts,
    incoming_call_thread := true,
    incoming_call_running := true,
    idle_queue := [],
    glib_sources := 0,
    trace := [],
    hfp_socket := -1,
    hfp_listen_socket := 5,
    hfp_listen_paused := false,
    hfp_monitor_running := false,
    hfp_monitor_thread_handle := false }

/-- A system on which every call of `sco_connect` succeeds at once. -/
def ScoEnv.ok : ScoEnv :=
  { socket1 := 7, setsockopt_ok := true, connect1_errno := 0, socket2 := -1,
    connect2_ok := false, getsockopt_mtu := some 48, aec_ok := false }

/-! ## Dialling and answering

The device on the RFCOMM channel is a map from the command written to what the
`write` returns and what the `read` that follows finds (every command of a dial
is written once). -/

/-- What the system and the device answer to one command: the value `write`
returns, the value the following `read` returns, and the buffer after that
`read` (it was zeroed before). -/
structure AtReply where
  write_ret : Int
  read_ret : Int
  read_buf : List Nat

/-- What the system and the device answer during one `hfp_dial` or answer:
the descriptor `socket` gives, the value `connect` returns, and the replies. -/
structure DialEnv where
  socket_fd : Int
  connect_ret : Int
  reply : List Nat → AtReply

/-- The assignment `hfp_socket = v`. -/
def set_hfp_socket (v : Int) (st : Phone) : Phone := { st with hfp_socket := v }

/-- The assignment `hfp_listen_socket = v`. -/
def set_hfp_listen_socket (v : Int) (st : Phone) : Phone := { st with hfp_listen_socket := v }

/-- The assignment `hfp_listen_paused = v`. -/
def set_hfp_listen_paused (v : Bool) (st : Phone) : Phone := { st with hfp_listen_paused := v }

/-- The assignment `hfp_monitor_running = v`. -/
def set_hfp_monitor_running (v : Bool) (st : Phone) : Phone :=
  { st with hfp_monitor_running := v }

/-- The assignment of `hfp_monitor_thread_handle` (`true`: non-NULL). -/
def set_hfp_monitor_thread_handle (v : Bool) (st : Phone) : Phone :=
  { st with hfp_monitor_thread_handle := v }

/-- The assignment `current_state = v`. -/
def set_current_state (v : AppState) (st : Phone) : Phone := { st with current_state := v }

/-- The literal `"OK"`. -/
def OK : List Nat := [79, 75]

/-- The literal `"+CIEV"` (without colon). -/
def CIEV_TOKEN : List Nat := [43, 67, 73, 69, 86]

/-- The literal `"CONNECT"`. -/
def CONNECT : List Nat := [67, 79, 78, 78, 69, 67, 84]

/-- The literal `"AT+BRSF=0\r"`. -/
def AT_BRSF_0 : List Nat := [65, 84, 43, 66, 82, 83, 70, 61, 48, 13]

/-- The literal `"AT+CIND=?\r"`. -/
def AT_CIND_TEST : List Nat := [65, 84, 43, 67, 73, 78, 68, 61, 63, 13]

/-- The literal `"AT+CIND?\r"`. -/
def AT_CIND_READ : List Nat := [65, 84, 43, 67, 73, 78, 68, 63, 13]

/-- The literal `"AT+CMER=3,0,0,1\r"`. -/
def AT_CMER_1 : List Nat := [65, 84, 43, 67, 77, 69, 82, 61, 51, 44, 48, 44, 48, 44, 49, 13]

/-- The literal `"AT+CMER=3,0,0,0\r"`. -/
def AT_CMER_0 : List Nat := [65, 84, 43, 67, 77, 69, 82, 61, 51, 44, 48, 44, 48, 44, 48, 13]

/-- The literal `"AT+NREC=0\r"`. -/
def AT_NREC_0 : List Nat := [65, 84, 43, 78, 82, 69, 67, 61, 48, 13]

/-- The literal `"ATA\r"`. -/
def ATA : List Nat := [65, 84, 65, 13]

/-- The command `snprintf(cmd, sizeof(cmd), "ATD%s;\r", number)` with
`char cmd[128]`: at most 127 bytes are kept. -/
def atd_cmd (number : List Nat) : List Nat :=
  ([65, 84, 68] ++ cstr number ++ [59, 13]).take 127

/-- The step `shutdown(hfp_socket, SHUT_RDWR); close(hfp_socket); hfp_socket = -1;`. -/
def close_hfp_socket (st : Phone) : Phone :=
  set_hfp_socket (-1) (emit (Effect.close st.hfp_socket) (emit (Effect.shutdown st.hfp_socket) st))

/-- The step of `hfp_close()` that joins the monitor thread when there is one. -/
def join_hfp_monitor (st : Phone) : Phone :=
  if st.hfp_monitor_thread_handle then
    set_hfp_monitor_thread_handle false (emit Effect.g_thread_join st)
  else st

/-- `hfp_close()`. -/
def hfp_close (st : Phone) : Phone :=
  let st := set_sco_audio_running false (set_hfp_monitor_running false st)
  let st := if st.sco_socket ≥ 0 then log_msg (close_sco_socket st) else st
  let st := if st.hfp_socket ≥ 0 then close_hfp_socket st else st
  log_msg (join_hfp_monitor st)

/-- The end of both accepting branches of the listener path of `hfp_dial`:
`sco_connect(); set_call_state(CALL_OUTGOING); hfp_listen_paused = FALSE;`. -/
def hfp_dial_accept (env : ScoEnv) (st : Phone) : Phone :=
  set_hfp_listen_paused false (set_call_state CallState.CALL_OUTGOING (sco_connect env st).2)

/-- The classification of the response `buf` on the listener path of `hfp_dial`. -/
def hfp_dial_classify (env : ScoEnv) (buf : List Nat) (st : Phone) : Bool × Phone :=
  if (strstr buf OK).isSome || (strstr buf CIEV_TOKEN).isSome || (strstr buf CONNECT).isSome then
    (true, hfp_dial_accept env (log_msg st))
  else if (strstr buf ERROR).isSome || (strstr buf NO_CARRIER).isSome then
    (false, set_hfp_listen_paused false (log_msg st))
  else (true, hfp_dial_accept env (log_msg st))

/-- The listener path of `hfp_dial(number)`: the block `if (hfp_listen_socket >= 0)`. -/
def hfp_dial_listener (env : ScoEnv) (dev : DialEnv) (number : List Nat) (st : Phone) :
    Bool × Phone :=
  let st := set_hfp_listen_paused true (log_msg st)
  let cmd := atd_cmd number
  let st := emit (Effect.write st.hfp_listen_socket cmd) st
  if (dev.reply cmd).write_ret ≤ 0 then (false, set_hfp_listen_paused false (log_msg st))
  else
    let st := log_msg (emit (Effect.read st.hfp_listen_socket) st)
    hfp_dial_classify env (dev.reply cmd).read_buf st

/-- The label `error:` of `hfp_dial`: `hfp_close(); return FALSE;`. -/
def hfp_dial_error (st : Phone) : Bool × Phone := (false, hfp_close st)

/-- One of the first three handshake steps of the fresh path of `hfp_dial`:
the command is written, the response read and `OK` looked for. Gives whether
the handshake goes on, and whether the error log line is due. -/
def hfp_slc_step (dev : DialEnv) (cmd : List Nat) (st : Phone) : Bool × Phone :=
  let st := emit (Effect.write st.hfp_socket cmd) st
  if (dev.reply cmd).write_ret < 0 then (false, st)
  else
    let st := emit (Effect.read st.hfp_socket) st
    if (dev.reply cmd).read_ret ≤ 0 ∨ (strstr (dev.reply cmd).read_buf OK).isSome = false then
      (false, log_msg st)
    else (true, st)

/-- The `AT+CMER` step of the fresh path: `AT+CMER=3,0,0,1`, and
`AT+CMER=3,0,0,0` once when no `OK` came back. Gives whether the handshake goes on. -/
def hfp_cmer_step (dev : DialEnv) (st : Phone) : Bool × Phone :=
  let st := emit (Effect.write st.hfp_socket AT_CMER_1) st
  if (dev.reply AT_CMER_1).write_ret < 0 then (false, st)
  else
    let st := emit (Effect.read st.hfp_socket) st
    if (dev.reply AT_CMER_1).read_ret ≤ 0 ∨
        (strstr (dev.reply AT_CMER_1).read_buf OK).isSome = false then
      let st := emit (Effect.write st.hfp_socket AT_CMER_0) st
      if (dev.reply AT_CMER_0).write_ret < 0 then (false, st)
      else (true, emit (Effect.read st.hfp_socket) st)
    else (true, st)

/-- The start of the monitor thread at the end of a successful fresh dial. -/
def start_hfp_monitor (st : Phone) : Phone :=
  set_hfp_monitor_thread_handle true (emit Effect.g_thread_new (set_hfp_monitor_running true st))

/-- The `ATD` step of the fresh path of `hfp_dial` and what follows it. The
BlueZ `ConnectProfile` call made after `sco_connect()` is left out: it touches
none of the state kept here. -/
def hfp_dial_atd (env : ScoEnv) (dev : DialEnv) (number : List Nat) (st : Phone) :
    Bool × Phone :=
  let cmd := atd_cmd number
  let st := emit (Effect.write st.hfp_socket cmd) st
  if (dev.reply cmd).write_ret < 0 then hfp_dial_error st
  else
    let st := emit (Effect.read st.hfp_socket) st
    if (dev.reply cmd).read_ret > 0 ∧ (strstr (dev.reply cmd).read_buf OK).isSome = true then
      (true, start_hfp_monitor (sco_connect env (log_msg st)).2)
    else hfp_dial_error (log_msg st)

/-- The handshake of the fresh path of `hfp_dial` from `AT+BRSF=0` on, on the
connected socket. -/
def hfp_dial_handshake (env : ScoEnv) (dev : DialEnv) (number : List Nat) (st : Phone) :
    Bool × Phone :=
  let r1 := hfp_slc_step dev AT_BRSF_0 st
  if r1.1 = false then hfp_dial_error r1.2
  else
    let r2 := hfp_slc_step dev AT_CIND_TEST r1.2
    if r2.1 = false then hfp_dial_error r2.2
    else
      let r3 := hfp_slc_step dev AT_CIND_READ r2.2
      if r3.1 = false then hfp_dial_error r3.2
      else
        let r4 := hfp_cmer_step dev r3.2
        if r4.1 = false then hfp_dial_error r4.2
        else
          let st := log_msg r4.2
          let st := emit (Effect.read st.hfp_socket) (emit (Effect.write st.hfp_socket AT_NREC_0) st)
          hfp_dial_atd env dev number st

/-- The fresh path of `hfp_dial(number)`: no listener socket is open. -/
def hfp_dial_fresh (env : ScoEnv) (dev : DialEnv) (number : List Nat) (st : Phone) :
    Bool × Phone :=
  let st := hfp_close st
  let st := set_hfp_socket dev.socket_fd (emit Effect.socket st)
  if st.hfp_socket < 0 then (false, log_msg st)
  else
    let st := emit (Effect.connect st.hfp_socket) (log_msg st)
    if dev.connect_ret < 0 then
      (false, set_hfp_socket (-1) (emit (Effect.close st.hfp_socket) (log_msg st)))
    else hfp_dial_handshake env dev number (log_msg st)

/-- `hfp_dial(number)`. -/
def hfp_dial (env : ScoEnv) (dev : DialEnv) (number : List Nat) (st : Phone) : Bool × Phone :=
  if st.device_addr.head?.getD 0 = 0 then (false, log_msg st)
  else if st.hfp_listen_socket ≥ 0 then hfp_dial_listener env dev number st
  else hfp_dial_fresh env dev number st

/-- The loop of `dial_number` over `all_contacts`: the first contact whose
number is the dialled one (`strcmp(all_contacts[i].number, number) == 0`). -/
def find_dialled_contact (number : List Nat) : List Contact → Option Contact
  | [] => none
  | c :: cs => if strcmp_eq c.number number then some c else find_dialled_contact number cs

/-- The branch of `dial_number` taken when `hfp_dial` returned TRUE. -/
def dial_number_success (number : List Nat) (st : Phone) : Phone :=
  let st := set_current_call_number (strncpy st.current_call_number number 63) st
  let st := set_current_call_name (st.current_call_name.set 0 0) st
  let st :=
    match find_dialled_contact number st.all_contacts with
    | some c => set_current_call_name (strncpy st.current_call_name c.name 127) st
    | none => st
  update_ui (set_call_state CallState.CALL_OUTGOING st)

/-- The branch of `dial_number` taken when `hfp_dial` returned FALSE: the
number goes to the clipboard and a dialog is shown. -/
def dial_number_failure (st : Phone) : Phone :=
  emit Effect.gtk_dialog_run (log_msg (emit Effect.gtk_clipboard_set_text st))

/-- `dial_number(number)` for a non-NULL `number`. -/
def dial_number (env : ScoEnv) (dev : DialEnv) (number : List Nat) (st : Phone) : Phone :=
  if number.head?.getD 0 = 0 then log_msg st
  else if st.current_state ≠ AppState.STATE_CONNECTED then log_msg st
  else
    let r := hfp_dial env dev number (log_msg st)
    if r.1 then dial_number_success number r.2 else dial_number_failure r.2

/-- The step of `on_answer_clicked` that sends `ATA` on the listener socket
when there is one, and reads the response when the write succeeded. -/
def answer_send_ata (dev : DialEnv) (st : Phone) : Phone :=
  if st.hfp_listen_socket ≥ 0 then
    let st := emit (Effect.write st.hfp_listen_socket ATA) st
    if (dev.reply ATA).write_ret > 0 then emit (Effect.read st.hfp_listen_socket) st else st
  else st

/-- `on_answer_clicked(widget, data)`. -/
def on_answer_clicked (env : ScoEnv) (dev : DialEnv) (st : Phone) : Phone :=
  let st := log_msg st
  if st.current_call_state ≠ CallState.CALL_RINGING then log_msg st
  else
    let st := emit Effect.gtk_widget_set_sensitive (emit Effect.gtk_widget_set_sensitive st)
    let st := answer_send_ata dev st
    update_ui (set_call_state CallState.CALL_ACTIVE (sco_connect env st).2)

/-- A device that answers every command with `OK\r\n`, on a system where
`socket` and `connect` succeed. -/
def DialEnv.ok : DialEnv :=
  { socket_fd := 9, connect_ret := 0,
    reply := fun cmd => { write_ret := cmd.length, read_ret := 4, read_buf := [79, 75, 13, 10] } }

/-! ## The capture worker's send loop -/

/-- How one `send` on the SCO socket ends: some bytes sent (`sent > 0`), the
peer gone (`EPIPE`, `ENOTCONN`, `ECONNRESET`), a transient failure (`EAGAIN`,
`EWOULDBLOCK`), or another failure. -/
inductive SendResult where
  | sent
  | peer_closed
  | would_block
  | failed
  deriving DecidableEq, Repr

/-- The loop `for (int offset = 0; offset < read_bytes; offset += mtu)` of the
capture worker, with `fuel` turns at most, from `offset` on; `send k` is how
the `k`-th call of `send` ends and `calls` the number of calls made so far.
Gives the `(offset, bytes)` pairs handed to `send`, in order, and whether the
loop ran to its end (`false`: the worker returned because the peer was gone);
`none` when the fuel is used up. The sums stay far below `2^31` for the frame
lengths and MTUs the program has, so `int` is taken as `Int`. -/
def capture_send_loop (send : Nat → SendResult) (buf : List Nat) (read_bytes mtu : Int) :
    Nat → Int → Nat → Option (List (Int × List Nat) × Bool)
  | 0, _, _ => none
  | fuel + 1, offset, calls =>
    if offset < read_bytes then
      let chunk := if read_bytes - offset > mtu then mtu else read_bytes - offset
      let piece := (offset, (buf.drop offset.toNat).take chunk.toNat)
      match send calls with
      | SendResult.peer_closed => some ([piece], false)
      | _ =>
        match capture_send_loop send buf read_bytes mtu fuel (offset + mtu) (calls + 1) with
        | some r => some (piece :: r.1, r.2)
        | none => none
    else some ([], true)

/-! ## The capture worker's read size -/

/-- `AEC_FRAME_BYTES`: `AEC_FRAME_SAMPLES * 2`. -/
def AEC_FRAME_BYTES : Nat := AEC_FRAME_SAMPLES * 2

/-- The size `read_bytes` the capture worker asks `pa_simple_read` for, into
its buffer `unsigned char buf[AEC_FRAME_BYTES]`:
`aec_enabled ? AEC_FRAME_BYTES : mtu`, where `mtu` is `sco_mtu` as the worker
found it when it started. -/
def capture_read_bytes (st : Phone) : Int :=
  if st.aec_enabled then (AEC_FRAME_BYTES : Int) else st.sco_mtu

/-! ## The listener thread up to its event loop -/

/-- The literal `"AT+BRSF=1\r"`. -/
def AT_BRSF_1 : List Nat := [65, 84, 43, 66, 82, 83, 70, 61, 49, 13]

/-- The literal `"AT+CLIP=1\r"`. -/
def AT_CLIP_1 : List Nat := [65, 84, 43, 67, 76, 73, 80, 61, 49, 13]

/-- One handshake step of `incoming_call_listener`: the command is written
and a response read; neither result is looked at. -/
def listener_slc_step (cmd : List Nat) (st : Phone) : Phone :=
  emit (Effect.read st.hfp_listen_socket) (emit (Effect.write st.hfp_listen_socket cmd) st)

/-- The block `// SLC handshake` of `incoming_call_listener`. -/
def listener_handshake (st : Phone) : Phone :=
  listener_slc_step AT_CLIP_1 (listener_slc_step AT_CMER_1 (listener_slc_step AT_CIND_READ
    (listener_slc_step AT_CIND_TEST (listener_slc_step AT_BRSF_1 st))))

/-- `incoming_call_listener(data)` from its start to the first test of its
event loop `while (incoming_call_running && hfp_listen_socket >= 0)`;
`pending` is the array `pending_dial_number` (it is cleared after the dial).
Gives whether the loop is entered. -/
def incoming_call_listener_setup (env : ScoEnv) (dev : DialEnv) (pending : List Nat)
    (st : Phone) : Bool × Phone :=
  let st := log_msg st
  let st := set_hfp_listen_socket dev.socket_fd (emit Effect.socket st)
  if st.hfp_listen_socket < 0 then (false, log_msg st)
  else
    let st := emit (Effect.connect st.hfp_listen_socket) st
    if dev.connect_ret < 0 then
      (false, set_hfp_listen_socket (-1) (emit (Effect.close st.hfp_listen_socket) (log_msg st)))
    else
      let st := log_msg (listener_handshake st)
      let st :=
        if pending.head?.getD 0 ≠ 0 then dial_number env dev pending (log_msg st) else st
      (st.incoming_call_running && decide (st.hfp_listen_socket ≥ 0), st)

/-! ## The `+CIEV:` handling of `bt_headset_gui.c` -/

/-- The `+CIEV:` block of `incoming_call_listener` in `bt_headset_gui.c` once
`parse_ciev` has given `(ind, val)`, on the globals the two programs share;
`sco_connect` is that program's own `sco_connect()`, taken as a parameter. -/
def bt_headset_ciev (sco_connect : Phone → Phone) (ind val : Int) (st : Phone) : Phone :=
  if ind = 1 then
    if val = 1 then
      g_idle_add (IdleCb.hfp_update_call_state_cb CallState.CALL_ACTIVE)
        (sco_connect (log_msg st))
    else if val = 0 then
      if st.current_call_state ≠ CallState.CALL_IDLE then
        g_idle_add (IdleCb.hfp_update_call_state_cb CallState.CALL_IDLE) (log_msg st)
      else st
    else st
  else if ind = 2 then
    if val = 0 then
      if st.current_call_state ≠ CallState.CALL_IDLE then
        g_idle_add (IdleCb.hfp_update_call_state_cb CallState.CALL_IDLE) (log_msg st)
      else st
    else if val = 1 then
      if st.current_call_state ≠ CallState.CALL_RINGING then
        g_idle_add (IdleCb.hfp_update_call_state_cb CallState.CALL_RINGING) (log_msg st)
      else st
    else if val = 2 ∨ val = 3 then
      if st.current_call_state ≠ CallState.CALL_OUTGOING then
        g_idle_add (IdleCb.hfp_update_call_state_cb CallState.CALL_OUTGOING) (log_msg st)
      else st
    else st
  else st

/-! ## Properties of the state (specification side) -/

/-- The ringtone timer is armed exactly when the call state is Ringing. -/
def RingInv (st : Phone) : Prop :=
  st.ringtone_timer_id ≠ 0 ↔ st.current_call_state = CallState.CALL_RINGING

/-- The id of a recorded `g_source_remove`, if the call is one. -/
def Effect.removed : Effect → Option Nat
  | Effect.g_source_remove id => some id
  | _ => none

/-- The ids of the GLib sources removed so far, in order. -/
def removed_sources (st : Phone) : List Nat := st.trace.filterMap Effect.removed

/-- The number of timers started with `g_timeout_add` so far. -/
def timers_started (st : Phone) : Nat := st.trace.count Effect.g_timeout_add

/-- The timers started and not removed: one when the call state is Ringing,
none otherwise. -/
def TimerBalance (st : Phone) : Prop :=
  timers_started st =
    (removed_sources st).length + (if st.current_call_state = CallState.CALL_RINGING then 1 else 0)

/-- Whether a queued callback is a UI-refresh or state-transition notification. -/
def IdleCb.isNotification : IdleCb → Bool
  | IdleCb.hfp_update_call_state_cb _ => true
  | IdleCb.hfp_refresh_ui_cb => true
  | _ => false

/-- The number of `sco_connect()` calls recorded in the trace. -/
def sco_connect_calls (st : Phone) : Nat := st.trace.count Effect.sco_connect

/-- Whether a recorded call acts on a socket: `socket`, `connect`, `write`,
`read`, `shutdown` or `close`. -/
def Effect.isSocketOp : Effect → Bool
  | Effect.socket => true
  | Effect.connect _ => true
  | Effect.write _ _ => true
  | Effect.read _ => true
  | Effect.shutdown _ => true
  | Effect.close _ => true
  | _ => false

/-- The data of a recorded `write`, if the call is one. -/
def Effect.written : Effect → Option (List Nat)
  | Effect.write _ d => some d
  | _ => none

/-- The commands written to sockets so far, in order. -/
def written_cmds (st : Phone) : List (List Nat) := st.trace.filterMap Effect.written

/-- The call state a queued callback asks for, if it is a transition. -/
def IdleCb.request : IdleCb → Option CallState
  | IdleCb.hfp_update_call_state_cb s => some s
  | _ => none

/-- The call states asked for in the idle queue, in order. -/
def requested (st : Phone) : List CallState := st.idle_queue.filterMap IdleCb.request

/-- The control socket, the listener socket and the listener's running flag. -/
def control_state (st : Phone) : Int × Int × Bool :=
  (st.hfp_socket, st.hfp_listen_socket, st.incoming_call_running)

/-- The listener socket and the listener's running flag. -/
def listener_state (st : Phone) : Int × Bool :=
  (st.hfp_listen_socket, st.incoming_call_running)

/-! ## The call state a `+CIEV` event leads to (specification side) -/

/-- The call state the specification gives for the event `(ind, val)` received
in call state `s`. -/
def ciev_target (s : CallState) (ind val : Int) : CallState :=
  if ind = 1 ∧ val = 1 then CallState.CALL_ACTIVE
  else if ind = 1 ∧ val = 0 then CallState.CALL_IDLE
  else if ind = 2 ∧ val = 0 then
    (if s = CallState.CALL_ACTIVE then CallState.CALL_ACTIVE else CallState.CALL_IDLE)
  else if ind = 2 ∧ val = 1 then CallState.CALL_RINGING
  else if ind = 2 ∧ (val = 2 ∨ val = 3) then CallState.CALL_OUTGOING
  else s

/-! ## Frame relations (specification side) -/

/-- Whether a queued callback is a call-state transition. -/
def IdleCb.isTransition : IdleCb → Bool
  | IdleCb.hfp_update_call_state_cb _ => true
  | _ => false

/-- The state `st2` agrees with `st` on the call state, the caller info, the
ringtone timer, the contacts, the connection state and the number of timers
started so far. -/
def Calm (st st2 : Phone) : Prop :=
  st2.current_call_state = st.current_call_state ∧
  st2.current_call_number = st.current_call_number ∧
  st2.current_call_name = st.current_call_name ∧
  st2.ringtone_timer_id = st.ringtone_timer_id ∧
  st2.glib_sources = st.glib_sources ∧
  st2.all_contacts = st.all_contacts ∧
  st2.current_state = st.current_state ∧
  st2.device_addr = st.device_addr ∧
  st2.trace.count Effect.g_timeout_add = st.trace.count Effect.g_timeout_add

/-- The state `st2` differs from `st` only in sockets, audio flags, listener
flags, the trace (but no timer start) and log callbacks appended to the idle
queue. -/
def Quiet (st st2 : Phone) : Prop :=
  Calm st st2 ∧
  ∃ extra, st2.idle_queue = st.idle_queue ++ extra ∧ ∀ cb ∈ extra, cb = IdleCb.append_log_ui

/-! ## Lemmas on C strings -/

theorem startsWith_append (n r : List Nat) : startsWith n (n ++ r) = true := by
  induction n with
  | nil => simp [startsWith]
  | cons a n ih => simp [startsWith, ih]

theorem startsWith_prefix_iff (n s : List Nat) : startsWith n s = true ↔ n <+: s := by
  induction n generalizing s with
  | nil => simp [startsWith]
  | cons a n ih =>
    cases s with
    | nil => simp [startsWith]
    | cons c cs =>
      simp only [startsWith, Bool.and_eq_true, beq_iff_eq, ih, List.cons_prefix_cons]

theorem takeWhile_append_stop (p : Nat → Bool) (l rest : List Nat)
    (hl : ∀ c ∈ l, p c = true) (hr : ∀ c, rest.head? = some c → p c = false) :
    (l ++ rest).takeWhile p = l := by
  induction l with
  | nil =>
    cases rest with
    | nil => rfl
    | cons c cs => simp [List.takeWhile, hr c]
  | cons a l ih =>
    have ha : p a = true := hl a (List.mem_cons_self _ _)
    simp only [List.cons_append, List.takeWhile_cons, ha, if_true]
    rw [ih (fun c hc => hl c (List.mem_cons_of_mem _ hc))]

theorem dropWhile_append_stop (p : Nat → Bool) (l rest : List Nat)
    (hl : ∀ c ∈ l, p c = true) (hr : ∀ c, rest.head? = some c → p c = false) :
    (l ++ rest).dropWhile p = rest := by
  induction l with
  | nil =>
    cases rest with
    | nil => rfl
    | cons c cs => simp [List.dropWhile, hr c]
  | cons a l ih =>
    have ha : p a = true := hl a (List.mem_cons_self _ _)
    simp only [List.cons_append, List.dropWhile_cons, ha, if_true]
    exact ih (fun c hc => hl c (List.mem_cons_of_mem _ hc))

theorem strstr_cons (c : Nat) (cs needle : List Nat) :
    strstr (c :: cs) needle =
      if startsWith needle (c :: cs) then some (c :: cs)
      else if c = 0 then none else strstr cs needle := by
  rw [strstr]

theorem strchr_cons (c : Nat) (cs : List Nat) (ch : Nat) :
    strchr (c :: cs) ch =
      if c = ch then some (c :: cs) else if c = 0 then none else strchr cs ch := by
  rw [strchr]

/-- Scanning over a NUL-free stretch in which the needle never starts. -/
theorem strstr_skip (needle : List Nat) (lead rest : List Nat)
    (h0 : ∀ c ∈ lead, c ≠ 0)
    (hno : ∀ a b, lead = a ++ b → b ≠ [] → startsWith needle (b ++ rest) = false) :
    strstr (lead ++ rest) needle = strstr rest needle := by
  induction lead with
  | nil => rfl
  | cons c cs ih =>
    have h1 : startsWith needle (c :: cs ++ rest) = false :=
      hno [] (c :: cs) rfl (by simp)
    have hc : c ≠ 0 := h0 c (List.mem_cons_self _ _)
    have h1' : startsWith needle (c :: (cs ++ rest)) = false := by simpa using h1
    rw [List.cons_append, strstr_cons, h1', if_neg (by simp), if_neg hc]
    apply ih (fun x hx => h0 x (List.mem_cons_of_mem _ hx))
    intro a b hab hb
    exact hno (c :: a) b (by simp [hab]) hb

theorem strstr_here (needle rest : List Nat) (hn : needle ≠ []) :
    strstr (needle ++ rest) needle = some (needle ++ rest) := by
  cases needle with
  | nil => exact absurd rfl hn
  | cons a n =>
    have := startsWith_append (a :: n) rest
    simp only [List.cons_append] at this
    rw [List.cons_append, strstr_cons, this, if_pos rfl]

/-- The literal `"+CIEV:"` cannot start inside a stretch that is followed by
`"+CIEV:"` unless it lies wholly inside the stretch: its only `+` is its first byte. -/
theorem ciev_no_overlap (b rest : List Nat) (hb : b ≠ []) (hin : ¬ CIEV <+: b) :
    startsWith CIEV (b ++ (CIEV ++ rest)) = false := by
  rcases b with _ | ⟨b0, _ | ⟨b1, _ | ⟨b2, _ | ⟨b3, _ | ⟨b4, _ | ⟨b5, b⟩⟩⟩⟩⟩⟩
  · exact absurd rfl hb
  all_goals first
    | (simp only [CIEV, List.cons_append, List.nil_append, startsWith, Bool.and_eq_false_iff,
        Bool.and_eq_true, beq_iff_eq, beq_eq_false_iff_ne, ne_eq, Bool.and_true]; omega)
    | skip
  · by_contra hc
    apply hin
    rw [← startsWith_prefix_iff]
    simp only [CIEV, List.cons_append, startsWith, Bool.and_eq_true, beq_iff_eq,
      Bool.not_eq_false] at hc ⊢
    simpa using hc

theorem strstr_ciev (lead rest : List Nat) (h0 : ∀ c ∈ lead, c ≠ 0)
    (hno : ¬ CIEV <:+: lead) :
    strstr (lead ++ (CIEV ++ rest)) CIEV = some (CIEV ++ rest) := by
  rw [strstr_skip CIEV lead (CIEV ++ rest) h0, strstr_here CIEV rest (by simp [CIEV])]
  intro a b hab hb
  apply ciev_no_overlap b rest hb
  intro hp
  apply hno
  obtain ⟨t, ht⟩ := hp
  exact ⟨a, t, by rw [hab, ← ht]; simp⟩

theorem isdigit_not_isspace (c : Nat) (h : isdigit c = true) : isspace c = false := by
  simp only [isdigit, isspace, Bool.and_eq_true, decide_eq_true_eq, Bool.or_eq_false_iff,
    beq_eq_false_iff_ne, ne_eq, Bool.and_eq_false_iff, decide_eq_false_iff_not] at h ⊢
  omega

theorem dropWhile_cons_stop (p : Nat → Bool) (c : Nat) (l : List Nat) (h : p c = false) :
    (c :: l).dropWhile p = c :: l := by
  simp [List.dropWhile, h]

/-- `strtol` on a numeral that is not followed by a further digit converts the
whole numeral and stops right after it. -/
theorem strtol_numeral (sg : Sign) (ds rest : List Nat) (hne : ds ≠ [])
    (hds : ∀ c ∈ ds, isdigit c = true)
    (hrest : ∀ c, rest.head? = some c → isdigit c = false) :
    strtol (numeral sg ds ++ rest) =
      (max LONG_MIN (min LONG_MAX (numeralVal sg ds)), rest) := by
  obtain ⟨d, ds', rfl⟩ := List.exists_cons_of_ne_nil hne
  have hd : isdigit d = true := hds d (List.mem_cons_self _ _)
  have hdsp : isspace d = false := isdigit_not_isspace d hd
  have hd45 : d ≠ 45 := by
    intro h; subst h; simp [isdigit] at hd
  have hd43 : d ≠ 43 := by
    intro h; subst h; simp [isdigit] at hd
  have htake : ((d :: ds') ++ rest).takeWhile isdigit = d :: ds' :=
    takeWhile_append_stop isdigit _ _ hds hrest
  have hdrop : ((d :: ds') ++ rest).dropWhile isdigit = rest :=
    dropWhile_append_stop isdigit _ _ hds hrest
  cases sg with
  | bare =>
    have h1 : (numeral Sign.bare (d :: ds') ++ rest).dropWhile isspace
        = (d :: ds') ++ rest := by
      simp only [numeral, Sign.toBytes, List.nil_append, List.cons_append]
      exact dropWhile_cons_stop isspace d _ hdsp
    have hc : ((some d : Option Nat) == some 43) = false := by simp [hd43]
    have hn : ((some d : Option Nat) == some 45) = false := by simp [hd45]
    unfold strtol
    simp only [h1]
    simp only [List.cons_append, List.head?_cons, hc, hn, Bool.or_self, Bool.false_eq_true, if_false]
    rw [← List.cons_append, htake, hdrop]
    simp [numeralVal]
  | plus =>
    have h1 : (numeral Sign.plus (d :: ds') ++ rest).dropWhile isspace
        = 43 :: ((d :: ds') ++ rest) := by
      simp only [numeral, Sign.toBytes, List.cons_append, List.nil_append]
      exact dropWhile_cons_stop isspace 43 _ (by decide)
    have hc : ((some 43 : Option Nat) == some 43) = true := by decide
    have hn : ((some 43 : Option Nat) == some 45) = false := by decide
    unfold strtol
    simp only [h1]
    simp only [List.head?_cons, List.tail_cons, hc, hn, Bool.false_or, Bool.false_eq_true,
      if_false, if_true]
    rw [htake, hdrop]
    simp [numeralVal]
  | minus =>
    have h1 : (numeral Sign.minus (d :: ds') ++ rest).dropWhile isspace
        = 45 :: ((d :: ds') ++ rest) := by
      simp only [numeral, Sign.toBytes, List.cons_append, List.nil_append]
      exact dropWhile_cons_stop isspace 45 _ (by decide)
    have hc : ((some 45 : Option Nat) == some 43) = false := by decide
    have hn : ((some 45 : Option Nat) == some 45) = true := by decide
    unfold strtol
    simp only [h1]
    simp only [List.head?_cons, List.tail_cons, hc, hn, Bool.or_false, if_true]
    rw [htake, hdrop]
    simp [numeralVal]

theorem numeral_ne_nil (sg : Sign) (ds : List Nat) (hne : ds ≠ []) : numeral sg ds ≠ [] := by
  cases sg <;> simp [numeral, Sign.toBytes, hne]

theorem clamp_long_of_int (v : Int) (h1 : INT_MIN ≤ v) (h2 : v ≤ INT_MAX) :
    max LONG_MIN (min LONG_MAX v) = v := by
  simp only [INT_MIN, INT_MAX, LONG_MIN, LONG_MAX] at *
  omega

theorem toInt32_of_int (v : Int) (h1 : INT_MIN ≤ v) (h2 : v ≤ INT_MAX) : toInt32 v = v := by
  simp only [INT_MIN, INT_MAX, toInt32] at *
  omega

theorem numeral_head_not_blank (sg : Sign) (ds r : List Nat) (hne : ds ≠ [])
    (hds : ∀ c ∈ ds, isdigit c = true) :
    ∀ c, (numeral sg ds ++ r).head? = some c → isBlank c = false := by
  obtain ⟨d, ds', rfl⟩ := List.exists_cons_of_ne_nil hne
  have hd : isdigit d = true := hds d (List.mem_cons_self _ _)
  intro c hc
  cases sg <;>
    simp only [numeral, Sign.toBytes, List.nil_append, List.cons_append, List.head?_cons,
      Option.some.injEq] at hc <;> subst hc
  · simp only [isdigit, isBlank, Bool.and_eq_true, decide_eq_true_eq, Bool.or_eq_false_iff,
      beq_eq_false_iff_ne, ne_eq] at hd ⊢
    omega
  · decide
  · decide

theorem blanks_comma_head_not_digit (ws r : List Nat) (hws : ∀ c ∈ ws, isBlank c = true) :
    ∀ c, (ws ++ 44 :: r).head? = some c → isdigit c = false := by
  intro c hc
  cases ws with
  | nil =>
    simp only [List.nil_append, List.head?_cons, Option.some.injEq] at hc
    subst hc; decide
  | cons w ws =>
    simp only [List.cons_append, List.head?_cons, Option.some.injEq] at hc
    subst hc
    have := hws w (List.mem_cons_self _ _)
    simp only [isdigit, isBlank, Bool.or_eq_true, beq_iff_eq, Bool.and_eq_false_iff,
      decide_eq_false_iff_not] at this ⊢
    omega

theorem length_append_ne (a r : List Nat) (ha : a ≠ []) : ¬ r.length = (a ++ r).length := by
  have : 0 < a.length := List.length_pos.mpr ha
  simp only [List.length_append]
  omega

/-- What `parse_ciev` computes on a buffer whose first `"+CIEV:"` is followed
by two numerals separated by a comma, with blanks allowed around them. -/
theorem parse_ciev_numerals (lead ws1 ws2 ws3 trail : List Nat) (sgi sgv : Sign)
    (di dv : List Nat) (ind0 val0 : Int)
    (hlead0 : ∀ c ∈ lead, c ≠ 0) (hlead : ¬ CIEV <:+: lead)
    (hws1 : ∀ c ∈ ws1, isBlank c = true) (hws2 : ∀ c ∈ ws2, isBlank c = true)
    (hws3 : ∀ c ∈ ws3, isBlank c = true)
    (hdi : di ≠ []) (hdi' : ∀ c ∈ di, isdigit c = true)
    (hdv : dv ≠ []) (hdv' : ∀ c ∈ dv, isdigit c = true)
    (htrail : ∀ c, trail.head? = some c → isdigit c = false) :
    parse_ciev (lead ++ (CIEV ++ (ws1 ++ (numeral sgi di ++ (ws2 ++ 44 ::
        (ws3 ++ (numeral sgv dv ++ trail))))))) ind0 val0 =
      (true, toInt32 (max LONG_MIN (min LONG_MAX (numeralVal sgi di))),
        toInt32 (max LONG_MIN (min LONG_MAX (numeralVal sgv dv)))) := by
  unfold parse_ciev
  rw [strstr_ciev lead _ hlead0 hlead]
  simp only [List.drop_left]
  have hA : skipBlanks (ws1 ++ (numeral sgi di ++ (ws2 ++ 44 :: (ws3 ++ (numeral sgv dv ++ trail)))))
      = numeral sgi di ++ (ws2 ++ 44 :: (ws3 ++ (numeral sgv dv ++ trail))) :=
    dropWhile_append_stop isBlank _ _ hws1 (numeral_head_not_blank sgi di _ hdi hdi')
  have hB := strtol_numeral sgi di (ws2 ++ 44 :: (ws3 ++ (numeral sgv dv ++ trail))) hdi hdi'
    (blanks_comma_head_not_digit ws2 _ hws2)
  have hC : skipBlanks (ws2 ++ 44 :: (ws3 ++ (numeral sgv dv ++ trail)))
      = 44 :: (ws3 ++ (numeral sgv dv ++ trail)) :=
    dropWhile_append_stop isBlank _ _ hws2 (by
      intro c hc
      simp only [List.head?_cons, Option.some.injEq] at hc
      subst hc; decide)
  have hD : skipBlanks (ws3 ++ (numeral sgv dv ++ trail)) = numeral sgv dv ++ trail :=
    dropWhile_append_stop isBlank _ _ hws3 (numeral_head_not_blank sgv dv _ hdv hdv')
  have hE := strtol_numeral sgv dv trail hdv hdv' htrail
  rw [hA, hB]
  simp only [length_append_ne _ _ (numeral_ne_nil sgi di hdi), if_false, hC, List.head?_cons,
    List.tail_cons, hD, hE, length_append_ne _ _ (numeral_ne_nil sgv dv hdv), bne_self_eq_false,
    Bool.false_eq_true]

/-! ## Frame lemmas for the listener thread -/

theorem calm_refl (st : Phone) : Calm st st :=
  ⟨rfl, rfl, rfl, rfl, rfl, rfl, rfl, rfl, rfl⟩

theorem calm_trans {a b c : Phone} (h1 : Calm a b) (h2 : Calm b c) : Calm a c := by
  obtain ⟨a1, a2, a3, a4, a5, a6, a7, a8, a9⟩ := h1
  obtain ⟨b1, b2, b3, b4, b5, b6, b7, b8, b9⟩ := h2
  exact ⟨b1.trans a1, b2.trans a2, b3.trans a3, b4.trans a4, b5.trans a5, b6.trans a6,
    b7.trans a7, b8.trans a8, b9.trans a9⟩

theorem quiet_refl (st : Phone) : Quiet st st :=
  ⟨calm_refl st, [], by simp, by simp⟩

theorem quiet_trans {a b c : Phone} (h1 : Quiet a b) (h2 : Quiet b c) : Quiet a c := by
  obtain ⟨c1, e1, hq1, he1⟩ := h1
  obtain ⟨c2, e2, hq2, he2⟩ := h2
  refine ⟨calm_trans c1 c2, e1 ++ e2, ?_, ?_⟩
  · rw [hq2, hq1, List.append_assoc]
  · intro cb hcb
    rcases List.mem_append.mp hcb with h | h
    · exact he1 cb h
    · exact he2 cb h

theorem quiet_log_msg {st x : Phone} (h : Quiet st x) : Quiet st (log_msg x) :=
  quiet_trans h ⟨calm_refl _, [IdleCb.append_log_ui], rfl, by simp⟩

theorem quiet_emit {st x : Phone} (e : Effect) (he : e ≠ Effect.g_timeout_add)
    (h : Quiet st x) : Quiet st (emit e x) := by
  refine quiet_trans h ⟨⟨rfl, rfl, rfl, rfl, rfl, rfl, rfl, rfl, ?_⟩, [], by simp [emit], by simp⟩
  simp only [emit, List.count_append, List.count_singleton]
  have : (e == Effect.g_timeout_add) = false := by simpa using he
  simp [this]

theorem quiet_set_sco_socket {st x : Phone} (v : Int) (h : Quiet st x) :
    Quiet st (set_sco_socket v x) :=
  quiet_trans h ⟨calm_refl _, [], by simp [set_sco_socket], by simp⟩

theorem quiet_set_sco_audio_running {st x : Phone} (v : Bool) (h : Quiet st x) :
    Quiet st (set_sco_audio_running v x) :=
  quiet_trans h ⟨calm_refl _, [], by simp [set_sco_audio_running], by simp⟩

theorem quiet_set_sco_mtu {st x : Phone} (v : Int) (h : Quiet st x) :
    Quiet st (set_sco_mtu v x) :=
  quiet_trans h ⟨calm_refl _, [], by simp [set_sco_mtu], by simp⟩

theorem quiet_set_aec_enabled {st x : Phone} (v : Bool) (h : Quiet st x) :
    Quiet st (set_aec_enabled v x) :=
  quiet_trans h ⟨calm_refl _, [], by simp [set_aec_enabled], by simp⟩

theorem quiet_clear_fifo {st x : Phone} (h : Quiet st x) : Quiet st (clear_fifo x) :=
  quiet_trans h ⟨calm_refl _, [], by simp [clear_fifo], by simp⟩

theorem quiet_close_sco_socket {st x : Phone} (h : Quiet st x) :
    Quiet st (close_sco_socket x) := by
  unfold close_sco_socket
  exact quiet_set_sco_socket _ (quiet_emit _ (by simp) (quiet_emit _ (by simp) h))

theorem quiet_stop_sco_audio {st x : Phone} (h : Quiet st x) :
    Quiet st (stop_sco_audio false x) := by
  unfold stop_sco_audio shutdown_webrtc_aec
  simp only [Bool.false_and, Bool.false_eq_true, if_false]
  apply quiet_clear_fifo
  apply quiet_set_aec_enabled
  split_ifs
  · exact quiet_close_sco_socket (quiet_set_sco_audio_running _ h)
  · exact quiet_set_sco_audio_running _ h

theorem quiet_sco_connected {st x : Phone} (env : ScoEnv) (h : Quiet st x) :
    Quiet st (sco_connected env x).2 := by
  unfold sco_connected init_webrtc_aec
  simp only []
  apply quiet_emit _ (by simp)
  apply quiet_emit _ (by simp)
  apply quiet_set_sco_audio_running
  apply quiet_clear_fifo
  apply quiet_log_msg
  apply quiet_set_aec_enabled
  split
  · exact quiet_log_msg (quiet_set_sco_mtu _ (quiet_log_msg h))
  · exact quiet_log_msg (quiet_set_sco_mtu _ (quiet_log_msg h))

theorem quiet_sco_close_previous {st x : Phone} (h : Quiet st x) :
    Quiet st (sco_close_previous x) := by
  unfold sco_close_previous
  simp only []
  split_ifs
  · exact quiet_close_sco_socket (quiet_stop_sco_audio (quiet_log_msg h))
  · exact quiet_stop_sco_audio (quiet_log_msg h)
  · exact quiet_close_sco_socket h
  · exact h

theorem quiet_sco_connect_retry {st x : Phone} (env : ScoEnv) (h : Quiet st x) :
    Quiet st (sco_connect_retry env x).2 := by
  unfold sco_connect_retry
  simp only []
  split_ifs
  · exact quiet_sco_connected env (quiet_log_msg (quiet_set_sco_socket _ (quiet_log_msg h)))
  · exact quiet_set_sco_socket _ (quiet_emit _ (by simp)
      (quiet_set_sco_socket _ (quiet_log_msg h)))
  · exact quiet_set_sco_socket _ (quiet_log_msg h)

theorem quiet_sco_connect_failed {st x : Phone} (env : ScoEnv) (h : Quiet st x) :
    Quiet st (sco_connect_failed env x).2 := by
  unfold sco_connect_failed
  simp only []
  split_ifs
  · exact quiet_sco_connect_retry env
      (quiet_set_sco_socket _ (quiet_emit _ (by simp) (quiet_log_msg h)))
  · exact quiet_set_sco_socket _ (quiet_emit _ (by simp) (quiet_log_msg h))

theorem quiet_sco_connect {st x : Phone} (env : ScoEnv) (h : Quiet st x) :
    Quiet st (sco_connect env x).2 := by
  have h0 : Quiet st (emit Effect.sco_connect x) := quiet_emit _ (by simp) h
  have h1 := quiet_set_sco_socket env.socket1 (quiet_sco_close_previous h0)
  unfold sco_connect
  simp only []
  split_ifs
  · exact h0
  · exact quiet_log_msg h1
  · exact quiet_sco_connect_failed env (quiet_log_msg h1)
  · exact quiet_sco_connect_failed env (quiet_log_msg (quiet_log_msg h1))
  · exact quiet_sco_connected env (quiet_log_msg h1)
  · exact quiet_sco_connected env (quiet_log_msg (quiet_log_msg h1))

theorem quiet_sco_connect_if_closed {st x : Phone} (env : ScoEnv) (h : Quiet st x) :
    Quiet st (sco_connect_if_closed env x) := by
  unfold sco_connect_if_closed
  split_ifs
  · exact quiet_sco_connect env h
  · exact h

/-! ## The main loop -/

theorem quiet_start_incoming_call_listener {st x : Phone} (h : Quiet st x) :
    Quiet st (start_incoming_call_listener x) := by
  unfold start_incoming_call_listener
  split_ifs
  · exact h
  · exact h
  · exact quiet_trans h ⟨calm_refl _, [], by simp, by simp⟩

theorem quiet_dispatch (cb : IdleCb) (hcb : cb.isTransition = false) (s : Phone) :
    Quiet s (dispatch cb s) := by
  cases cb with
  | hfp_update_call_state_cb X => simp [IdleCb.isTransition] at hcb
  | hfp_refresh_ui_cb => exact quiet_emit _ (by simp) (quiet_refl s)
  | restart_incoming_listener_cb =>
    simp only [dispatch, restart_incoming_listener_cb]
    split_ifs
    · exact quiet_start_incoming_call_listener (quiet_log_msg (quiet_refl s))
    · exact quiet_refl s
  | append_log_ui => exact quiet_refl s
  | lambda_log => exact quiet_log_msg (quiet_refl s)

theorem run_callbacks_append (a b : List IdleCb) (s : Phone) :
    run_callbacks (a ++ b) s = run_callbacks b (run_callbacks a s) := by
  simp [run_callbacks, List.foldl_append]

theorem run_callbacks_cons (cb : IdleCb) (l : List IdleCb) (s : Phone) :
    run_callbacks (cb :: l) s = run_callbacks l (dispatch cb s) := rfl

theorem run_callbacks_nil (s : Phone) : run_callbacks [] s = s := rfl

theorem quiet_run_callbacks (l : List IdleCb) (hl : ∀ cb ∈ l, cb.isTransition = false)
    (s : Phone) : Quiet s (run_callbacks l s) := by
  induction l generalizing s with
  | nil => exact quiet_refl s
  | cons cb l ih =>
    rw [run_callbacks_cons]
    exact quiet_trans (quiet_dispatch cb (hl cb (List.mem_cons_self _ _)) s)
      (ih (fun c hc => hl c (List.mem_cons_of_mem _ hc)) _)

theorem logs_not_transition (l : List IdleCb) (hl : ∀ cb ∈ l, cb = IdleCb.append_log_ui) :
    ∀ cb ∈ l, cb.isTransition = false := by
  intro cb hcb
  rw [hl cb hcb]
  rfl

theorem calm_clear_queue (s : Phone) : Calm s { s with idle_queue := [] } :=
  calm_refl s

@[simp] theorem cs_emit (e : Effect) (s : Phone) :
    (emit e s).current_call_state = s.current_call_state := rfl

@[simp] theorem cs_g_idle_add (cb : IdleCb) (s : Phone) :
    (g_idle_add cb s).current_call_state = s.current_call_state := rfl

@[simp] theorem cs_log_msg (s : Phone) :
    (log_msg s).current_call_state = s.current_call_state := rfl

@[simp] theorem cs_set_current_call_state (v : CallState) (s : Phone) :
    (set_current_call_state v s).current_call_state = v := rfl

@[simp] theorem cs_update_ui (s : Phone) :
    (update_ui s).current_call_state = s.current_call_state := rfl

@[simp] theorem cs_update_call_ui (s : Phone) :
    (update_call_ui s).current_call_state = s.current_call_state := rfl

@[simp] theorem cs_bring_window_to_front (s : Phone) :
    (bring_window_to_front s).current_call_state = s.current_call_state := rfl

@[simp] theorem cs_start_ringtone (s : Phone) :
    (start_ringtone s).current_call_state = s.current_call_state := by
  unfold start_ringtone
  split_ifs <;> rfl

@[simp] theorem cs_stop_ringtone (s : Phone) :
    (stop_ringtone s).current_call_state = s.current_call_state := by
  unfold stop_ringtone
  split_ifs <;> rfl

@[simp] theorem cs_stop_sco_audio (s : Phone) :
    (stop_sco_audio false s).current_call_state = s.current_call_state :=
  (quiet_stop_sco_audio (quiet_refl s)).1.1

@[simp] theorem cs_clear_call_info (s : Phone) :
    (clear_call_info s).current_call_state = s.current_call_state := rfl

@[simp] theorem rt_emit (e : Effect) (s : Phone) :
    (emit e s).ringtone_timer_id = s.ringtone_timer_id := rfl

@[simp] theorem rt_set_current_call_state (v : CallState) (s : Phone) :
    (set_current_call_state v s).ringtone_timer_id = s.ringtone_timer_id := rfl

@[simp] theorem rt_update_ui (s : Phone) :
    (update_ui s).ringtone_timer_id = s.ringtone_timer_id := rfl

@[simp] theorem rt_update_call_ui (s : Phone) :
    (update_call_ui s).ringtone_timer_id = s.ringtone_timer_id := rfl

@[simp] theorem rt_bring_window_to_front (s : Phone) :
    (bring_window_to_front s).ringtone_timer_id = s.ringtone_timer_id := rfl

@[simp] theorem rt_stop_sco_audio (s : Phone) :
    (stop_sco_audio false s).ringtone_timer_id = s.ringtone_timer_id :=
  (quiet_stop_sco_audio (quiet_refl s)).1.2.2.2.1

@[simp] theorem rt_stop_ringtone (s : Phone) : (stop_ringtone s).ringtone_timer_id = 0 := by
  unfold stop_ringtone
  split_ifs with h
  · exact h
  · rfl

theorem cs_set_call_state (X : CallState) (s : Phone) :
    (set_call_state X s).current_call_state = X := by
  unfold set_call_state
  split_ifs with h1
  · exact h1
  · simp only [cs_set_current_call_state, cs_update_call_ui]
    have key : (if X = CallState.CALL_RINGING then
        bring_window_to_front (start_ringtone (set_current_call_state X s))
        else stop_ringtone (set_current_call_state X s)).current_call_state = X := by
      split_ifs <;> simp
    generalize (if X = CallState.CALL_RINGING then
        bring_window_to_front (start_ringtone (set_current_call_state X s))
        else stop_ringtone (set_current_call_state X s)) = t at key
    split_ifs <;> simp [key]

theorem cs_hfp_update_call_state_cb (X : CallState) (s : Phone) :
    (hfp_update_call_state_cb X s).current_call_state = X := by
  unfold hfp_update_call_state_cb
  simp [cs_set_call_state]

/-- Entering Ringing from another state with no timer armed: one timer is
started and its id recorded. -/
theorem hfp_update_enter_ringing (s : Phone)
    (h1 : s.current_call_state ≠ CallState.CALL_RINGING) (h2 : s.ringtone_timer_id = 0) :
    (hfp_update_call_state_cb CallState.CALL_RINGING s).ringtone_timer_id = s.glib_sources + 1 ∧
    (hfp_update_call_state_cb CallState.CALL_RINGING s).trace.count Effect.g_timeout_add =
      s.trace.count Effect.g_timeout_add + 1 := by
  unfold hfp_update_call_state_cb set_call_state
  simp only [reduceCtorEq, if_false, h1, cs_set_current_call_state, if_true,
    cs_bring_window_to_front, cs_start_ringtone]
  unfold update_ui update_call_ui bring_window_to_front start_ringtone
  have h3 : (set_current_call_state CallState.CALL_RINGING s).ringtone_timer_id = 0 := h2
  simp only [h3, ne_eq, not_true_eq_false, if_false]
  simp [emit, g_timeout_add, set_ringtone_timer_id, set_current_call_state, List.count_append,
    List.count_singleton]

/-- Asking for Ringing while Ringing only refreshes the window. -/
theorem hfp_update_reenter_ringing (s : Phone)
    (h1 : s.current_call_state = CallState.CALL_RINGING) :
    hfp_update_call_state_cb CallState.CALL_RINGING s = update_ui s := by
  unfold hfp_update_call_state_cb set_call_state
  simp [h1]

/-- Going to Active from another state disarms the timer. -/
theorem hfp_update_active_timer (s : Phone)
    (h1 : s.current_call_state ≠ CallState.CALL_ACTIVE) :
    (hfp_update_call_state_cb CallState.CALL_ACTIVE s).ringtone_timer_id = 0 := by
  unfold hfp_update_call_state_cb set_call_state
  simp [h1]

/-- A main-loop turn on a queue without transitions leaves the call alone. -/
theorem main_iteration_calm (r : Phone) (h : ∀ cb ∈ r.idle_queue, cb.isTransition = false) :
    Calm r (g_main_iteration r) :=
  calm_trans (calm_clear_queue r) (quiet_run_callbacks _ h _).1

/-- A main-loop turn on a queue whose first transition is `X`: the callbacks
before it leave the call alone, then `X` is applied and the rest of the queue runs. -/
theorem main_iteration_first_transition (r : Phone) (q0 rest : List IdleCb) (X : CallState)
    (hq : r.idle_queue = q0 ++ IdleCb.hfp_update_call_state_cb X :: rest)
    (h0 : ∀ cb ∈ q0, cb.isTransition = false) :
    ∃ s1, Calm r s1 ∧
      g_main_iteration r = run_callbacks rest (hfp_update_call_state_cb X s1) := by
  refine ⟨run_callbacks q0 { r with idle_queue := [] },
    calm_trans (calm_clear_queue r) (quiet_run_callbacks _ h0 _).1, ?_⟩
  unfold g_main_iteration
  rw [hq, run_callbacks_append, run_callbacks_cons]
  rfl

/-- A listener step that queues nothing but log lines, followed by a
main-loop turn, leaves the call state as it was. -/
theorem final_call_of_quiet (st r : Phone) (h : Quiet st r)
    (hq : ∀ cb ∈ st.idle_queue, cb.isTransition = false) :
    (g_main_iteration r).current_call_state = st.current_call_state := by
  obtain ⟨hc, e, he, hl⟩ := h
  have hr : ∀ cb ∈ r.idle_queue, cb.isTransition = false := by
    intro cb hcb
    rw [he] at hcb
    rcases List.mem_append.mp hcb with h1 | h1
    · exact hq cb h1
    · exact logs_not_transition e hl cb h1
  rw [(main_iteration_calm r hr).1, hc.1]

/-- A listener step that queues the transition `X` among log lines, followed
by a main-loop turn: `X` is applied to a state that agrees with `st` on the
call, and only log callbacks and the like run after it. -/
theorem final_of_request (st a r : Phone) (X : CallState) (h1 : Quiet st a)
    (h2 : Quiet (g_idle_add (IdleCb.hfp_update_call_state_cb X) a) r)
    (hq : ∀ cb ∈ st.idle_queue, cb.isTransition = false) :
    ∃ s1, Calm st s1 ∧ Quiet (hfp_update_call_state_cb X s1) (g_main_iteration r) := by
  obtain ⟨hc1, e1, he1, hl1⟩ := h1
  obtain ⟨hc2, e2, he2, hl2⟩ := h2
  have hrq : r.idle_queue =
      (st.idle_queue ++ e1) ++ IdleCb.hfp_update_call_state_cb X :: e2 := by
    rw [he2]
    simp [g_idle_add, he1]
  have h0 : ∀ cb ∈ st.idle_queue ++ e1, cb.isTransition = false := by
    intro cb hcb
    rcases List.mem_append.mp hcb with h | h
    · exact hq cb h
    · exact logs_not_transition e1 hl1 cb h
  obtain ⟨s1, hs1, hrun⟩ := main_iteration_first_transition r _ e2 X hrq h0
  refine ⟨s1, ?_, ?_⟩
  · exact calm_trans (calm_trans hc1 hc2) hs1
  · rw [hrun]
    exact quiet_run_callbacks e2 (logs_not_transition e2 hl2) _

theorem final_call_of_request (st a r : Phone) (X : CallState) (h1 : Quiet st a)
    (h2 : Quiet (g_idle_add (IdleCb.hfp_update_call_state_cb X) a) r)
    (hq : ∀ cb ∈ st.idle_queue, cb.isTransition = false) :
    (g_main_iteration r).current_call_state = X := by
  obtain ⟨s1, _, hfinal⟩ := final_of_request st a r X h1 h2 hq
  rw [hfinal.1.1, cs_hfp_update_call_state_cb]

/-! ## Claims on the call state machine -/

/-- C1: for every call state `s` and every parsed event `(ind, val)`, once
`handle_ciev_event(ind, val)` and the transition it queued have run (no other
transition being pending), the call state is: `(1,1)` Active; `(1,0)` Idle;
`(2,0)` Active if `s` is Active and Idle otherwise; `(2,1)` Ringing; `(2,2)` and
`(2,3)` Outgoing; `s` itself for every other event. -/
theorem handle_ciev_event_call_state (env : ScoEnv) (st : Phone) (ind val : Int)
    (hq : ∀ cb ∈ st.idle_queue, cb.isTransition = false) :
    (g_main_iteration (handle_ciev_event env ind val st)).current_call_state =
      ciev_target st.current_call_state ind val := by
  have hlog : Quiet st (log_msg st) := quiet_log_msg (quiet_refl st)
  unfold handle_ciev_event ciev_target
  by_cases h1 : ind = 1
  · subst h1
    by_cases v1 : val = 1
    · subst v1
      simp only [if_true, and_self]
      exact final_call_of_request st _ _ _ (quiet_sco_connect_if_closed env hlog) (quiet_refl _) hq
    · by_cases v0 : val = 0
      · subst v0
        simp only [if_true, true_and, zero_ne_one, if_false, and_self]
        split_ifs with hs
        · exact final_call_of_request st _ _ _ hlog (quiet_refl _) hq
        · rw [final_call_of_quiet st st (quiet_refl _) hq]
          exact not_not.mp hs
      · have h12 : ¬ ((1 : Int) = 2) := by decide
        simp only [if_true, true_and, v1, v0, if_false, h12, false_and]
        exact final_call_of_quiet st st (quiet_refl _) hq
  · by_cases h2 : ind = 2
    · subst h2
      have h21 : ¬ ((2 : Int) = 1) := by decide
      simp only [h21, if_false, false_and, if_true, true_and]
      by_cases v0 : val = 0
      · subst v0
        simp only [if_true]
        have hA : Quiet st (if st.current_call_state = CallState.CALL_OUTGOING ∨
            st.current_call_state = CallState.CALL_RINGING then log_msg st else st) := by
          split_ifs
          · exact hlog
          · exact quiet_refl st
        have hAc := hA.1.1
        generalize (if st.current_call_state = CallState.CALL_OUTGOING ∨
            st.current_call_state = CallState.CALL_RINGING then log_msg st else st) = a at hA hAc
        rw [hAc]
        by_cases hs : st.current_call_state = CallState.CALL_ACTIVE
        · simp only [hs, ne_eq, not_true_eq_false, if_false, if_true]
          rw [final_call_of_quiet st a hA hq, hs]
        · simp only [hs, ne_eq, not_false_eq_true, if_true, if_false]
          exact final_call_of_request st a _ _ hA (quiet_refl _) hq
      · by_cases v1 : val = 1
        · subst v1
          simp only [one_ne_zero, if_false, if_true]
          split_ifs with hs
          · exact final_call_of_request st _ _ _ hlog (quiet_refl _) hq
          · rw [final_call_of_quiet st st (quiet_refl _) hq]
            exact not_not.mp hs
        · by_cases v23 : val = 2 ∨ val = 3
          · simp only [v0, v1, v23, if_false, if_true]
            by_cases hs : st.current_call_state = CallState.CALL_OUTGOING
            · simp only [hs, ne_eq, not_true_eq_false, if_false]
              rw [final_call_of_quiet st _ (quiet_sco_connect_if_closed env (quiet_refl st)) hq,
                hs]
            · simp only [hs, ne_eq, not_false_eq_true, if_true]
              exact final_call_of_request st _ _ _ hlog
                (quiet_sco_connect_if_closed env (quiet_refl _)) hq
          · simp only [v0, v1, v23, if_false]
            exact final_call_of_quiet st st (quiet_refl _) hq
    · simp only [h1, h2, if_false, false_and]
      exact final_call_of_quiet st st (quiet_refl _) hq

/-- C1 at the event `(2, 1)` received in the idle state: Ringing. -/
theorem handle_ciev_event_call_state_witness :
    (g_main_iteration (handle_ciev_event ScoEnv.ok 2 1
      (Phone.initial [] (bytes "00:11:22:33:44:55")))).current_call_state =
      CallState.CALL_RINGING :=
  handle_ciev_event_call_state ScoEnv.ok (Phone.initial [] (bytes "00:11:22:33:44:55")) 2 1
    (by decide)

/-! ## Claims on `parse_ciev` -/

theorem cstr_append_of_ne_zero (a t : List Nat) (ha : ∀ c ∈ a, c ≠ 0) :
    cstr (a ++ t) = a ++ cstr t := by
  unfold cstr
  rw [List.takeWhile_append_of_pos]
  intro c hc
  simpa using ha c hc

theorem cstr_cons_ne_zero (c : Nat) (cs : List Nat) (hc : c ≠ 0) :
    cstr (c :: cs) = c :: cstr cs := by
  simp [cstr, List.takeWhile_cons, hc]

theorem cstr_cons_zero (cs : List Nat) : cstr (0 :: cs) = [] := by
  simp [cstr, List.takeWhile_cons]

/-- `strstr` finds nothing when the needle does not occur in the C string. -/
theorem strstr_none_of_no_occurrence (needle hay : List Nat) (hne : needle ≠ [])
    (hn0 : ∀ c ∈ needle, c ≠ 0) (h : ¬ needle <:+: cstr hay) : strstr hay needle = none := by
  induction hay with
  | nil => simp [strstr, hne]
  | cons c cs ih =>
    rw [strstr_cons]
    have hsw : startsWith needle (c :: cs) = false := by
      by_contra hc
      have hp : needle <+: c :: cs := (startsWith_prefix_iff _ _).mp (by simpa using hc)
      obtain ⟨t, ht⟩ := hp
      apply h
      rw [← ht, cstr_append_of_ne_zero needle t hn0]
      exact (List.prefix_append _ _).isInfix
    rw [hsw, if_neg (by simp)]
    by_cases hc0 : c = 0
    · rw [if_pos hc0]
    · rw [if_neg hc0]
      apply ih
      intro hin
      apply h
      rw [cstr_cons_ne_zero c cs hc0]
      exact hin.trans (List.suffix_cons c _).isInfix

/-- `strstr` finds the needle when it occurs in the C string. -/
theorem strstr_isSome_of_occurrence (needle hay : List Nat) (h : needle <:+: cstr hay) :
    (strstr hay needle).isSome = true := by
  induction hay with
  | nil =>
    have : needle = [] := by simpa [cstr] using h
    simp [strstr, this]
  | cons c cs ih =>
    rw [strstr_cons]
    by_cases hsw : startsWith needle (c :: cs) = true
    · simp [hsw]
    · rw [if_neg hsw]
      by_cases hc0 : c = 0
      · subst hc0
        rw [cstr_cons_zero] at h
        have hn : needle = [] := by simpa using h
        subst hn
        simp [startsWith] at hsw
      · rw [if_neg hc0]
        apply ih
        rw [cstr_cons_ne_zero c cs hc0] at h
        rcases List.infix_cons_iff.mp h with hp | hi
        · exfalso
          apply hsw
          rw [startsWith_prefix_iff]
          obtain ⟨t, ht⟩ := hp
          have hcs : (c :: cs) = c :: (cstr cs ++ cs.dropWhile (fun c => c != 0)) := by
            simp [cstr]
          rw [hcs, ← List.cons_append, ← ht, List.append_assoc]
          exact List.prefix_append _ _
        · exact hi

/-- `strtol` converts nothing when the text does not begin with a numeral. -/
theorem strtol_no_conversion (p : List Nat) (h : ¬ BeginsNumber p) : strtol p = (0, p) := by
  by_cases hds : (List.takeWhile isdigit
      (if ((p.dropWhile isspace).head? == some 45 || (p.dropWhile isspace).head? == some 43) = true
        then (p.dropWhile isspace).tail else p.dropWhile isspace)).isEmpty = true
  · unfold strtol
    simp only []
    rw [if_pos hds]
  · exfalso
    apply h
    have hp : p = p.takeWhile isspace ++ p.dropWhile isspace :=
      (List.takeWhile_append_dropWhile isspace p).symm
    have hsp : ∀ c ∈ p.takeWhile isspace, isspace c = true := fun c hc => List.mem_takeWhile_imp hc
    generalize p.dropWhile isspace = s at hds hp
    generalize p.takeWhile isspace = sp at hp hsp
    have hdig : ∀ (s1 : List Nat), ∀ c ∈ s1.takeWhile isdigit, isdigit c = true :=
      fun s1 c hc => List.mem_takeWhile_imp hc
    have hne : ∀ (s1 : List Nat), ¬ (s1.takeWhile isdigit).isEmpty = true →
        s1.takeWhile isdigit ≠ [] := by
      intro s1 h1 h2
      rw [h2] at h1
      simp at h1
    rcases s with _ | ⟨c, t⟩
    · simp at hds
    · by_cases h45 : c = 45
      · subst h45
        have hc : ((some 45 : Option Nat) == some 45 || (some 45 : Option Nat) == some 43) = true := by
          decide
        rw [List.head?_cons, List.tail_cons, if_pos hc] at hds
        refine ⟨sp, Sign.minus, t.takeWhile isdigit, t.dropWhile isdigit, ?_, hsp, hne t hds,
          hdig t⟩
        rw [hp]
        simp [numeral, Sign.toBytes]
      · by_cases h43 : c = 43
        · subst h43
          have hc : ((some 43 : Option Nat) == some 45 || (some 43 : Option Nat) == some 43) = true := by
            decide
          rw [List.head?_cons, List.tail_cons, if_pos hc] at hds
          refine ⟨sp, Sign.plus, t.takeWhile isdigit, t.dropWhile isdigit, ?_, hsp, hne t hds,
            hdig t⟩
          rw [hp]
          simp [numeral, Sign.toBytes]
        · have hc : ¬ ((some c : Option Nat) == some 45 || (some c : Option Nat) == some 43) = true := by
            simp [h45, h43]
          rw [List.head?_cons, if_neg hc] at hds
          refine ⟨sp, Sign.bare, (c :: t).takeWhile isdigit, (c :: t).dropWhile isdigit, ?_,
            hsp, hne _ hds, hdig _⟩
          rw [hp]
          simp [numeral, Sign.toBytes]

theorem isBlank_isspace (c : Nat) (h : isBlank c = true) : isspace c = true := by
  simp only [isBlank, isspace, Bool.or_eq_true, beq_iff_eq, Bool.and_eq_true,
    decide_eq_true_eq] at h ⊢
  omega

/-- Leading blanks do not change whether a text begins with a numeral. -/
theorem not_beginsNumber_skipBlanks (t : List Nat) (h : ¬ BeginsNumber t) :
    ¬ BeginsNumber (skipBlanks t) := by
  rintro ⟨sp, sg, ds, rest, heq, hsp, hne, hds⟩
  apply h
  refine ⟨t.takeWhile isBlank ++ sp, sg, ds, rest, ?_, ?_, hne, hds⟩
  · rw [List.append_assoc, ← heq]
    exact (List.takeWhile_append_dropWhile isBlank t).symm
  · intro c hc
    rcases List.mem_append.mp hc with h1 | h1
    · exact isBlank_isspace c (List.mem_takeWhile_imp h1)
    · exact hsp c h1

/-- A text whose first byte is neither white space, a sign nor a digit (or
that is empty) does not begin with a numeral. -/
theorem not_beginsNumber_of_head (t : List Nat)
    (h : ∀ c, t.head? = some c → isspace c = false ∧ c ≠ 43 ∧ c ≠ 45 ∧ isdigit c = false) :
    ¬ BeginsNumber t := by
  rintro ⟨sp, sg, ds, rest, heq, hsp, hne, hds⟩
  obtain ⟨d, ds', rfl⟩ := List.exists_cons_of_ne_nil hne
  have hd := hds d (List.mem_cons_self _ _)
  subst heq
  rcases sp with _ | ⟨c, sp⟩
  · cases sg
    · have := h d (by simp [numeral, Sign.toBytes])
      rw [hd] at this
      simp at this
    · have := h 43 (by simp [numeral, Sign.toBytes])
      simp at this
    · have := h 45 (by simp [numeral, Sign.toBytes])
      simp at this
  · have := h c (by simp)
    rw [hsp c (List.mem_cons_self _ _)] at this
    simp at this

/-- White space in front does not make a text begin with a numeral. -/
theorem not_beginsNumber_space_cons (c : Nat) (t : List Nat) (hc : isspace c = true)
    (h : ¬ BeginsNumber t) : ¬ BeginsNumber (c :: t) := by
  rintro ⟨sp, sg, ds, rest, heq, hsp, hne, hds⟩
  rcases sp with _ | ⟨c', sp⟩
  · obtain ⟨d, ds', rfl⟩ := List.exists_cons_of_ne_nil hne
    have hd := hds d (List.mem_cons_self _ _)
    cases sg <;>
      simp only [numeral, Sign.toBytes, List.nil_append, List.cons_append, List.cons.injEq]
        at heq
    · rw [heq.1, isdigit_not_isspace d hd] at hc
      simp at hc
    · rw [heq.1] at hc
      simp [isspace] at hc
    · rw [heq.1] at hc
      simp [isspace] at hc
  · simp only [List.cons_append, List.cons.injEq] at heq
    exact h ⟨sp, sg, ds, rest, heq.2, fun x hx => hsp x (List.mem_cons_of_mem _ hx), hne, hds⟩

theorem isBlank_of_eq (ws : List Nat) (h : ∀ c ∈ ws, c = 32 ∨ c = 9) :
    ∀ c ∈ ws, isBlank c = true := by
  intro c hc
  rcases h c hc with h1 | h1 <;> subst h1 <;> decide

theorem isdigit_of_range (ds : List Nat) (h : ∀ c ∈ ds, 48 ≤ c ∧ c ≤ 57) :
    ∀ c ∈ ds, isdigit c = true := by
  intro c hc
  simp [isdigit, h c hc]

theorem head_not_isdigit (t : List Nat) (h : ∀ c, t.head? = some c → ¬ (48 ≤ c ∧ c ≤ 57)) :
    ∀ c, t.head? = some c → isdigit c = false := by
  intro c hc
  have := h c hc
  simp only [isdigit, Bool.and_eq_false_iff, decide_eq_false_iff_not]
  omega

/-- C2: for all integers `i`, `v` in the range of `int`, written as optionally
signed decimal numerals, all runs of spaces and tabs after the colon and around
the comma, every leading byte string without NUL and without `"+CIEV:"`, and
every trailing byte string that does not start with a digit, `parse_ciev` on
`leading ++ "+CIEV:" ++ ws ++ i ++ ws ++ "," ++ ws ++ v ++ trailing` returns
TRUE with `indicator = i` and `value = v`. -/
theorem parse_ciev_well_formed (lead ws1 ws2 ws3 trail : List Nat) (sgi sgv : Sign)
    (di dv : List Nat) (ind0 val0 : Int)
    (hlead0 : ∀ c ∈ lead, c ≠ 0) (hlead : ¬ CIEV <:+: lead)
    (hws1 : ∀ c ∈ ws1, c = 32 ∨ c = 9) (hws2 : ∀ c ∈ ws2, c = 32 ∨ c = 9)
    (hws3 : ∀ c ∈ ws3, c = 32 ∨ c = 9)
    (hdi : di ≠ []) (hdi' : ∀ c ∈ di, 48 ≤ c ∧ c ≤ 57)
    (hdv : dv ≠ []) (hdv' : ∀ c ∈ dv, 48 ≤ c ∧ c ≤ 57)
    (hi : INT_MIN ≤ numeralVal sgi di ∧ numeralVal sgi di ≤ INT_MAX)
    (hv : INT_MIN ≤ numeralVal sgv dv ∧ numeralVal sgv dv ≤ INT_MAX)
    (htrail : ∀ c, trail.head? = some c → ¬ (48 ≤ c ∧ c ≤ 57)) :
    parse_ciev (lead ++ CIEV ++ ws1 ++ numeral sgi di ++ ws2 ++ [44] ++ ws3 ++ numeral sgv dv
        ++ trail) ind0 val0 = (true, numeralVal sgi di, numeralVal sgv dv) := by
  have h := parse_ciev_numerals lead ws1 ws2 ws3 trail sgi sgv di dv ind0 val0 hlead0 hlead
    (isBlank_of_eq ws1 hws1) (isBlank_of_eq ws2 hws2) (isBlank_of_eq ws3 hws3)
    hdi (isdigit_of_range di hdi') hdv (isdigit_of_range dv hdv') (head_not_isdigit trail htrail)
  rw [clamp_long_of_int _ hi.1 hi.2, clamp_long_of_int _ hv.1 hv.2,
    toInt32_of_int _ hi.1 hi.2, toInt32_of_int _ hv.1 hv.2] at h
  simpa only [List.append_assoc, List.singleton_append] using h

/-- C2 at the buffer `"garbage+CIEV: 2,1\r\nOK\r\n"`: the result is `(2, 1)`. -/
theorem parse_ciev_well_formed_witness :
    parse_ciev (bytes "garbage+CIEV: 2,1\r\nOK\r\n") (-1) (-1) = (true, 2, 1) :=
  parse_ciev_well_formed (bytes "garbage") [32] [] [] (bytes "\r\nOK\r\n") Sign.bare Sign.bare
    [50] [49] (-1) (-1) (by decide) (by decide) (by decide) (by decide) (by decide)
    (by decide) (by decide) (by decide) (by decide) (by decide) (by decide) (by decide)

/-- C3: `parse_ciev` returns FALSE and leaves `*indicator` and `*value` as they
were (a) when the C string in the buffer has no `"+CIEV:"`; and, the first
`"+CIEV:"` being preceded by `lead`, (b) when the first numeral is followed,
after blanks, by something other than a comma; (c) when the text after
`"+CIEV:"` does not begin with a numeral; (d) when the text after the comma
does not begin with a numeral. -/
theorem parse_ciev_rejects (ind0 val0 : Int) :
    (∀ buf : List Nat, ¬ CIEV <:+: cstr buf →
      parse_ciev buf ind0 val0 = (false, ind0, val0)) ∧
    (∀ (lead ws1 ds ws2 rest : List Nat) (sg : Sign),
      (∀ c ∈ lead, c ≠ 0) → ¬ CIEV <:+: lead →
      (∀ c ∈ ws1, c = 32 ∨ c = 9) → (∀ c ∈ ws2, c = 32 ∨ c = 9) →
      ds ≠ [] → (∀ c ∈ ds, 48 ≤ c ∧ c ≤ 57) →
      (∀ c, (ws2 ++ rest).head? = some c → ¬ (48 ≤ c ∧ c ≤ 57)) →
      (∀ c, rest.head? = some c → c ≠ 44 ∧ c ≠ 32 ∧ c ≠ 9) →
      parse_ciev (lead ++ CIEV ++ ws1 ++ numeral sg ds ++ ws2 ++ rest) ind0 val0 =
        (false, ind0, val0)) ∧
    (∀ (lead after : List Nat),
      (∀ c ∈ lead, c ≠ 0) → ¬ CIEV <:+: lead → ¬ BeginsNumber after →
      parse_ciev (lead ++ CIEV ++ after) ind0 val0 = (false, ind0, val0)) ∧
    (∀ (lead ws1 ds ws2 after : List Nat) (sg : Sign),
      (∀ c ∈ lead, c ≠ 0) → ¬ CIEV <:+: lead →
      (∀ c ∈ ws1, c = 32 ∨ c = 9) → (∀ c ∈ ws2, c = 32 ∨ c = 9) →
      ds ≠ [] → (∀ c ∈ ds, 48 ≤ c ∧ c ≤ 57) → ¬ BeginsNumber after →
      parse_ciev (lead ++ CIEV ++ ws1 ++ numeral sg ds ++ ws2 ++ [44] ++ after) ind0 val0 =
        (false, ind0, val0)) := by
  refine ⟨?_, ?_, ?_, ?_⟩
  · intro buf h
    unfold parse_ciev
    rw [strstr_none_of_no_occurrence CIEV buf (by simp [CIEV]) (by decide) h]
  · intro lead ws1 ds ws2 rest sg hl0 hl hws1 hws2 hds hds' hnd hrest
    have hA : skipBlanks (ws1 ++ (numeral sg ds ++ (ws2 ++ rest))) = numeral sg ds ++ (ws2 ++ rest) :=
      dropWhile_append_stop isBlank _ _ (isBlank_of_eq ws1 hws1)
        (numeral_head_not_blank sg ds _ hds (isdigit_of_range ds hds'))
    have hB := strtol_numeral sg ds (ws2 ++ rest) hds (isdigit_of_range ds hds')
      (head_not_isdigit _ hnd)
    have hC : skipBlanks (ws2 ++ rest) = rest :=
      dropWhile_append_stop isBlank _ _ (isBlank_of_eq ws2 hws2) (by
        intro c hc
        have := hrest c hc
        simp [isBlank, this])
    have hD : (rest.head? != some 44) = true := by
      rcases rest with _ | ⟨c, t⟩
      · rfl
      · have := (hrest c rfl).1
        simp [this]
    simp only [List.append_assoc]
    unfold parse_ciev
    rw [strstr_ciev lead _ hl0 hl]
    simp only [List.drop_left]
    rw [hA, hB]
    simp only [length_append_ne _ _ (numeral_ne_nil sg ds hds), if_false, hC, hD, if_true]
  · intro lead after hl0 hl hnum
    simp only [List.append_assoc]
    unfold parse_ciev
    rw [strstr_ciev lead _ hl0 hl]
    simp only [List.drop_left]
    rw [strtol_no_conversion _ (not_beginsNumber_skipBlanks after hnum)]
    simp
  · intro lead ws1 ds ws2 after sg hl0 hl hws1 hws2 hds hds' hnum
    have hA : skipBlanks (ws1 ++ (numeral sg ds ++ (ws2 ++ 44 :: after))) =
        numeral sg ds ++ (ws2 ++ 44 :: after) :=
      dropWhile_append_stop isBlank _ _ (isBlank_of_eq ws1 hws1)
        (numeral_head_not_blank sg ds _ hds (isdigit_of_range ds hds'))
    have hB := strtol_numeral sg ds (ws2 ++ 44 :: after) hds (isdigit_of_range ds hds')
      (blanks_comma_head_not_digit ws2 _ (isBlank_of_eq ws2 hws2))
    have hC : skipBlanks (ws2 ++ 44 :: after) = 44 :: after :=
      dropWhile_append_stop isBlank _ _ (isBlank_of_eq ws2 hws2) (by
        intro c hc
        simp only [List.head?_cons, Option.some.injEq] at hc
        subst hc; decide)
    simp only [List.append_assoc, List.singleton_append]
    unfold parse_ciev
    rw [strstr_ciev lead _ hl0 hl]
    simp only [List.drop_left]
    rw [hA, hB]
    simp only [length_append_ne _ _ (numeral_ne_nil sg ds hds), if_false, hC, List.head?_cons,
      List.tail_cons, bne_self_eq_false, Bool.false_eq_true]
    rw [strtol_no_conversion _ (not_beginsNumber_skipBlanks after hnum)]
    simp

/-- C3 at a buffer without `"+CIEV:"` and at `"+CIEV: 2 1"`, `"+CIEV: a,1"`,
`"+CIEV: 2,b"`: FALSE each time, with `-1`, `-1` left in place. -/
theorem parse_ciev_rejects_witness :
    parse_ciev (bytes "RING\r\n") (-1) (-1) = (false, -1, -1) ∧
    parse_ciev (bytes "+CIEV: 2 1") (-1) (-1) = (false, -1, -1) ∧
    parse_ciev (bytes "+CIEV: a,1") (-1) (-1) = (false, -1, -1) ∧
    parse_ciev (bytes "+CIEV: 2,b") (-1) (-1) = (false, -1, -1) :=
  ⟨(parse_ciev_rejects (-1) (-1)).1 (bytes "RING\r\n") (by decide),
   (parse_ciev_rejects (-1) (-1)).2.1 [] [32] [50] [32] [49] Sign.bare (by decide) (by decide)
      (by decide) (by decide) (by decide) (by decide) (by decide) (by decide),
   (parse_ciev_rejects (-1) (-1)).2.2.1 [] (bytes " a,1") (by decide) (by decide)
      (not_beginsNumber_space_cons 32 (bytes "a,1") (by decide)
        (not_beginsNumber_of_head _ (by decide))),
   (parse_ciev_rejects (-1) (-1)).2.2.2 [] [32] [50] [] (bytes "b") Sign.bare (by decide)
      (by decide) (by decide) (by decide) (by decide) (by decide)
      (not_beginsNumber_of_head _ (by decide))⟩

/-! ## The `+CLIP:` block -/

/-- The literal `"+CLIP:"` cannot start inside a stretch that is followed by
`"+CLIP:"` unless it lies wholly inside the stretch. -/
theorem clip_no_overlap (b rest : List Nat) (hb : b ≠ []) (hin : ¬ CLIP <+: b) :
    startsWith CLIP (b ++ (CLIP ++ rest)) = false := by
  rcases b with _ | ⟨b0, _ | ⟨b1, _ | ⟨b2, _ | ⟨b3, _ | ⟨b4, _ | ⟨b5, b⟩⟩⟩⟩⟩⟩
  · exact absurd rfl hb
  all_goals first
    | (simp only [CLIP, List.cons_append, List.nil_append, startsWith, Bool.and_eq_false_iff,
        Bool.and_eq_true, beq_iff_eq, beq_eq_false_iff_ne, ne_eq, Bool.and_true]; omega)
    | skip
  · by_contra hc
    apply hin
    rw [← startsWith_prefix_iff]
    simp only [CLIP, List.cons_append, startsWith, Bool.and_eq_true, beq_iff_eq,
      Bool.not_eq_false] at hc ⊢
    simpa using hc

theorem strstr_clip (lead rest : List Nat) (h0 : ∀ c ∈ lead, c ≠ 0)
    (hno : ¬ CLIP <:+: lead) :
    strstr (lead ++ (CLIP ++ rest)) CLIP = some (CLIP ++ rest) := by
  rw [strstr_skip CLIP lead (CLIP ++ rest) h0, strstr_here CLIP rest (by simp [CLIP])]
  intro a b hab hb
  apply clip_no_overlap b rest hb
  intro hp
  apply hno
  obtain ⟨t, ht⟩ := hp
  exact ⟨a, t, by rw [hab, ← ht]; simp⟩

/-- `strchr` steps over bytes that are neither the byte looked for nor NUL. -/
theorem strchr_skip (a r : List Nat) (ch : Nat) (ha : ∀ c ∈ a, c ≠ ch ∧ c ≠ 0) :
    strchr (a ++ ch :: r) ch = some (ch :: r) := by
  induction a with
  | nil => rw [List.nil_append, strchr_cons, if_pos rfl]
  | cons c cs ih =>
    have hc := ha c (List.mem_cons_self _ _)
    rw [List.cons_append, strchr_cons, if_neg hc.1, if_neg hc.2]
    exact ih (fun x hx => ha x (List.mem_cons_of_mem _ hx))

theorem cstr_stop (n post : List Nat) (hn : ∀ c ∈ n, c ≠ 0) : cstr (n ++ 0 :: post) = n := by
  rw [cstr_append_of_ne_zero n _ hn, cstr_cons_zero, List.append_nil]

theorem cstr_replicate_zero (j : Nat) (t : List Nat) (ht : t.head?.getD 0 = 0) :
    cstr (List.replicate j 0 ++ t) = [] := by
  cases j with
  | zero =>
    rcases t with _ | ⟨c, t⟩
    · rfl
    · simp only [List.head?_cons, Option.getD_some] at ht
      subst ht
      simp [cstr_cons_zero]
  | succ j => simp [List.replicate_succ, cstr_cons_zero]

/-- Copying a string of at most `k` bytes with `strncpy(dest, src, k)` into an
array whose byte `k` is NUL leaves exactly that string in the array. -/
theorem cstr_strncpy (dest n post : List Nat) (k : Nat) (hn : ∀ c ∈ n, c ≠ 0)
    (hlen : n.length ≤ k) (hd : (dest.drop k).head?.getD 0 = 0) :
    cstr (strncpy dest (n ++ 0 :: post) k) = n := by
  unfold strncpy
  simp only [cstr_stop n post hn, List.take_of_length_le hlen]
  rw [List.append_assoc, cstr_append_of_ne_zero n _ hn, cstr_replicate_zero _ _ hd,
    List.append_nil]

/-- With fewer than four quotes left in the string, the quote loop ends with
`name_start` still NULL. -/
theorem clip_name_scan_none (t : List Nat) (k : Nat) (h : k + (cstr t).count 34 < 4) :
    clip_name_scan t k = none := by
  induction t generalizing k with
  | nil => rfl
  | cons c cs ih =>
    rw [clip_name_scan]
    by_cases hc0 : c = 0
    · simp [hc0]
    · rw [cstr_cons_ne_zero c cs hc0] at h
      have hk : k < 4 := by omega
      rw [if_neg (by simp [hc0, hk])]
      by_cases hq : c = 34
      · subst hq
        simp only [List.count_cons_self] at h
        rw [if_pos rfl, if_neg (by omega)]
        exact ih (k + 1) (by omega)
      · rw [if_neg hq]
        apply ih
        rw [List.count_cons_of_ne (Ne.symm hq)] at h
        exact h

theorem set_at_length (A r : List Nat) (x v : Nat) :
    (A ++ x :: r).set A.length v = A ++ v :: r := by
  induction A with
  | nil => rfl
  | cons a A ih => simp [ih]

/-- What the `+CLIP:` block does on a buffer whose first `"+CLIP:"` is followed
by a quoted number `n` and a rest `post` with fewer than four quotes: the
closing quote of the number becomes NUL, the number is copied, the name is
cleared and then looked up in the contacts. -/
theorem listener_clip_number (pre mid n post : List Nat) (st : Phone)
    (hpre0 : ∀ c ∈ pre, c ≠ 0) (hpre : ¬ CLIP <:+: pre)
    (hmid : ∀ c ∈ mid, c ≠ 34 ∧ c ≠ 0) (hn : ∀ c ∈ n, c ≠ 34 ∧ c ≠ 0)
    (hpost : (cstr post).count 34 < 4) :
    listener_clip (pre ++ (CLIP ++ (mid ++ 34 :: (n ++ 34 :: post)))) st =
      (pre ++ (CLIP ++ (mid ++ 34 :: (n ++ 0 :: post))),
        clip_notify (clip_lookup_contact
          (set_current_call_name (st.current_call_name.set 0 0)
            (set_current_call_number
              (strncpy st.current_call_number (n ++ 0 :: post) 63) st)))) := by
  have h1 : strchr (CLIP ++ (mid ++ 34 :: (n ++ 34 :: post))) 34 =
      some (34 :: (n ++ 34 :: post)) := by
    rw [← List.append_assoc]
    apply strchr_skip
    intro c hc
    rcases List.mem_append.mp hc with h | h
    · simp only [CLIP, List.mem_cons, List.mem_singleton, List.not_mem_nil, or_false] at h
      omega
    · exact hmid c h
  have h2 : strchr (n ++ 34 :: post) 34 = some (34 :: post) := strchr_skip n post 34 hn
  have h3 : (pre ++ (CLIP ++ (mid ++ 34 :: (n ++ 34 :: post)))).set
      ((pre ++ (CLIP ++ (mid ++ 34 :: (n ++ 34 :: post)))).length - (34 :: post).length) 0 =
      pre ++ (CLIP ++ (mid ++ 34 :: (n ++ 0 :: post))) := by
    have e1 : pre ++ (CLIP ++ (mid ++ 34 :: (n ++ 34 :: post))) =
        (pre ++ (CLIP ++ (mid ++ 34 :: n))) ++ 34 :: post := by simp
    have e2 : pre ++ (CLIP ++ (mid ++ 34 :: (n ++ 0 :: post))) =
        (pre ++ (CLIP ++ (mid ++ 34 :: n))) ++ 0 :: post := by simp
    have hl : ((pre ++ (CLIP ++ (mid ++ 34 :: n))) ++ 34 :: post).length - (34 :: post).length =
        (pre ++ (CLIP ++ (mid ++ 34 :: n))).length := by
      simp only [List.length_append, List.length_cons]
      omega
    rw [e1, e2, hl]
    exact set_at_length _ _ _ _
  have h4 : (pre ++ (CLIP ++ (mid ++ 34 :: (n ++ 0 :: post)))).drop
      ((pre ++ (CLIP ++ (mid ++ 34 :: (n ++ 0 :: post)))).length - (n ++ 34 :: post).length) =
      n ++ 0 :: post := by
    have e1 : pre ++ (CLIP ++ (mid ++ 34 :: (n ++ 0 :: post))) =
        (pre ++ (CLIP ++ (mid ++ [34]))) ++ (n ++ 0 :: post) := by simp
    rw [e1]
    apply List.drop_left'
    simp only [List.length_append, List.length_cons, List.length_nil]
    omega
  have h5 : ∀ (b : List Nat) (s : Phone), clip_take_name b post s = (b, s) := by
    intro b s
    unfold clip_take_name
    rw [clip_name_scan_none post 0 (by omega)]
  unfold listener_clip
  rw [strstr_clip pre _ hpre0 hpre]
  simp only [h1, List.tail_cons, h2, h3, h4, h5]
  rfl

theorem calm_of_quiet {st x y : Phone} (h : Calm st x) (hq : Quiet x y) : Calm st y :=
  calm_trans h hq.1

theorem calm_g_idle_add {st x : Phone} (cb : IdleCb) (h : Calm st x) :
    Calm st (g_idle_add cb x) :=
  calm_trans h (calm_refl _)

theorem calm_log_msg {st x : Phone} (h : Calm st x) : Calm st (log_msg x) :=
  calm_trans h (calm_refl _)

theorem calm_sco_connect_if_closed {st x : Phone} (env : ScoEnv) (h : Calm st x) :
    Calm st (sco_connect_if_closed env x) :=
  calm_of_quiet h (quiet_sco_connect_if_closed env (quiet_refl x))

/-- `handle_ciev_event` touches neither the call state nor the caller info nor
the timer: it only queues callbacks and may open the audio channel. -/
theorem calm_handle_ciev_event {st x : Phone} (env : ScoEnv) (ind val : Int) (h : Calm st x) :
    Calm st (handle_ciev_event env ind val x) := by
  unfold handle_ciev_event
  simp only []
  split_ifs <;>
    first
      | exact h
      | exact calm_g_idle_add _ (calm_sco_connect_if_closed env (calm_log_msg h))
      | exact calm_g_idle_add _ (calm_log_msg h)
      | exact calm_g_idle_add _ h
      | exact calm_log_msg h
      | exact calm_sco_connect_if_closed env (calm_g_idle_add _ (calm_log_msg h))
      | exact calm_sco_connect_if_closed env h

theorem calm_clip_notify {st x : Phone} (h : Calm st x) : Calm st (clip_notify x) := by
  unfold clip_notify
  simp only []
  split_ifs
  · exact calm_g_idle_add _ (calm_log_msg h)
  · exact calm_g_idle_add _ (calm_log_msg h)

/-- After the `+CLIP:` block the listener changes neither the call state nor
the caller info while it handles the rest of the chunk. -/
theorem chunk_calm_after_clip (env : ScoEnv) (chunk : List Nat) (st : Phone) :
    Calm (listener_clip chunk (log_msg st)).2 (incoming_call_listener_chunk env chunk st) := by
  unfold incoming_call_listener_chunk
  simp only []
  generalize (listener_clip chunk (log_msg st)).2 = s1
  generalize (listener_clip chunk (log_msg st)).1 = buf
  have hA : Calm s1 (if ((strstr buf RING).isSome &&
      decide (s1.current_call_state ≠ CallState.CALL_RINGING)) = true then
      g_idle_add (IdleCb.hfp_update_call_state_cb CallState.CALL_RINGING) (log_msg s1)
      else s1) := by
    split_ifs
    · exact calm_g_idle_add _ (calm_log_msg (calm_refl s1))
    · exact calm_refl s1
  generalize (if ((strstr buf RING).isSome &&
      decide (s1.current_call_state ≠ CallState.CALL_RINGING)) = true then
      g_idle_add (IdleCb.hfp_update_call_state_cb CallState.CALL_RINGING) (log_msg s1)
      else s1) = s2 at hA
  split_ifs
  · exact calm_handle_ciev_event env _ _ hA
  · exact hA
  · exact calm_g_idle_add _ (calm_log_msg hA)
  · exact hA

/-- The C string `strncpy(dest, src, k)` leaves in an array whose byte `k` is
NUL: the string `src` cut at `k` bytes. -/
theorem cstr_strncpy_take (dest src : List Nat) (k : Nat)
    (hd : (dest.drop k).head?.getD 0 = 0) :
    cstr (strncpy dest src k) = (cstr src).take k := by
  unfold strncpy
  simp only []
  have hs : ∀ c ∈ (cstr src).take k, c ≠ 0 := by
    intro c hc
    have h1 : c ∈ cstr src := List.mem_of_mem_take hc
    have h2 := List.mem_takeWhile_imp h1
    simpa using h2
  rw [List.append_assoc, cstr_append_of_ne_zero _ _ hs, cstr_replicate_zero _ _ hd,
    List.append_nil]

theorem cstr_set_zero (l : List Nat) : cstr (l.set 0 0) = [] := by
  cases l with
  | nil => rfl
  | cons a l => simp [cstr_cons_zero]

theorem head_set_zero (l : List Nat) : (l.set 0 0).head?.getD 0 = 0 := by
  cases l with
  | nil => rfl
  | cons a l => simp

/-- What the contact block leaves as the caller name when it starts with the
name cleared. -/
theorem clip_lookup_contact_name (x : Phone) (hx : x.current_call_name.head?.getD 0 = 0)
    (h127 : (x.current_call_name.drop 127).head?.getD 0 = 0) :
    (clip_lookup_contact x).current_call_number = x.current_call_number ∧
    (find_contact (normalize_number x.current_call_number) x.all_contacts = none →
      (clip_lookup_contact x).current_call_name = x.current_call_name) ∧
    (∀ c, find_contact (normalize_number x.current_call_number) x.all_contacts = some c →
      cstr (clip_lookup_contact x).current_call_name = (cstr c.name).take 127) := by
  unfold clip_lookup_contact
  rw [if_pos hx]
  refine ⟨?_, ?_, ?_⟩
  · split <;> rfl
  · intro h
    rw [h]
  · intro c h
    rw [h]
    exact cstr_strncpy_take _ _ _ h127

/-- What the listener records for a chunk whose first `"+CLIP:"` is followed by
a quoted number `n` and a rest with fewer than four quotes: the number `n`, and
as name what the contact block finds. -/
theorem chunk_clip_recorded (env : ScoEnv) (st : Phone) (pre mid n post : List Nat)
    (hpre0 : ∀ c ∈ pre, c ≠ 0) (hpre : ¬ CLIP <:+: pre)
    (hmid : ∀ c ∈ mid, c ≠ 34 ∧ c ≠ 0) (hn : ∀ c ∈ n, c ≠ 34 ∧ c ≠ 0)
    (hlen : n.length ≤ 63) (hpost : (cstr post).count 34 < 4)
    (h63 : (st.current_call_number.drop 63).head?.getD 0 = 0)
    (h127 : (st.current_call_name.drop 127).head?.getD 0 = 0)
    (r : Phone)
    (hr : r = incoming_call_listener_chunk env
      (pre ++ (CLIP ++ (mid ++ 34 :: (n ++ 34 :: post)))) st) :
    cstr r.current_call_number = n ∧
    (find_contact (normalize_number r.current_call_number) st.all_contacts = none →
      cstr r.current_call_name = []) ∧
    (∀ c, find_contact (normalize_number r.current_call_number) st.all_contacts = some c →
      cstr r.current_call_name = (cstr c.name).take 127) := by
  have hcalm := chunk_calm_after_clip env (pre ++ (CLIP ++ (mid ++ 34 :: (n ++ 34 :: post)))) st
  rw [← hr, listener_clip_number pre mid n post (log_msg st) hpre0 hpre hmid hn hpost] at hcalm
  simp only [] at hcalm
  obtain ⟨-, hnum, hname, -⟩ := hcalm
  have hno : ∀ (y : Phone), Calm y (clip_notify y) := fun y => calm_clip_notify (calm_refl y)
  rw [(hno _).2.1] at hnum
  rw [(hno _).2.2.1] at hname
  have hx0 : (set_current_call_name ((log_msg st).current_call_name.set 0 0)
      (set_current_call_number
        (strncpy (log_msg st).current_call_number (n ++ 0 :: post) 63)
        (log_msg st))).current_call_name.head?.getD 0 = 0 := head_set_zero _
  have hx127 : ((set_current_call_name ((log_msg st).current_call_name.set 0 0)
      (set_current_call_number
        (strncpy (log_msg st).current_call_number (n ++ 0 :: post) 63)
        (log_msg st))).current_call_name.drop 127).head?.getD 0 = 0 := by
    show ((st.current_call_name.set 0 0).drop 127).head?.getD 0 = 0
    rw [List.drop_set_of_lt 0 _ (by omega)]
    exact h127
  obtain ⟨k1, k2, k3⟩ := clip_lookup_contact_name _ hx0 hx127
  rw [k1] at hnum
  have hnumber : r.current_call_number =
      strncpy st.current_call_number (n ++ 0 :: post) 63 := hnum
  have hn0 : ∀ c ∈ n, c ≠ 0 := fun c hc => (hn c hc).2
  refine ⟨?_, ?_, ?_⟩
  · rw [hnumber, cstr_strncpy_take _ _ _ h63, cstr_stop n post hn0, List.take_of_length_le hlen]
  · intro hf
    rw [hnumber] at hf
    rw [hname, k2 hf]
    exact cstr_set_zero _
  · intro c hf
    rw [hnumber] at hf
    rw [hname]
    exact k3 c hf

/-! ## Claims on the `+CLIP:` block -/

/-- C4 (the code at the claim's inputs): for the chunks
`+CLIP: "12345",129,,,"Alice"` and `RING\r\n+CLIP: "5551234",129,,,"Bob"\r\n`,
with no contacts, the listener records the numbers `12345` and `5551234` but
leaves the caller name empty: the name is not taken from the chunk. -/
theorem clip_name_not_recorded :
    cstr (incoming_call_listener_chunk ScoEnv.ok (bytes "+CLIP: \"12345\",129,,,\"Alice\"")
      (Phone.initial [] (bytes "00:11:22:33:44:55"))).current_call_number = bytes "12345" ∧
    cstr (incoming_call_listener_chunk ScoEnv.ok (bytes "+CLIP: \"12345\",129,,,\"Alice\"")
      (Phone.initial [] (bytes "00:11:22:33:44:55"))).current_call_name = [] ∧
    cstr (incoming_call_listener_chunk ScoEnv.ok
      (bytes "RING\r\n+CLIP: \"5551234\",129,,,\"Bob\"\r\n")
      (Phone.initial [] (bytes "00:11:22:33:44:55"))).current_call_number = bytes "5551234" ∧
    cstr (incoming_call_listener_chunk ScoEnv.ok
      (bytes "RING\r\n+CLIP: \"5551234\",129,,,\"Bob\"\r\n")
      (Phone.initial [] (bytes "00:11:22:33:44:55"))).current_call_name = [] := by
  decide

/-- C5: for every caller number `n` without quote and NUL, of at most 63
bytes, when the listener handles a chunk whose first `"+CLIP:"` is followed by
`"n"` and a rest without any quote (no name field), the recorded caller number
is `n`, the recorded name is empty when the contacts lookup finds no contact,
and it is the name of the contact found otherwise. The number and name arrays
end in NUL, as they do in every state of the program. -/
theorem clip_without_name (env : ScoEnv) (st : Phone) (pre mid n post : List Nat)
    (hpre0 : ∀ c ∈ pre, c ≠ 0) (hpre : ¬ CLIP <:+: pre)
    (hmid : ∀ c ∈ mid, c ≠ 34 ∧ c ≠ 0) (hn : ∀ c ∈ n, c ≠ 34 ∧ c ≠ 0)
    (hlen : n.length ≤ 63) (hpost : ∀ c ∈ post, c ≠ 34)
    (h63 : (st.current_call_number.drop 63).head?.getD 0 = 0)
    (h127 : (st.current_call_name.drop 127).head?.getD 0 = 0) :
    cstr (incoming_call_listener_chunk env
      (pre ++ CLIP ++ mid ++ [34] ++ n ++ [34] ++ post) st).current_call_number = n ∧
    (find_contact (normalize_number (incoming_call_listener_chunk env
        (pre ++ CLIP ++ mid ++ [34] ++ n ++ [34] ++ post) st).current_call_number)
        st.all_contacts = none →
      cstr (incoming_call_listener_chunk env
        (pre ++ CLIP ++ mid ++ [34] ++ n ++ [34] ++ post) st).current_call_name = []) ∧
    (∀ c, find_contact (normalize_number (incoming_call_listener_chunk env
        (pre ++ CLIP ++ mid ++ [34] ++ n ++ [34] ++ post) st).current_call_number)
        st.all_contacts = some c →
      cstr (incoming_call_listener_chunk env
        (pre ++ CLIP ++ mid ++ [34] ++ n ++ [34] ++ post) st).current_call_name =
        (cstr c.name).take 127) := by
  have hcount : (cstr post).count 34 < 4 := by
    have : (cstr post).count 34 = 0 := by
      rw [List.count_eq_zero]
      intro hmem
      exact hpost 34 ((List.takeWhile_sublist _).subset hmem) rfl
    omega
  have e : pre ++ CLIP ++ mid ++ [34] ++ n ++ [34] ++ post =
      pre ++ (CLIP ++ (mid ++ 34 :: (n ++ 34 :: post))) := by simp
  rw [e]
  exact chunk_clip_recorded env st pre mid n post hpre0 hpre hmid hn hlen hcount h63 h127 _ rfl

/-- C5 at the chunk `+CLIP: "12345",129`: without contacts the number `12345`
is recorded and the name is empty; with the contact `Ann`, `12345` the name
`Ann` is recorded. -/
theorem clip_without_name_witness :
    cstr (incoming_call_listener_chunk ScoEnv.ok (bytes "+CLIP: \"12345\",129")
      (Phone.initial [] (bytes "00:11:22:33:44:55"))).current_call_number = bytes "12345" ∧
    cstr (incoming_call_listener_chunk ScoEnv.ok (bytes "+CLIP: \"12345\",129")
      (Phone.initial [] (bytes "00:11:22:33:44:55"))).current_call_name = [] ∧
    cstr (incoming_call_listener_chunk ScoEnv.ok (bytes "+CLIP: \"12345\",129")
      (Phone.initial [{ name := bytes "Ann", number := bytes "12345" }]
        (bytes "00:11:22:33:44:55"))).current_call_name = bytes "Ann" :=
  ⟨(clip_without_name ScoEnv.ok (Phone.initial [] (bytes "00:11:22:33:44:55")) [] [32]
      (bytes "12345") (bytes ",129") (by decide) (by decide) (by decide) (by decide)
      (by decide) (by decide) (by decide) (by decide)).1,
   (clip_without_name ScoEnv.ok (Phone.initial [] (bytes "00:11:22:33:44:55")) [] [32]
      (bytes "12345") (bytes ",129") (by decide) (by decide) (by decide) (by decide)
      (by decide) (by decide) (by decide) (by decide)).2.1 (by decide),
   (clip_without_name ScoEnv.ok
      (Phone.initial [{ name := bytes "Ann", number := bytes "12345" }]
        (bytes "00:11:22:33:44:55")) [] [32]
      (bytes "12345") (bytes ",129") (by decide) (by decide) (by decide) (by decide)
      (by decide) (by decide) (by decide) (by decide)).2.2
      { name := bytes "Ann", number := bytes "12345" } (by decide)⟩

/-! ## The AEC render FIFO -/

theorem cap_eq : AEC_FIFO_CAPACITY = 4000 := rfl

theorem contents_length (f : AecFifo) : f.contents.length = f.aec_fifo_size := by
  simp [AecFifo.contents]

theorem inv_initial : AecFifo.initial.Inv := by
  simp [AecFifo.Inv, AecFifo.initial, cap_eq]

theorem inv_clear (f : AecFifo) : (aec_fifo_clear f).Inv := by
  simp [AecFifo.Inv, aec_fifo_clear, cap_eq]

theorem inv_push_step (f : AecFifo) (v : Int) (h : f.Inv) : (aec_fifo_push_step f v).Inv := by
  unfold AecFifo.Inv aec_fifo_push_step at *
  simp only [cap_eq] at *
  obtain ⟨h1, h2, h3⟩ := h
  split_ifs with hs
  · refine ⟨?_, ?_, ?_⟩ <;> simp only [] <;> omega
  · refine ⟨?_, ?_, ?_⟩ <;> simp only [] <;> omega

theorem inv_push (f : AecFifo) (s : List Int) (h : f.Inv) : (aec_fifo_push f s).Inv := by
  induction s generalizing f with
  | nil => exact h
  | cons v s ih => exact ih _ (inv_push_step f v h)

theorem push_cons (f : AecFifo) (v : Int) (s : List Int) :
    aec_fifo_push f (v :: s) = aec_fifo_push (aec_fifo_push_step f v) s := rfl

theorem push_append (f : AecFifo) (a b : List Int) :
    aec_fifo_push f (a ++ b) = aec_fifo_push (aec_fifo_push f a) b := by
  simp [aec_fifo_push, List.foldl_append]

theorem size_push_step (f : AecFifo) (v : Int) (h : f.Inv) :
    (aec_fifo_push_step f v).aec_fifo_size = min AEC_FIFO_CAPACITY (f.aec_fifo_size + 1) := by
  unfold AecFifo.Inv at h
  unfold aec_fifo_push_step
  simp only [cap_eq] at *
  obtain ⟨h1, -, -⟩ := h
  split_ifs with hs <;> simp only [] <;> omega

theorem range_getElem? (n i : Nat) :
    (List.range n)[i]? = if i < n then some i else none := by
  by_cases h : i < n
  · rw [if_pos h, List.getElem?_range h]
  · rw [if_neg h, List.getElem?_eq_none (by simpa using h)]

theorem contents_getElem? (f : AecFifo) (i : Nat) :
    f.contents[i]? =
      if i < f.aec_fifo_size then
        some (f.aec_render_fifo ((f.aec_fifo_tail + i) % AEC_FIFO_CAPACITY))
      else none := by
  unfold AecFifo.contents
  rw [List.getElem?_map, range_getElem?]
  split_ifs <;> rfl

theorem snoc_getElem? (l : List Int) (v : Int) (j : Nat) :
    (l ++ [v])[j]? = if j < l.length then l[j]? else if j = l.length then some v else none := by
  by_cases h1 : j < l.length
  · rw [if_pos h1, List.getElem?_append_left h1]
  · rw [if_neg h1, List.getElem?_append_right (by omega)]
    by_cases h2 : j = l.length
    · subst h2
      simp
    · rw [if_neg h2]
      have : 0 < j - l.length := by omega
      obtain ⟨m, hm⟩ := Nat.exists_eq_succ_of_ne_zero (Nat.pos_iff_ne_zero.mp this)
      rw [hm]
      rfl

/-- One pushed sample: it is appended to the contents, and the oldest sample
goes when the FIFO was full. -/
theorem contents_push_step (f : AecFifo) (v : Int) (h : f.Inv) :
    (aec_fifo_push_step f v).contents =
      lastN (min AEC_FIFO_CAPACITY (f.aec_fifo_size + 1)) (f.contents ++ [v]) := by
  have hsz := size_push_step f v h
  unfold AecFifo.Inv at h
  obtain ⟨h1, h2, h3⟩ := h
  apply List.ext_getElem?
  intro i
  rw [contents_getElem?, hsz]
  unfold lastN
  rw [List.getElem?_drop, snoc_getElem?]
  simp only [List.length_append, contents_length, List.length_cons, List.length_nil,
    contents_getElem?]
  unfold aec_fifo_push_step
  simp only [cap_eq] at *
  by_cases hs : f.aec_fifo_size < 4000
  · simp only [if_pos hs, store]
    have hd : f.aec_fifo_size + (0 + 1) - min 4000 (f.aec_fifo_size + 1) = 0 := by omega
    simp only [hd, Nat.zero_add]
    split_ifs <;> first
      | rfl
      | (exfalso; omega)
  · simp only [if_neg hs, store]
    have hfull : f.aec_fifo_size = 4000 := by omega
    have hd : f.aec_fifo_size + (0 + 1) - min 4000 (f.aec_fifo_size + 1) = 1 := by omega
    simp only [hd]
    split_ifs <;> first
      | rfl
      | (exfalso; omega)
      | (congr 2; omega)

theorem lastN_drop (m j : Nat) (l : List Int) (h : m + j ≤ l.length) :
    lastN m (l.drop j) = lastN m l := by
  unfold lastN
  rw [List.drop_drop, List.length_drop]
  congr 1
  omega

theorem lastN_append_right (k : Nat) (l s : List Int) (h : k ≤ l.length) :
    lastN k l ++ s = (l ++ s).drop (l.length - k) := by
  unfold lastN
  rw [List.drop_append_of_le_length (by omega)]

/-- Pushing `s`: the FIFO then holds the last `min(capacity, size + |s|)`
elements of the old contents followed by `s`. -/
theorem contents_push (f : AecFifo) (s : List Int) (h : f.Inv) :
    (aec_fifo_push f s).contents =
      lastN (min AEC_FIFO_CAPACITY (f.aec_fifo_size + s.length)) (f.contents ++ s) ∧
    (aec_fifo_push f s).aec_fifo_size = min AEC_FIFO_CAPACITY (f.aec_fifo_size + s.length) := by
  induction s generalizing f with
  | nil =>
    have h1 := h.1
    constructor
    · simp only [aec_fifo_push, List.foldl_nil, List.append_nil, List.length_nil, Nat.add_zero,
        lastN, contents_length]
      rw [Nat.min_eq_right h1]
      simp
    · simp only [aec_fifo_push, List.foldl_nil, List.length_nil, Nat.add_zero]
      exact (Nat.min_eq_right h1).symm
  | cons v s ih =>
    have h1 := h.1
    obtain ⟨ihc, ihs⟩ := ih (aec_fifo_push_step f v) (inv_push_step f v h)
    rw [push_cons]
    rw [size_push_step f v h] at ihc ihs
    constructor
    · rw [ihc, contents_push_step f v h]
      rw [lastN_append_right _ _ _ (by
        simp only [List.length_append, contents_length, List.length_cons, List.length_nil]
        omega)]
      rw [lastN_drop _ _ _ (by
        simp only [List.length_append, contents_length, List.length_cons, List.length_nil]
        omega)]
      simp only [List.append_assoc, List.singleton_append, List.length_cons]
      congr 1
      omega
    · rw [ihs]
      simp only [List.length_cons]
      omega

theorem pop_loop_tail (buf : Nat → Int) (k i : Nat) (out : Nat → Int) (tail : Nat)
    (ht : tail < AEC_FIFO_CAPACITY) :
    (aec_fifo_pop_loop buf k i out tail).2 = (tail + k) % AEC_FIFO_CAPACITY := by
  induction k generalizing i out tail with
  | zero =>
    rw [aec_fifo_pop_loop]
    simp only [cap_eq] at *
    omega
  | succ k ih =>
    rw [aec_fifo_pop_loop, ih]
    · simp only [cap_eq]
      omega
    · simp only [cap_eq]
      omega

/-- The `out` array after the loop of `aec_fifo_pop`: places `i .. i + k - 1`
hold the samples read from `tail` on, the others are as before. -/
theorem pop_loop_out (buf : Nat → Int) (k i : Nat) (out : Nat → Int) (tail j : Nat)
    (ht : tail < AEC_FIFO_CAPACITY) :
    (aec_fifo_pop_loop buf k i out tail).1 j =
      if i ≤ j ∧ j < i + k then buf ((tail + (j - i)) % AEC_FIFO_CAPACITY) else out j := by
  induction k generalizing i out tail with
  | zero =>
    rw [aec_fifo_pop_loop]
    simp only [Nat.add_zero]
    rw [if_neg (by omega)]
  | succ k ih =>
    rw [aec_fifo_pop_loop, ih _ _ _ (by simp only [cap_eq]; omega)]
    simp only [cap_eq, store] at *
    by_cases h1 : j = i
    · subst h1
      rw [if_neg (by omega), if_pos rfl, if_pos (by omega)]
      congr 1
      omega
    · by_cases h2 : i + 1 ≤ j ∧ j < i + 1 + k
      · rw [if_pos h2, if_pos (by omega)]
        congr 1
        omega
      · rw [if_neg h2, if_neg h1, if_neg (by omega)]

/-- A pop of `n` samples, `1 ≤ n ≤ size`: TRUE, the first `n` places of `out`
get the `n` oldest samples, the rest of `out` stays, and the FIFO keeps the
other samples. -/
theorem pop_ok (f : AecFifo) (out : Nat → Int) (n : Nat) (h : f.Inv) (h1 : 1 ≤ n)
    (h2 : n ≤ f.aec_fifo_size) :
    (aec_fifo_pop f out n).1 = true ∧
    (List.range n).map (aec_fifo_pop f out n).2.1 = f.contents.take n ∧
    (∀ j, n ≤ j → (aec_fifo_pop f out n).2.1 j = out j) ∧
    (aec_fifo_pop f out n).2.2.aec_fifo_size = f.aec_fifo_size - n := by
  unfold AecFifo.Inv at h
  obtain ⟨-, ht, -⟩ := h
  have htn : ((n : Nat) : Int).toNat = n := Int.toNat_ofNat n
  have hpop : aec_fifo_pop f out n =
      (true, (aec_fifo_pop_loop f.aec_render_fifo n 0 out f.aec_fifo_tail).1,
        { f with
          aec_fifo_tail := (aec_fifo_pop_loop f.aec_render_fifo n 0 out f.aec_fifo_tail).2,
          aec_fifo_size := f.aec_fifo_size - n }) := by
    unfold aec_fifo_pop
    rw [if_neg (by omega), if_pos (by omega), htn]
  rw [hpop]
  refine ⟨rfl, ?_, ?_, rfl⟩
  · apply List.ext_getElem?
    intro i
    rw [List.getElem?_map, range_getElem?, List.getElem?_take, contents_getElem?]
    by_cases hi : i < n
    · rw [if_pos hi, if_pos hi, if_pos (by omega)]
      simp only [Option.map_some', pop_loop_out _ _ _ _ _ _ ht]
      rw [if_pos (by omega)]
      simp
    · rw [if_neg hi, if_neg hi]
      rfl
  · intro j hj
    simp only []
    rw [pop_loop_out _ _ _ _ _ _ ht, if_neg (by omega)]

theorem inv_pop (f : AecFifo) (out : Nat → Int) (count : Int) (h : f.Inv) :
    (aec_fifo_pop f out count).2.2.Inv := by
  unfold aec_fifo_pop
  split_ifs with h1 h2
  · exact h
  · have ht := h.2.1
    unfold AecFifo.Inv at *
    simp only [pop_loop_tail _ _ _ _ _ ht]
    simp only [cap_eq] at *
    obtain ⟨a1, a2, a3⟩ := h
    have hn : count.toNat ≤ f.aec_fifo_size := by omega
    refine ⟨by omega, by omega, ?_⟩
    rw [a3]
    omega
  · exact h

/-- Every state the FIFO can be in satisfies the representation invariant. -/
theorem inv_of_reachable (f : AecFifo) (h : AecFifo.Reachable f) : f.Inv := by
  induction h with
  | initial => exact inv_initial
  | clear f _ _ => exact inv_clear f
  | push f s _ ih => exact inv_push f s ih
  | pop f out count _ ih => exact inv_pop f out count ih

theorem contents_clear (f : AecFifo) : (aec_fifo_clear f).contents = [] := by
  simp [AecFifo.contents, aec_fifo_clear]

theorem lastN_all (l : List Int) (n : Nat) (h : l.length ≤ n) : lastN n l = l := by
  unfold lastN
  rw [Nat.sub_eq_zero_of_le h]
  rfl

theorem lastN_append_of_le (n : Nat) (c s : List Int) (h : n ≤ s.length) :
    lastN n (c ++ s) = lastN n s := by
  unfold lastN
  have e : (c ++ s).length - n = c.length + (s.length - n) := by
    rw [List.length_append]
    omega
  rw [e, List.drop_append]

theorem push_flatten (f : AecFifo) (ss : List (List Int)) :
    ss.foldl aec_fifo_push f = aec_fifo_push f ss.flatten := by
  induction ss generalizing f with
  | nil => rfl
  | cons a ss ih =>
    rw [List.foldl_cons, ih, List.flatten_cons, push_append]

/-! ## Claims on the AEC render FIFO -/

/-- C6: from the empty FIFO left by `aec_fifo_clear`, for every sample
sequence `s` with `1 ≤ |s| ≤ AEC_FIFO_CAPACITY`, `aec_fifo_push(s, |s|)`
followed by `aec_fifo_pop(out, |s|)` returns TRUE, writes exactly `s` to the
first `|s|` places of `out` in the same order (the rest of `out` is left as it
was), and leaves the FIFO with size 0. -/
theorem aec_fifo_round_trip (f : AecFifo) (out : Nat → Int) (s : List Int)
    (h1 : 1 ≤ s.length) (h2 : s.length ≤ AEC_FIFO_CAPACITY) :
    (aec_fifo_pop (aec_fifo_push (aec_fifo_clear f) s) out s.length).1 = true ∧
    (List.range s.length).map
      (aec_fifo_pop (aec_fifo_push (aec_fifo_clear f) s) out s.length).2.1 = s ∧
    (∀ j, s.length ≤ j →
      (aec_fifo_pop (aec_fifo_push (aec_fifo_clear f) s) out s.length).2.1 j = out j) ∧
    (aec_fifo_pop (aec_fifo_push (aec_fifo_clear f) s) out s.length).2.2.aec_fifo_size = 0 := by
  have hinv := inv_clear f
  obtain ⟨hc, hs⟩ := contents_push (aec_fifo_clear f) s hinv
  have hz : (aec_fifo_clear f).aec_fifo_size = 0 := rfl
  rw [hz, Nat.zero_add, Nat.min_eq_right h2] at hc hs
  rw [contents_clear, List.nil_append, lastN_all s _ (le_refl _)] at hc
  obtain ⟨p1, p2, p3, p4⟩ := pop_ok (aec_fifo_push (aec_fifo_clear f) s) out s.length
    (inv_push _ s hinv) h1 (by rw [hs])
  refine ⟨p1, ?_, p3, ?_⟩
  · rw [p2, hc, List.take_length]
  · rw [p4, hs, Nat.sub_self]

/-- C6 at the samples `5, -3, 7` pushed into the cleared initial FIFO. -/
theorem aec_fifo_round_trip_witness :
    (aec_fifo_pop (aec_fifo_push (aec_fifo_clear AecFifo.initial) [5, -3, 7])
      (fun _ => 0) 3).1 = true ∧
    (List.range 3).map (aec_fifo_pop (aec_fifo_push (aec_fifo_clear AecFifo.initial) [5, -3, 7])
      (fun _ => 0) 3).2.1 = [5, -3, 7] :=
  ⟨(aec_fifo_round_trip AecFifo.initial (fun _ => 0) [5, -3, 7] (by decide) (by decide)).1,
   (aec_fifo_round_trip AecFifo.initial (fun _ => 0) [5, -3, 7] (by decide) (by decide)).2.1⟩

/-- C7: for every state the FIFO can be in and every pushed sequence `s`,
after `aec_fifo_push(s)` the samples held, in pop order, are the last
`min(AEC_FIFO_CAPACITY, old size + |s|)` elements of the old contents followed
by `s`; in particular, once pushes without a pop have brought at least
`AEC_FIFO_CAPACITY` samples, the FIFO holds exactly the `AEC_FIFO_CAPACITY`
most recently pushed ones, the older being dropped. -/
theorem aec_fifo_push_keeps_newest (f : AecFifo) (hf : AecFifo.Reachable f) :
    (∀ s : List Int, (aec_fifo_push f s).contents =
      lastN (min AEC_FIFO_CAPACITY (f.aec_fifo_size + s.length)) (f.contents ++ s)) ∧
    (∀ ss : List (List Int), AEC_FIFO_CAPACITY ≤ ss.flatten.length →
      (ss.foldl aec_fifo_push f).contents = lastN AEC_FIFO_CAPACITY ss.flatten) := by
  constructor
  · intro s
    exact (contents_push f s (inv_of_reachable f hf)).1
  · intro ss hlen
    rw [push_flatten, (contents_push _ _ (inv_of_reachable f hf)).1,
      Nat.min_eq_left (by omega)]
    exact lastN_append_of_le _ _ _ hlen

/-- C7 at the initial FIFO and the samples `1, 2, 3`. -/
theorem aec_fifo_push_keeps_newest_witness :
    (aec_fifo_push AecFifo.initial [1, 2, 3]).contents = [1, 2, 3] :=
  ((aec_fifo_push_keeps_newest AecFifo.initial AecFifo.Reachable.initial).1 [1, 2, 3]).trans
    (by decide)

/-- C8: for every FIFO state and every `count` greater than the number of
stored samples, `aec_fifo_pop(out, count)` returns FALSE and leaves the FIFO
(head, tail, size and stored samples) and the `out` buffer as they were. -/
theorem aec_fifo_pop_underflow (f : AecFifo) (out : Nat → Int) (count : Int)
    (h : (f.aec_fifo_size : Int) < count) :
    aec_fifo_pop f out count = (false, out, f) := by
  unfold aec_fifo_pop
  rw [if_neg (by omega), if_neg (by omega)]

/-- C8 at the initial (empty) FIFO and `count = 80`. -/
theorem aec_fifo_pop_underflow_witness :
    aec_fifo_pop AecFifo.initial (fun _ => 0) 80 = (false, fun _ => 0, AecFifo.initial) :=
  aec_fifo_pop_underflow AecFifo.initial (fun _ => 0) 80 (by decide)

/-! ## Claims on the listener and the ringtone timer -/

theorem listener_clip_none (buf : List Nat) (st : Phone) (h : ¬ CLIP <:+: cstr buf) :
    listener_clip buf st = (buf, st) := by
  unfold listener_clip
  rw [strstr_none_of_no_occurrence CLIP buf (by simp [CLIP]) (by decide) h]

/-- `parse_ciev` on a chunk whose first `"+CIEV:"` reads `+CIEV: i,v` with the
single digits `di` and `dv`. -/
theorem parse_ciev_digits (a c : List Nat) (di dv : Nat) (ha0 : ∀ x ∈ a, x ≠ 0)
    (ha : ¬ CIEV <:+: a) (hc : ∀ x, c.head? = some x → ¬ (48 ≤ x ∧ x ≤ 57))
    (hdi : 48 ≤ di ∧ di ≤ 57) (hdv : 48 ≤ dv ∧ dv ≤ 57) :
    parse_ciev (a ++ (CIEV ++ (32 :: di :: 44 :: dv :: c))) (-1) (-1) =
      (true, ((di - 48 : Nat) : Int), ((dv - 48 : Nat) : Int)) := by
  have hi : INT_MIN ≤ numeralVal Sign.bare [di] ∧ numeralVal Sign.bare [di] ≤ INT_MAX := by
    simp only [numeralVal, digitsVal, INT_MIN, INT_MAX, List.foldl]
    omega
  have hv : INT_MIN ≤ numeralVal Sign.bare [dv] ∧ numeralVal Sign.bare [dv] ≤ INT_MAX := by
    simp only [numeralVal, digitsVal, INT_MIN, INT_MAX, List.foldl]
    omega
  have h := parse_ciev_numerals a [32] [] [] c Sign.bare Sign.bare [di] [dv] (-1) (-1) ha0 ha
    (by decide) (by simp) (by simp) (by simp) (by simpa [isdigit] using hdi) (by simp)
    (by simpa [isdigit] using hdv) (head_not_isdigit c hc)
  rw [clamp_long_of_int _ hi.1 hi.2, clamp_long_of_int _ hv.1 hv.2,
    toInt32_of_int _ hi.1 hi.2, toInt32_of_int _ hv.1 hv.2] at h
  simp only [numeral, Sign.toBytes, List.append_assoc, List.nil_append, List.cons_append,
    List.append_nil, List.singleton_append] at h
  rw [h]
  simp [numeralVal, digitsVal]

theorem strstr_ciev_isSome (a rest : List Nat) (ha0 : ∀ x ∈ a, x ≠ 0) (ha : ¬ CIEV <:+: a) :
    (strstr (a ++ (CIEV ++ rest)) CIEV).isSome = true := by
  rw [strstr_ciev a rest ha0 ha]
  rfl

/-- The listener on a chunk without `"+CLIP:"` whose first `"+CIEV:"` is
well formed: the `RING` test, then `handle_ciev_event` on the parsed pair. -/
theorem chunk_ciev_only (env : ScoEnv) (buf : List Nat) (st : Phone) (i v : Int)
    (hclip : ¬ CLIP <:+: cstr buf) (hsome : (strstr buf CIEV).isSome = true)
    (hparse : parse_ciev buf (-1) (-1) = (true, i, v)) :
    incoming_call_listener_chunk env buf st =
      handle_ciev_event env i v
        (if ((strstr buf RING).isSome &&
            decide ((log_msg st).current_call_state ≠ CallState.CALL_RINGING)) = true then
          g_idle_add (IdleCb.hfp_update_call_state_cb CallState.CALL_RINGING)
            (log_msg (log_msg st))
        else log_msg st) := by
  unfold incoming_call_listener_chunk
  simp only [listener_clip_none buf _ hclip, hsome, hparse, if_true]

/-- C9: from call state Idle (no timer armed, no transition pending), one
listener chunk that holds a `RING` token and whose `+CIEV` event reads
`+CIEV: 2,1` (no `+CLIP:` in it) queues two requests for Ringing; after the
main loop has run them the call state is Ringing, the ringtone timer is armed
and exactly one timer has been started: the second request starts none. -/
theorem ring_and_ciev_start_one_timer (env : ScoEnv) (st : Phone) (a c : List Nat)
    (hidle : st.current_call_state = CallState.CALL_IDLE)
    (htimer : st.ringtone_timer_id = 0)
    (hq : ∀ cb ∈ st.idle_queue, cb.isTransition = false)
    (ha0 : ∀ x ∈ a, x ≠ 0) (ha : ¬ CIEV <:+: a)
    (hc : ∀ x, c.head? = some x → ¬ (48 ≤ x ∧ x ≤ 57))
    (hring : RING <:+: cstr (a ++ (CIEV ++ (32 :: 50 :: 44 :: 49 :: c))))
    (hclip : ¬ CLIP <:+: cstr (a ++ (CIEV ++ (32 :: 50 :: 44 :: 49 :: c)))) :
    (incoming_call_listener_chunk env (a ++ (CIEV ++ (32 :: 50 :: 44 :: 49 :: c))) st).idle_queue =
      st.idle_queue ++ [IdleCb.append_log_ui, IdleCb.append_log_ui,
        IdleCb.hfp_update_call_state_cb CallState.CALL_RINGING, IdleCb.append_log_ui,
        IdleCb.hfp_update_call_state_cb CallState.CALL_RINGING] ∧
    (listener_chunk_then_main env (a ++ (CIEV ++ (32 :: 50 :: 44 :: 49 :: c))) st).current_call_state
      = CallState.CALL_RINGING ∧
    (listener_chunk_then_main env (a ++ (CIEV ++ (32 :: 50 :: 44 :: 49 :: c))) st).ringtone_timer_id
      ≠ 0 ∧
    (listener_chunk_then_main env (a ++ (CIEV ++ (32 :: 50 :: 44 :: 49 :: c))) st).trace.count
      Effect.g_timeout_add = st.trace.count Effect.g_timeout_add + 1 := by
  have hparse := parse_ciev_digits a c 50 49 ha0 ha hc (by decide) (by decide)
  have hchunk := chunk_ciev_only env _ st 2 1 hclip (strstr_ciev_isSome a _ ha0 ha) hparse
  have hr : (strstr (a ++ (CIEV ++ (32 :: 50 :: 44 :: 49 :: c))) RING).isSome = true :=
    strstr_isSome_of_occurrence _ _ hring
  have hne : (log_msg st).current_call_state ≠ CallState.CALL_RINGING := by
    rw [cs_log_msg, hidle]
    decide
  rw [hr] at hchunk
  simp only [Bool.true_and, decide_eq_true_eq] at hchunk
  rw [if_pos hne] at hchunk
  have hev : handle_ciev_event env 2 1
      (g_idle_add (IdleCb.hfp_update_call_state_cb CallState.CALL_RINGING)
        (log_msg (log_msg st))) =
      g_idle_add (IdleCb.hfp_update_call_state_cb CallState.CALL_RINGING)
        (log_msg (g_idle_add (IdleCb.hfp_update_call_state_cb CallState.CALL_RINGING)
          (log_msg (log_msg st)))) := by
    unfold handle_ciev_event
    have h21 : ¬ ((2 : Int) = 1) := by decide
    have h10 : ¬ ((1 : Int) = 0) := by decide
    have hs : (g_idle_add (IdleCb.hfp_update_call_state_cb CallState.CALL_RINGING)
        (log_msg (log_msg st))).current_call_state ≠ CallState.CALL_RINGING := by
      simp only [cs_g_idle_add, cs_log_msg, hidle]
      decide
    rw [if_neg h21, if_pos rfl, if_neg h10, if_pos rfl, if_pos hs]
  rw [hev] at hchunk
  have hqueue : (incoming_call_listener_chunk env
      (a ++ (CIEV ++ (32 :: 50 :: 44 :: 49 :: c))) st).idle_queue =
      (st.idle_queue ++ [IdleCb.append_log_ui, IdleCb.append_log_ui]) ++
        IdleCb.hfp_update_call_state_cb CallState.CALL_RINGING ::
          [IdleCb.append_log_ui, IdleCb.hfp_update_call_state_cb CallState.CALL_RINGING] := by
    rw [hchunk]
    simp [g_idle_add, log_msg]
  have hcalm : Calm st (incoming_call_listener_chunk env
      (a ++ (CIEV ++ (32 :: 50 :: 44 :: 49 :: c))) st) := by
    rw [hchunk]
    exact calm_g_idle_add _ (calm_log_msg (calm_g_idle_add _
      (calm_log_msg (calm_log_msg (calm_refl st)))))
  have h0 : ∀ cb ∈ st.idle_queue ++ [IdleCb.append_log_ui, IdleCb.append_log_ui],
      cb.isTransition = false := by
    intro cb hcb
    rcases List.mem_append.mp hcb with h | h
    · exact hq cb h
    · simp only [List.mem_cons, List.mem_singleton, List.not_mem_nil, or_false, or_self] at h
      rw [h]
      rfl
  obtain ⟨s1, hs1, hrun⟩ := main_iteration_first_transition _ _ _ _ hqueue h0
  have hst1 := calm_trans hcalm hs1
  have hs1call : s1.current_call_state ≠ CallState.CALL_RINGING := by
    rw [hst1.1, hidle]
    decide
  have hs1timer : s1.ringtone_timer_id = 0 := by rw [hst1.2.2.2.1, htimer]
  obtain ⟨e1, e2⟩ := hfp_update_enter_ringing s1 hs1call hs1timer
  have e3 := cs_hfp_update_call_state_cb CallState.CALL_RINGING s1
  have hfinal : listener_chunk_then_main env (a ++ (CIEV ++ (32 :: 50 :: 44 :: 49 :: c))) st =
      update_ui (hfp_update_call_state_cb CallState.CALL_RINGING s1) := by
    unfold listener_chunk_then_main
    rw [hrun, run_callbacks_cons, run_callbacks_cons, run_callbacks_nil]
    exact hfp_update_reenter_ringing _ e3
  refine ⟨?_, ?_, ?_, ?_⟩
  · rw [hqueue]
    simp
  · rw [hfinal, cs_update_ui, e3]
  · rw [hfinal, rt_update_ui, e1]
    omega
  · rw [hfinal]
    have : (update_ui (hfp_update_call_state_cb CallState.CALL_RINGING s1)).trace.count
        Effect.g_timeout_add =
        (hfp_update_call_state_cb CallState.CALL_RINGING s1).trace.count
          Effect.g_timeout_add :=
      (quiet_emit Effect.update_ui (by simp) (quiet_refl _)).1.2.2.2.2.2.2.2.2
    rw [this, e2, hst1.2.2.2.2.2.2.2.2]

/-- C9 at the chunk `RING\r\n+CIEV: 2,1\r\n` received in the idle state. -/
theorem ring_and_ciev_start_one_timer_witness :
    (listener_chunk_then_main ScoEnv.ok (bytes "RING\r\n+CIEV: 2,1\r\n")
      (Phone.initial [] (bytes "00:11:22:33:44:55"))).current_call_state
      = CallState.CALL_RINGING ∧
    (listener_chunk_then_main ScoEnv.ok (bytes "RING\r\n+CIEV: 2,1\r\n")
      (Phone.initial [] (bytes "00:11:22:33:44:55"))).trace.count Effect.g_timeout_add = 1 :=
  ⟨(ring_and_ciev_start_one_timer ScoEnv.ok (Phone.initial [] (bytes "00:11:22:33:44:55"))
      (bytes "RING\r\n") (bytes "\r\n") rfl rfl (by decide) (by decide) (by decide) (by decide)
      (by decide) (by decide)).2.1,
   (ring_and_ciev_start_one_timer ScoEnv.ok (Phone.initial [] (bytes "00:11:22:33:44:55"))
      (bytes "RING\r\n") (bytes "\r\n") rfl rfl (by decide) (by decide) (by decide) (by decide)
      (by decide) (by decide)).2.2.2⟩

/-! ## Claims on the call state after a chunk: end of call -/

theorem caller_start_ringtone (s : Phone) :
    (start_ringtone s).current_call_number = s.current_call_number ∧
    (start_ringtone s).current_call_name = s.current_call_name := by
  unfold start_ringtone
  split_ifs <;> exact ⟨rfl, rfl⟩

theorem caller_stop_ringtone (s : Phone) :
    (stop_ringtone s).current_call_number = s.current_call_number ∧
    (stop_ringtone s).current_call_name = s.current_call_name := by
  unfold stop_ringtone
  split_ifs <;> exact ⟨rfl, rfl⟩

theorem caller_stop_sco_audio (s : Phone) :
    (stop_sco_audio false s).current_call_number = s.current_call_number ∧
    (stop_sco_audio false s).current_call_name = s.current_call_name :=
  ⟨(quiet_stop_sco_audio (quiet_refl s)).1.2.1, (quiet_stop_sco_audio (quiet_refl s)).1.2.2.1⟩

/-- `set_call_state` leaves the caller number and name alone. -/
theorem caller_set_call_state (X : CallState) (s : Phone) :
    (set_call_state X s).current_call_number = s.current_call_number ∧
    (set_call_state X s).current_call_name = s.current_call_name := by
  unfold set_call_state
  split_ifs with h1
  · exact ⟨rfl, rfl⟩
  · have key : (if (set_current_call_state X s).current_call_state = CallState.CALL_RINGING then
        bring_window_to_front (start_ringtone (set_current_call_state X s))
        else stop_ringtone (set_current_call_state X s)).current_call_number =
          s.current_call_number ∧
        (if (set_current_call_state X s).current_call_state = CallState.CALL_RINGING then
        bring_window_to_front (start_ringtone (set_current_call_state X s))
        else stop_ringtone (set_current_call_state X s)).current_call_name =
          s.current_call_name := by
      split_ifs
      · exact caller_start_ringtone (set_current_call_state X s)
      · exact caller_stop_ringtone (set_current_call_state X s)
    simp only []
    generalize (if (set_current_call_state X s).current_call_state = CallState.CALL_RINGING then
        bring_window_to_front (start_ringtone (set_current_call_state X s))
        else stop_ringtone (set_current_call_state X s)) = t at key
    split_ifs
    · exact ⟨(caller_stop_sco_audio t).1.trans key.1, (caller_stop_sco_audio t).2.trans key.2⟩
    · exact key

/-- The Idle callback leaves both caller arrays zeroed. -/
theorem caller_hfp_update_idle (s : Phone) :
    (hfp_update_call_state_cb CallState.CALL_IDLE s).current_call_number = List.replicate 64 0 ∧
    (hfp_update_call_state_cb CallState.CALL_IDLE s).current_call_name = List.replicate 128 0 := by
  unfold hfp_update_call_state_cb
  rw [if_pos rfl]
  exact caller_set_call_state CallState.CALL_IDLE (clear_call_info (stop_sco_audio false s))

theorem cstr_replicate_zero_nil (k : Nat) : cstr (List.replicate k 0) = [] := by
  have := cstr_replicate_zero k [] rfl
  simpa using this

/-- C11: from call state Active (no transition pending), whatever caller
number and name are recorded, a chunk whose `+CIEV` event reads `+CIEV: 1,0`
(no `+CLIP:` in it) ends, once the main loop has run, in call state Idle with
the caller number and the caller name both empty. -/
theorem ciev_call_ended_clears_caller (env : ScoEnv) (st : Phone) (a c : List Nat)
    (hactive : st.current_call_state = CallState.CALL_ACTIVE)
    (hq : ∀ cb ∈ st.idle_queue, cb.isTransition = false)
    (ha0 : ∀ x ∈ a, x ≠ 0) (ha : ¬ CIEV <:+: a)
    (hc : ∀ x, c.head? = some x → ¬ (48 ≤ x ∧ x ≤ 57))
    (hclip : ¬ CLIP <:+: cstr (a ++ (CIEV ++ (32 :: 49 :: 44 :: 48 :: c)))) :
    (listener_chunk_then_main env (a ++ (CIEV ++ (32 :: 49 :: 44 :: 48 :: c))) st).current_call_state
      = CallState.CALL_IDLE ∧
    cstr (listener_chunk_then_main env
      (a ++ (CIEV ++ (32 :: 49 :: 44 :: 48 :: c))) st).current_call_number = [] ∧
    cstr (listener_chunk_then_main env
      (a ++ (CIEV ++ (32 :: 49 :: 44 :: 48 :: c))) st).current_call_name = [] := by
  have hparse := parse_ciev_digits a c 49 48 ha0 ha hc (by decide) (by decide)
  have hchunk := chunk_ciev_only env _ st 1 0 hclip (strstr_ciev_isSome a _ ha0 ha) hparse
  have hne : (log_msg st).current_call_state ≠ CallState.CALL_RINGING := by
    rw [cs_log_msg, hactive]
    decide
  by_cases hring : (strstr (a ++ (CIEV ++ (32 :: 49 :: 44 :: 48 :: c))) RING).isSome = true
  · -- a RING token in the same chunk queues Ringing first, Idle comes last
    rw [hring] at hchunk
    simp only [Bool.true_and, decide_eq_true_eq] at hchunk
    rw [if_pos hne] at hchunk
    have hev : handle_ciev_event env 1 0
        (g_idle_add (IdleCb.hfp_update_call_state_cb CallState.CALL_RINGING)
          (log_msg (log_msg st))) =
        g_idle_add (IdleCb.hfp_update_call_state_cb CallState.CALL_IDLE)
          (log_msg (g_idle_add (IdleCb.hfp_update_call_state_cb CallState.CALL_RINGING)
            (log_msg (log_msg st)))) := by
      unfold handle_ciev_event
      have h10 : ¬ ((0 : Int) = 1) := by decide
      have hs : (g_idle_add (IdleCb.hfp_update_call_state_cb CallState.CALL_RINGING)
          (log_msg (log_msg st))).current_call_state ≠ CallState.CALL_IDLE := by
        simp only [cs_g_idle_add, cs_log_msg, hactive]
        decide
      rw [if_pos rfl, if_neg h10, if_pos rfl, if_pos hs]
    rw [hev] at hchunk
    have hqueue : (incoming_call_listener_chunk env
        (a ++ (CIEV ++ (32 :: 49 :: 44 :: 48 :: c))) st).idle_queue =
        (st.idle_queue ++ [IdleCb.append_log_ui, IdleCb.append_log_ui]) ++
          IdleCb.hfp_update_call_state_cb CallState.CALL_RINGING ::
            [IdleCb.append_log_ui, IdleCb.hfp_update_call_state_cb CallState.CALL_IDLE] := by
      rw [hchunk]
      simp [g_idle_add, log_msg]
    have h0 : ∀ cb ∈ st.idle_queue ++ [IdleCb.append_log_ui, IdleCb.append_log_ui],
        cb.isTransition = false := by
      intro cb hcb
      rcases List.mem_append.mp hcb with h | h
      · exact hq cb h
      · simp only [List.mem_cons, List.mem_singleton, List.not_mem_nil, or_false, or_self] at h
        rw [h]
        rfl
    obtain ⟨s1, -, hrun⟩ := main_iteration_first_transition _ _ _ _ hqueue h0
    have hfinal : listener_chunk_then_main env (a ++ (CIEV ++ (32 :: 49 :: 44 :: 48 :: c))) st =
        hfp_update_call_state_cb CallState.CALL_IDLE
          (hfp_update_call_state_cb CallState.CALL_RINGING s1) := by
      unfold listener_chunk_then_main
      rw [hrun, run_callbacks_cons, run_callbacks_cons, run_callbacks_nil]
      rfl
    rw [hfinal]
    obtain ⟨k1, k2⟩ := caller_hfp_update_idle (hfp_update_call_state_cb CallState.CALL_RINGING s1)
    exact ⟨cs_hfp_update_call_state_cb _ _, by rw [k1]; exact cstr_replicate_zero_nil 64,
      by rw [k2]; exact cstr_replicate_zero_nil 128⟩
  · have hno : ¬ (((strstr (a ++ (CIEV ++ (32 :: 49 :: 44 :: 48 :: c))) RING).isSome &&
        decide ((log_msg st).current_call_state ≠ CallState.CALL_RINGING)) = true) := by
      simp [hring]
    rw [if_neg hno] at hchunk
    have hev : handle_ciev_event env 1 0 (log_msg st) =
        g_idle_add (IdleCb.hfp_update_call_state_cb CallState.CALL_IDLE)
          (log_msg (log_msg st)) := by
      unfold handle_ciev_event
      have h10 : ¬ ((0 : Int) = 1) := by decide
      have hs : (log_msg st).current_call_state ≠ CallState.CALL_IDLE := by
        rw [cs_log_msg, hactive]
        decide
      rw [if_pos rfl, if_neg h10, if_pos rfl, if_pos hs]
    rw [hev] at hchunk
    have hA : Quiet st (log_msg (log_msg st)) := quiet_log_msg (quiet_log_msg (quiet_refl st))
    obtain ⟨s1, -, hfin⟩ := final_of_request st _ _ CallState.CALL_IDLE hA (quiet_refl _) hq
    unfold listener_chunk_then_main
    rw [hchunk]
    obtain ⟨k1, k2⟩ := caller_hfp_update_idle s1
    refine ⟨?_, ?_, ?_⟩
    · rw [hfin.1.1, cs_hfp_update_call_state_cb]
    · rw [hfin.1.2.1, k1]
      exact cstr_replicate_zero_nil 64
    · rw [hfin.1.2.2.1, k2]
      exact cstr_replicate_zero_nil 128

/-- C11 at the chunk `+CIEV: 1,0\r\n` received in call state Active with the
number `5551234` and the name `Bob` recorded. -/
theorem ciev_call_ended_clears_caller_witness :
    (listener_chunk_then_main ScoEnv.ok (bytes "+CIEV: 1,0\r\n")
      (set_current_call_name (bytes "Bob") (set_current_call_number (bytes "5551234")
        (set_current_call_state CallState.CALL_ACTIVE
          (Phone.initial [] (bytes "00:11:22:33:44:55")))))).current_call_state
      = CallState.CALL_IDLE ∧
    cstr (listener_chunk_then_main ScoEnv.ok (bytes "+CIEV: 1,0\r\n")
      (set_current_call_name (bytes "Bob") (set_current_call_number (bytes "5551234")
        (set_current_call_state CallState.CALL_ACTIVE
          (Phone.initial [] (bytes "00:11:22:33:44:55")))))).current_call_number = [] ∧
    cstr (listener_chunk_then_main ScoEnv.ok (bytes "+CIEV: 1,0\r\n")
      (set_current_call_name (bytes "Bob") (set_current_call_number (bytes "5551234")
        (set_current_call_state CallState.CALL_ACTIVE
          (Phone.initial [] (bytes "00:11:22:33:44:55")))))).current_call_name = [] :=
  ciev_call_ended_clears_caller ScoEnv.ok
    (set_current_call_name (bytes "Bob") (set_current_call_number (bytes "5551234")
      (set_current_call_state CallState.CALL_ACTIVE
        (Phone.initial [] (bytes "00:11:22:33:44:55")))))
    [] (bytes "\r\n") rfl (by decide) (by decide) (by decide) (by decide) (by decide)

/-! ## Rejected commands -/

/-- C13: in every connection state other than `STATE_CONNECTED`, for every
number, `dial_number` only logs one line: `hfp_dial` is not called, no call on
any socket (or anything else) is recorded, and the call state, the caller
number, the caller name and the three sockets stay as they were. -/
theorem dial_number_not_connected (env : ScoEnv) (dev : DialEnv) (number : List Nat)
    (st : Phone) (h : st.current_state ≠ AppState.STATE_CONNECTED) :
    dial_number env dev number st = log_msg st ∧
    (dial_number env dev number st).trace = st.trace ∧
    (dial_number env dev number st).current_call_state = st.current_call_state ∧
    (dial_number env dev number st).current_call_number = st.current_call_number ∧
    (dial_number env dev number st).current_call_name = st.current_call_name ∧
    (dial_number env dev number st).hfp_socket = st.hfp_socket ∧
    (dial_number env dev number st).hfp_listen_socket = st.hfp_listen_socket ∧
    (dial_number env dev number st).sco_socket = st.sco_socket := by
  have key : dial_number env dev number st = log_msg st := by
    unfold dial_number
    split_ifs
    · rfl
    · rfl
  rw [key]
  exact ⟨rfl, rfl, rfl, rfl, rfl, rfl, rfl, rfl⟩

/-- C13 at the number `5550000` dialled in connection state `STATE_PAIRED`. -/
theorem dial_number_not_connected_witness :
    dial_number ScoEnv.ok DialEnv.ok (bytes "5550000")
        (set_current_state AppState.STATE_PAIRED (Phone.initial [] (bytes "00:11:22:33:44:55")))
      = log_msg (set_current_state AppState.STATE_PAIRED
          (Phone.initial [] (bytes "00:11:22:33:44:55"))) ∧
    (dial_number ScoEnv.ok DialEnv.ok (bytes "5550000")
        (set_current_state AppState.STATE_PAIRED
          (Phone.initial [] (bytes "00:11:22:33:44:55")))).trace = [] :=
  ⟨(dial_number_not_connected ScoEnv.ok DialEnv.ok (bytes "5550000")
      (set_current_state AppState.STATE_PAIRED (Phone.initial [] (bytes "00:11:22:33:44:55")))
      (by decide)).1,
   (dial_number_not_connected ScoEnv.ok DialEnv.ok (bytes "5550000")
      (set_current_state AppState.STATE_PAIRED (Phone.initial [] (bytes "00:11:22:33:44:55")))
      (by decide)).2.1⟩

/-- C14: in every call state other than Ringing, `on_answer_clicked` only logs
its two lines: the call state is unchanged and nothing is recorded in the
trace, so no `ATA` is written to the control socket and `sco_connect` is not
called. -/
theorem on_answer_clicked_not_ringing (env : ScoEnv) (dev : DialEnv) (st : Phone)
    (h : st.current_call_state ≠ CallState.CALL_RINGING) :
    on_answer_clicked env dev st = log_msg (log_msg st) ∧
    (on_answer_clicked env dev st).current_call_state = st.current_call_state ∧
    (on_answer_clicked env dev st).trace = st.trace ∧
    (on_answer_clicked env dev st).sco_socket = st.sco_socket ∧
    sco_connect_calls (on_answer_clicked env dev st) = sco_connect_calls st := by
  have key : on_answer_clicked env dev st = log_msg (log_msg st) := by
    unfold on_answer_clicked
    have h2 : (log_msg st).current_call_state ≠ CallState.CALL_RINGING := h
    simp only [if_pos h2]
  rw [key]
  exact ⟨rfl, rfl, rfl, rfl, rfl⟩

/-- C14 at the initial state (call state Idle, listener socket open). -/
theorem on_answer_clicked_not_ringing_witness :
    on_answer_clicked ScoEnv.ok DialEnv.ok (Phone.initial [] (bytes "00:11:22:33:44:55"))
      = log_msg (log_msg (Phone.initial [] (bytes "00:11:22:33:44:55"))) ∧
    (on_answer_clicked ScoEnv.ok DialEnv.ok
      (Phone.initial [] (bytes "00:11:22:33:44:55"))).trace = [] :=
  ⟨(on_answer_clicked_not_ringing ScoEnv.ok DialEnv.ok
      (Phone.initial [] (bytes "00:11:22:33:44:55")) (by decide)).1,
   (on_answer_clicked_not_ringing ScoEnv.ok DialEnv.ok
      (Phone.initial [] (bytes "00:11:22:33:44:55")) (by decide)).2.2.1⟩

/-! ## Teardown of the audio channel -/

/-- A second `stop_sco_audio` right after a first one changes nothing. -/
theorem stop_sco_audio_twice (r1 r2 : Bool) (st : Phone) :
    stop_sco_audio r2 (stop_sco_audio r1 st) = stop_sco_audio r1 st := by
  cases st
  simp only [stop_sco_audio, shutdown_webrtc_aec, clear_fifo, set_aec_enabled,
    set_sco_audio_running, close_sco_socket, set_sco_socket, emit, g_idle_add]
  split_ifs <;> first
    | (simp_all [aec_fifo_clear]; done)
    | (simp_all [aec_fifo_clear]; omega)

/-- After `stop_sco_audio` the running flag is FALSE and the socket is closed. -/
theorem stop_sco_audio_closed (r : Bool) (st : Phone) :
    (stop_sco_audio r st).sco_audio_running = false ∧ (stop_sco_audio r st).sco_socket < 0 := by
  cases st
  simp only [stop_sco_audio, shutdown_webrtc_aec, clear_fifo, set_aec_enabled,
    set_sco_audio_running, close_sco_socket, set_sco_socket, emit, g_idle_add]
  split_ifs <;> simp_all

/-- C17: for every reason (given or NULL, at either call), a second
`stop_sco_audio` right after a first one finds the running flag FALSE and the
socket closed, and changes nothing: the state after it is the state after the
first call, so the trace has no further `shutdown` or `close` (nor any other
call) and the idle queue no further log message. -/
theorem stop_sco_audio_idempotent (r1 r2 : Bool) (st : Phone) :
    (stop_sco_audio r1 st).sco_audio_running = false ∧
    (stop_sco_audio r1 st).sco_socket < 0 ∧
    stop_sco_audio r2 (stop_sco_audio r1 st) = stop_sco_audio r1 st ∧
    (stop_sco_audio r2 (stop_sco_audio r1 st)).trace = (stop_sco_audio r1 st).trace ∧
    (stop_sco_audio r2 (stop_sco_audio r1 st)).idle_queue = (stop_sco_audio r1 st).idle_queue := by
  rw [stop_sco_audio_twice]
  exact ⟨(stop_sco_audio_closed r1 st).1, (stop_sco_audio_closed r1 st).2, rfl, rfl, rfl⟩

/-! ## The ringtone invariant -/

/-- A call of `set_call_state` that changes the state establishes the invariant. -/
theorem ringInv_set_call_state_change (X : CallState) (st : Phone)
    (h : st.current_call_state ≠ X) : RingInv (set_call_state X st) := by
  cases st
  simp only [RingInv, set_call_state, set_current_call_state, bring_window_to_front,
    start_ringtone, stop_ringtone, g_timeout_add, set_ringtone_timer_id, update_call_ui,
    stop_sco_audio, shutdown_webrtc_aec, clear_fifo, set_aec_enabled,
    set_sco_audio_running, close_sco_socket, set_sco_socket, emit, g_idle_add] at h ⊢
  split_ifs <;> simp_all

/-- What a call of `set_call_state` that changes the state does to the timer:
entering Ringing starts one unless one is recorded, another new state removes
the recorded one if there is one. -/
theorem set_call_state_timer_effects (X : CallState) (st : Phone)
    (h : st.current_call_state ≠ X) :
    (X = CallState.CALL_RINGING →
      timers_started (set_call_state X st) =
        timers_started st + (if st.ringtone_timer_id = 0 then 1 else 0) ∧
      removed_sources (set_call_state X st) = removed_sources st ∧
      (set_call_state X st).ringtone_timer_id =
        (if st.ringtone_timer_id = 0 then st.glib_sources + 1 else st.ringtone_timer_id)) ∧
    (X ≠ CallState.CALL_RINGING →
      timers_started (set_call_state X st) = timers_started st ∧
      removed_sources (set_call_state X st) =
        removed_sources st ++ (if st.ringtone_timer_id = 0 then [] else [st.ringtone_timer_id]) ∧
      (set_call_state X st).ringtone_timer_id = 0) := by
  cases st
  simp only [timers_started, removed_sources, set_call_state, set_current_call_state,
    bring_window_to_front, start_ringtone, stop_ringtone, g_timeout_add, set_ringtone_timer_id,
    update_call_ui, stop_sco_audio, shutdown_webrtc_aec, clear_fifo, set_aec_enabled,
    set_sco_audio_running, close_sco_socket, set_sco_socket, emit, g_idle_add] at h ⊢
  constructor
  · intro hX
    subst hX
    split_ifs <;>
      simp_all [List.count_append, List.count_cons, List.filterMap_append, Effect.removed]
  · intro hX
    split_ifs <;>
      simp_all [List.count_append, List.count_cons, List.filterMap_append, Effect.removed]

/-- C19: the invariant that the ringtone timer is armed exactly when the call
state is Ringing holds in the initial state and is kept by `set_call_state(new)`
for every `new`, both for the recorded timer id (`RingInv`) and for the timers
themselves (`TimerBalance`: of the timers started with `g_timeout_add`, all
have been removed with `g_source_remove` but one when Ringing, and all
otherwise). Leaving Ringing removes exactly the recorded timer; entering
Ringing starts exactly one timer and records its id; a change between two
other states starts and removes none; the call with `new` equal to the current
state returns the state as it is (same trace: no timer started or removed, no
teardown of the audio channel, no UI refresh). -/
theorem set_call_state_ring_invariant (contacts : List Contact) (addr : List Nat)
    (new_state : CallState) (st : Phone) (h : RingInv st) :
    RingInv (Phone.initial contacts addr) ∧
    RingInv (set_call_state new_state st) ∧
    (set_call_state new_state st).current_call_state = new_state ∧
    set_call_state st.current_call_state st = st ∧
    TimerBalance (Phone.initial contacts addr) ∧
    (TimerBalance st → TimerBalance (set_call_state new_state st)) ∧
    (st.current_call_state = CallState.CALL_RINGING → new_state ≠ CallState.CALL_RINGING →
      removed_sources (set_call_state new_state st) =
        removed_sources st ++ [st.ringtone_timer_id] ∧
      timers_started (set_call_state new_state st) = timers_started st ∧
      (set_call_state new_state st).ringtone_timer_id = 0) ∧
    (st.current_call_state ≠ CallState.CALL_RINGING → new_state = CallState.CALL_RINGING →
      timers_started (set_call_state new_state st) = timers_started st + 1 ∧
      removed_sources (set_call_state new_state st) = removed_sources st ∧
      (set_call_state new_state st).ringtone_timer_id = st.glib_sources + 1) ∧
    (st.current_call_state ≠ CallState.CALL_RINGING → new_state ≠ CallState.CALL_RINGING →
      timers_started (set_call_state new_state st) = timers_started st ∧
      removed_sources (set_call_state new_state st) = removed_sources st) := by
  have hsame : ∀ X, st.current_call_state = X → set_call_state X st = st := by
    intro X hX
    unfold set_call_state
    rw [if_pos hX]
  have hleave : st.current_call_state = CallState.CALL_RINGING →
      new_state ≠ CallState.CALL_RINGING →
      removed_sources (set_call_state new_state st) =
        removed_sources st ++ [st.ringtone_timer_id] ∧
      timers_started (set_call_state new_state st) = timers_started st ∧
      (set_call_state new_state st).ringtone_timer_id = 0 := by
    intro h1 h2
    have ht : st.ringtone_timer_id ≠ 0 := h.mpr h1
    obtain ⟨a, b, c⟩ := (set_call_state_timer_effects new_state st
      (by rw [h1]; exact fun e => h2 e.symm)).2 h2
    rw [if_neg ht] at b
    exact ⟨b, a, c⟩
  have henter : st.current_call_state ≠ CallState.CALL_RINGING →
      new_state = CallState.CALL_RINGING →
      timers_started (set_call_state new_state st) = timers_started st + 1 ∧
      removed_sources (set_call_state new_state st) = removed_sources st ∧
      (set_call_state new_state st).ringtone_timer_id = st.glib_sources + 1 := by
    intro h1 h2
    have ht : st.ringtone_timer_id = 0 := by
      by_contra hc
      exact h1 (h.mp hc)
    obtain ⟨a, b, c⟩ := (set_call_state_timer_effects new_state st
      (by rw [h2]; exact h1)).1 h2
    rw [if_pos ht] at a c
    exact ⟨a, b, c⟩
  have hother : st.current_call_state ≠ CallState.CALL_RINGING →
      new_state ≠ CallState.CALL_RINGING →
      timers_started (set_call_state new_state st) = timers_started st ∧
      removed_sources (set_call_state new_state st) = removed_sources st := by
    intro h1 h2
    by_cases hc : st.current_call_state = new_state
    · rw [hsame new_state hc]
      exact ⟨rfl, rfl⟩
    · have ht : st.ringtone_timer_id = 0 := by
        by_contra hc2
        exact h1 (h.mp hc2)
      obtain ⟨a, b, -⟩ := (set_call_state_timer_effects new_state st hc).2 h2
      rw [if_pos ht, List.append_nil] at b
      exact ⟨a, b⟩
  refine ⟨?_, ?_, cs_set_call_state new_state st, hsame _ rfl, ?_, ?_, hleave, henter, hother⟩
  · simp [RingInv, Phone.initial]
  · by_cases hc : st.current_call_state = new_state
    · rw [hsame new_state hc]
      exact h
    · exact ringInv_set_call_state_change new_state st hc
  · simp [TimerBalance, timers_started, removed_sources, Phone.initial]
  · intro hb
    unfold TimerBalance at hb ⊢
    rw [cs_set_call_state]
    by_cases h1 : st.current_call_state = CallState.CALL_RINGING
    · by_cases h2 : new_state = CallState.CALL_RINGING
      · rw [hsame new_state (h1.trans h2.symm)]
        rw [if_pos h1] at hb
        rw [if_pos h2]
        exact hb
      · obtain ⟨a, b, -⟩ := hleave h1 h2
        rw [if_pos h1] at hb
        rw [a, b, if_neg h2, List.length_append, hb]
        simp
    · by_cases h2 : new_state = CallState.CALL_RINGING
      · obtain ⟨a, b, -⟩ := henter h1 h2
        rw [if_neg h1] at hb
        rw [a, b, if_pos h2, hb]
      · obtain ⟨a, b⟩ := hother h1 h2
        rw [if_neg h1] at hb
        rw [a, b, if_neg h2, hb]

/-- C19 at the initial state and the new state Ringing, and at the state so
reached and the new state Active: the timer started is the timer removed. -/
theorem set_call_state_ring_invariant_witness :
    RingInv (Phone.initial [] (bytes "00:11:22:33:44:55")) ∧
    RingInv (set_call_state CallState.CALL_RINGING (Phone.initial [] (bytes "00:11:22:33:44:55"))) ∧
    (set_call_state CallState.CALL_RINGING
      (Phone.initial [] (bytes "00:11:22:33:44:55"))).ringtone_timer_id = 1 ∧
    removed_sources (set_call_state CallState.CALL_ACTIVE
      (set_call_state CallState.CALL_RINGING (Phone.initial [] (bytes "00:11:22:33:44:55")))) =
      removed_sources (set_call_state CallState.CALL_RINGING
        (Phone.initial [] (bytes "00:11:22:33:44:55"))) ++
        [(set_call_state CallState.CALL_RINGING
          (Phone.initial [] (bytes "00:11:22:33:44:55"))).ringtone_timer_id] :=
  ⟨(set_call_state_ring_invariant [] (bytes "00:11:22:33:44:55") CallState.CALL_RINGING
      (Phone.initial [] (bytes "00:11:22:33:44:55")) (by simp [RingInv, Phone.initial])).1,
   (set_call_state_ring_invariant [] (bytes "00:11:22:33:44:55") CallState.CALL_RINGING
      (Phone.initial [] (bytes "00:11:22:33:44:55")) (by simp [RingInv, Phone.initial])).2.1,
   by decide,
   ((set_call_state_ring_invariant [] (bytes "00:11:22:33:44:55") CallState.CALL_ACTIVE
      (set_call_state CallState.CALL_RINGING (Phone.initial [] (bytes "00:11:22:33:44:55")))
      (by unfold RingInv; decide)).2.2.2.2.2.2.1 (by decide) (by decide)).1⟩

/-! ## Counting the calls of `sco_connect` -/

theorem scc_emit (e : Effect) (s : Phone) (he : e ≠ Effect.sco_connect) :
    sco_connect_calls (emit e s) = sco_connect_calls s := by
  simp [sco_connect_calls, emit, List.count_append, List.count_cons, he]

theorem scc_emit_sco_connect (s : Phone) :
    sco_connect_calls (emit Effect.sco_connect s) = sco_connect_calls s + 1 := by
  simp [sco_connect_calls, emit, List.count_append]

theorem scc_log_msg (s : Phone) : sco_connect_calls (log_msg s) = sco_connect_calls s := rfl

theorem scc_stop_sco_audio (r : Bool) (s : Phone) :
    sco_connect_calls (stop_sco_audio r s) = sco_connect_calls s := by
  cases s
  simp only [sco_connect_calls, stop_sco_audio, shutdown_webrtc_aec, clear_fifo, set_aec_enabled,
    set_sco_audio_running, close_sco_socket, set_sco_socket, emit, g_idle_add]
  split_ifs <;> simp [List.count_append, List.count_cons]

theorem scc_set_call_state (X : CallState) (s : Phone) :
    sco_connect_calls (set_call_state X s) = sco_connect_calls s := by
  cases s
  simp only [sco_connect_calls, set_call_state, set_current_call_state, bring_window_to_front,
    start_ringtone, stop_ringtone, g_timeout_add, set_ringtone_timer_id, update_call_ui,
    stop_sco_audio, shutdown_webrtc_aec, clear_fifo, set_aec_enabled,
    set_sco_audio_running, close_sco_socket, set_sco_socket, emit, g_idle_add]
  split_ifs <;> simp [List.count_append, List.count_cons]

theorem scc_sco_close_previous (s : Phone) :
    sco_connect_calls (sco_close_previous s) = sco_connect_calls s := by
  cases s
  simp only [sco_connect_calls, sco_close_previous, log_msg,
    stop_sco_audio, shutdown_webrtc_aec, clear_fifo, set_aec_enabled,
    set_sco_audio_running, close_sco_socket, set_sco_socket, emit, g_idle_add]
  split_ifs <;> simp [List.count_append, List.count_cons]

theorem scc_sco_connected (env : ScoEnv) (s : Phone) :
    sco_connect_calls (sco_connected env s).2 = sco_connect_calls s := by
  cases s
  simp only [sco_connect_calls, sco_connected, init_webrtc_aec, log_msg, set_sco_mtu,
    clear_fifo, set_aec_enabled, set_sco_audio_running, emit, g_idle_add]
  split <;> simp [List.count_append, List.count_cons]

theorem scc_sco_connect_retry (env : ScoEnv) (s : Phone) :
    sco_connect_calls (sco_connect_retry env s).2 = sco_connect_calls s := by
  unfold sco_connect_retry
  simp only []
  split_ifs
  · rw [scc_sco_connected]
    rfl
  · rw [show ∀ v t, sco_connect_calls (set_sco_socket v t) = sco_connect_calls t from
      fun _ _ => rfl, scc_emit _ _ (by simp)]
    rfl
  · rfl

theorem scc_sco_connect_failed (env : ScoEnv) (s : Phone) :
    sco_connect_calls (sco_connect_failed env s).2 = sco_connect_calls s := by
  unfold sco_connect_failed
  simp only []
  split_ifs
  · rw [scc_sco_connect_retry]
    rw [show ∀ v t, sco_connect_calls (set_sco_socket v t) = sco_connect_calls t from
      fun _ _ => rfl, scc_emit _ _ (by simp)]
    rfl
  · rw [show ∀ v t, sco_connect_calls (set_sco_socket v t) = sco_connect_calls t from
      fun _ _ => rfl, scc_emit _ _ (by simp)]
    rfl

/-- One call of `sco_connect` is recorded as exactly one, however it ends. -/
theorem scc_sco_connect (env : ScoEnv) (s : Phone) :
    sco_connect_calls (sco_connect env s).2 = sco_connect_calls s + 1 := by
  have h1 : sco_connect_calls (set_sco_socket env.socket1
      (sco_close_previous (emit Effect.sco_connect s))) = sco_connect_calls s + 1 := by
    rw [show ∀ v t, sco_connect_calls (set_sco_socket v t) = sco_connect_calls t from
      fun _ _ => rfl, scc_sco_close_previous, scc_emit_sco_connect]
  unfold sco_connect
  simp only []
  split_ifs
  · exact scc_emit_sco_connect s
  · exact h1
  · rw [scc_sco_connect_failed]
    exact h1
  · rw [scc_sco_connect_failed]
    exact h1
  · rw [scc_sco_connected]
    exact h1
  · rw [scc_sco_connected]
    exact h1

/-! ## The listener path of `hfp_dial` -/

theorem scc_hfp_dial_accept (env : ScoEnv) (s : Phone) :
    sco_connect_calls (hfp_dial_accept env s) = sco_connect_calls s + 1 := by
  unfold hfp_dial_accept
  rw [show ∀ v t, sco_connect_calls (set_hfp_listen_paused v t) = sco_connect_calls t from
    fun _ _ => rfl, scc_set_call_state, scc_sco_connect]

theorem cs_hfp_dial_accept (env : ScoEnv) (s : Phone) :
    (hfp_dial_accept env s).current_call_state = CallState.CALL_OUTGOING := by
  unfold hfp_dial_accept
  exact cs_set_call_state CallState.CALL_OUTGOING _

/-- `strstr` finds the needle exactly when it occurs in the C string. -/
theorem strstr_isSome_iff (needle hay : List Nat) (hne : needle ≠ [])
    (hn0 : ∀ c ∈ needle, c ≠ 0) :
    (strstr hay needle).isSome = true ↔ needle <:+: cstr hay := by
  constructor
  · intro h
    by_contra hc
    rw [strstr_none_of_no_occurrence needle hay hne hn0 hc] at h
    exact absurd h (by simp)
  · exact strstr_isSome_of_occurrence needle hay

/-- What the classification of the response returns and leaves behind. -/
theorem hfp_dial_classify_spec (env : ScoEnv) (buf : List Nat) (s : Phone) :
    ((hfp_dial_classify env buf s).1 = false ↔
      (¬ OK <:+: cstr buf ∧ ¬ CIEV_TOKEN <:+: cstr buf ∧ ¬ CONNECT <:+: cstr buf) ∧
      (ERROR <:+: cstr buf ∨ NO_CARRIER <:+: cstr buf)) ∧
    ((hfp_dial_classify env buf s).1 = true →
      sco_connect_calls (hfp_dial_classify env buf s).2 = sco_connect_calls s + 1 ∧
      (hfp_dial_classify env buf s).2.current_call_state = CallState.CALL_OUTGOING) ∧
    ((hfp_dial_classify env buf s).1 = false →
      sco_connect_calls (hfp_dial_classify env buf s).2 = sco_connect_calls s ∧
      (hfp_dial_classify env buf s).2.current_call_state = s.current_call_state) := by
  have hOK := strstr_isSome_iff OK buf (by decide) (by decide)
  have hCI := strstr_isSome_iff CIEV_TOKEN buf (by decide) (by decide)
  have hCO := strstr_isSome_iff CONNECT buf (by decide) (by decide)
  have hER := strstr_isSome_iff ERROR buf (by decide) (by decide)
  have hNC := strstr_isSome_iff NO_CARRIER buf (by decide) (by decide)
  unfold hfp_dial_classify
  simp only [Bool.or_eq_true, hOK, hCI, hCO, hER, hNC]
  split_ifs with h1 h2
  · refine ⟨⟨fun h => absurd h (by simp), fun h => ?_⟩, fun _ => ?_, fun h => absurd h (by simp)⟩
    · rcases h1 with (h1 | h1) | h1
      · exact absurd h1 h.1.1
      · exact absurd h1 h.1.2.1
      · exact absurd h1 h.1.2.2
    · exact ⟨by rw [scc_hfp_dial_accept]; rfl, cs_hfp_dial_accept env _⟩
  · refine ⟨⟨fun _ => ⟨⟨?_, ?_, ?_⟩, h2⟩, fun _ => rfl⟩, fun h => absurd h (by simp),
      fun _ => ⟨rfl, rfl⟩⟩
    · exact fun h => h1 (Or.inl (Or.inl h))
    · exact fun h => h1 (Or.inl (Or.inr h))
    · exact fun h => h1 (Or.inr h)
  · refine ⟨⟨fun h => absurd h (by simp), fun h => absurd h.2 h2⟩, fun _ => ?_,
      fun h => absurd h (by simp)⟩
    exact ⟨by rw [scc_hfp_dial_accept]; rfl, cs_hfp_dial_accept env _⟩

/-- C16: with a device address set, a listener socket open and the `ATD` write
succeeding, `hfp_dial` returns FALSE exactly when the response holds none of
`OK`, `+CIEV`, `CONNECT` and does hold `ERROR` or `NO CARRIER`. When it returns
TRUE (every other response, the empty one included) `sco_connect` has been
called once and the call state is Outgoing; when it returns FALSE `sco_connect`
has not been called and the call state is as before. -/
theorem hfp_dial_listener_classification (env : ScoEnv) (dev : DialEnv) (number : List Nat)
    (st : Phone) (haddr : st.device_addr.head?.getD 0 ≠ 0) (hl : st.hfp_listen_socket ≥ 0)
    (hw : (dev.reply (atd_cmd number)).write_ret > 0) :
    ((hfp_dial env dev number st).1 = false ↔
      (¬ OK <:+: cstr (dev.reply (atd_cmd number)).read_buf ∧
       ¬ CIEV_TOKEN <:+: cstr (dev.reply (atd_cmd number)).read_buf ∧
       ¬ CONNECT <:+: cstr (dev.reply (atd_cmd number)).read_buf) ∧
      (ERROR <:+: cstr (dev.reply (atd_cmd number)).read_buf ∨
       NO_CARRIER <:+: cstr (dev.reply (atd_cmd number)).read_buf)) ∧
    ((hfp_dial env dev number st).1 = true →
      sco_connect_calls (hfp_dial env dev number st).2 = sco_connect_calls st + 1 ∧
      (hfp_dial env dev number st).2.current_call_state = CallState.CALL_OUTGOING) ∧
    ((hfp_dial env dev number st).1 = false →
      sco_connect_calls (hfp_dial env dev number st).2 = sco_connect_calls st ∧
      (hfp_dial env dev number st).2.current_call_state = st.current_call_state) := by
  have hw2 : ¬ (dev.reply (atd_cmd number)).write_ret ≤ 0 := by omega
  have key : ∃ s, hfp_dial env dev number st =
      hfp_dial_classify env (dev.reply (atd_cmd number)).read_buf s ∧
      sco_connect_calls s = sco_connect_calls st ∧
      s.current_call_state = st.current_call_state := by
    unfold hfp_dial
    rw [if_neg haddr, if_pos hl]
    unfold hfp_dial_listener
    simp only [if_neg hw2]
    refine ⟨_, rfl, ?_, ?_⟩
    · rw [scc_log_msg, scc_emit _ _ (by simp), scc_emit _ _ (by simp)]
      rfl
    · simp only [cs_log_msg, cs_emit]
      rfl
  obtain ⟨s, hk, hcount, hcs⟩ := key
  rw [hk, ← hcount, ← hcs]
  exact hfp_dial_classify_spec env (dev.reply (atd_cmd number)).read_buf s

/-- C16 at the response `NO CARRIER\r\n` (FALSE) on the open listener socket of
the initial state. -/
theorem hfp_dial_listener_classification_witness :
    (hfp_dial ScoEnv.ok
      { socket_fd := 9, connect_ret := 0,
        reply := fun cmd =>
          { write_ret := cmd.length, read_ret := 12, read_buf := bytes "NO CARRIER\r\n" } }
      (bytes "5550000") (Phone.initial [] (bytes "00:11:22:33:44:55"))).1 = false ↔
    (¬ OK <:+: cstr (bytes "NO CARRIER\r\n") ∧ ¬ CIEV_TOKEN <:+: cstr (bytes "NO CARRIER\r\n") ∧
      ¬ CONNECT <:+: cstr (bytes "NO CARRIER\r\n")) ∧
    (ERROR <:+: cstr (bytes "NO CARRIER\r\n") ∨ NO_CARRIER <:+: cstr (bytes "NO CARRIER\r\n")) :=
  (hfp_dial_listener_classification ScoEnv.ok
    { socket_fd := 9, connect_ret := 0,
      reply := fun cmd =>
        { write_ret := cmd.length, read_ret := 12, read_buf := bytes "NO CARRIER\r\n" } }
    (bytes "5550000") (Phone.initial [] (bytes "00:11:22:33:44:55"))
    (by decide) (by decide) (by decide)).1

/-! ## The fresh path of `hfp_dial` -/

theorem scc_hfp_close (s : Phone) : sco_connect_calls (hfp_close s) = sco_connect_calls s := by
  cases s
  simp only [sco_connect_calls, hfp_close, join_hfp_monitor, close_hfp_socket, set_hfp_socket,
    set_hfp_monitor_running, set_hfp_monitor_thread_handle, log_msg,
    set_sco_audio_running, close_sco_socket, set_sco_socket, emit, g_idle_add]
  split_ifs <;> simp [List.count_append, List.count_cons]

/-- A handshake step answered with `OK` goes on, having written and read once. -/
theorem hfp_slc_step_ok (dev : DialEnv) (cmd : List Nat) (s : Phone)
    (hw : 0 ≤ (dev.reply cmd).write_ret) (hr : 0 < (dev.reply cmd).read_ret)
    (hok : OK <:+: cstr (dev.reply cmd).read_buf) :
    (hfp_slc_step dev cmd s).1 = true ∧
    sco_connect_calls (hfp_slc_step dev cmd s).2 = sco_connect_calls s := by
  have h1 : ¬ (dev.reply cmd).write_ret < 0 := by omega
  have h2 : ¬ ((dev.reply cmd).read_ret ≤ 0 ∨
      (strstr (dev.reply cmd).read_buf OK).isSome = false) := by
    rw [strstr_isSome_of_occurrence OK _ hok]
    simp only [Bool.true_eq_false, or_false]
    omega
  unfold hfp_slc_step
  simp only [if_neg h1, if_neg h2, true_and]
  rw [scc_emit _ _ (by simp), scc_emit _ _ (by simp)]

theorem hfp_cmer_step_ok (dev : DialEnv) (s : Phone)
    (hw : 0 ≤ (dev.reply AT_CMER_1).write_ret) (hr : 0 < (dev.reply AT_CMER_1).read_ret)
    (hok : OK <:+: cstr (dev.reply AT_CMER_1).read_buf) :
    (hfp_cmer_step dev s).1 = true ∧
    sco_connect_calls (hfp_cmer_step dev s).2 = sco_connect_calls s := by
  have h1 : ¬ (dev.reply AT_CMER_1).write_ret < 0 := by omega
  have h2 : ¬ ((dev.reply AT_CMER_1).read_ret ≤ 0 ∨
      (strstr (dev.reply AT_CMER_1).read_buf OK).isSome = false) := by
    rw [strstr_isSome_of_occurrence OK _ hok]
    simp only [Bool.true_eq_false, or_false]
    omega
  unfold hfp_cmer_step
  simp only [if_neg h1, if_neg h2, true_and]
  rw [scc_emit _ _ (by simp), scc_emit _ _ (by simp)]

theorem scc_start_hfp_monitor (s : Phone) :
    sco_connect_calls (start_hfp_monitor s) = sco_connect_calls s := by
  unfold start_hfp_monitor
  rw [show ∀ v t, sco_connect_calls (set_hfp_monitor_thread_handle v t) = sco_connect_calls t
    from fun _ _ => rfl, scc_emit _ _ (by simp)]
  rfl

/-- The `ATD` step answered with `OK` returns TRUE after one `sco_connect`. -/
theorem hfp_dial_atd_ok (env : ScoEnv) (dev : DialEnv) (number : List Nat) (s : Phone)
    (hw : 0 ≤ (dev.reply (atd_cmd number)).write_ret)
    (hr : 0 < (dev.reply (atd_cmd number)).read_ret)
    (hok : OK <:+: cstr (dev.reply (atd_cmd number)).read_buf) :
    (hfp_dial_atd env dev number s).1 = true ∧
    sco_connect_calls (hfp_dial_atd env dev number s).2 = sco_connect_calls s + 1 := by
  have h1 : ¬ (dev.reply (atd_cmd number)).write_ret < 0 := by omega
  have h2 : (dev.reply (atd_cmd number)).read_ret > 0 ∧
      (strstr (dev.reply (atd_cmd number)).read_buf OK).isSome = true :=
    ⟨hr, strstr_isSome_of_occurrence OK _ hok⟩
  unfold hfp_dial_atd
  simp only [if_neg h1, if_pos h2, true_and]
  rw [scc_start_hfp_monitor, scc_sco_connect, scc_log_msg, scc_emit _ _ (by simp),
    scc_emit _ _ (by simp)]

/-- The handshake answered with `OK` at every step returns TRUE after one
`sco_connect`. -/
theorem hfp_dial_handshake_ok (env : ScoEnv) (dev : DialEnv) (number : List Nat) (s : Phone)
    (hreply : ∀ cmd ∈ [AT_BRSF_0, AT_CIND_TEST, AT_CIND_READ, AT_CMER_1, atd_cmd number],
      0 ≤ (dev.reply cmd).write_ret ∧ 0 < (dev.reply cmd).read_ret ∧
      OK <:+: cstr (dev.reply cmd).read_buf) :
    (hfp_dial_handshake env dev number s).1 = true ∧
    sco_connect_calls (hfp_dial_handshake env dev number s).2 = sco_connect_calls s + 1 := by
  obtain ⟨a1, a2, a3⟩ := hreply AT_BRSF_0 (by simp)
  obtain ⟨b1, b2, b3⟩ := hreply AT_CIND_TEST (by simp)
  obtain ⟨c1, c2, c3⟩ := hreply AT_CIND_READ (by simp)
  obtain ⟨d1, d2, d3⟩ := hreply AT_CMER_1 (by simp)
  obtain ⟨e1, e2, e3⟩ := hreply (atd_cmd number) (by simp)
  have s1 := hfp_slc_step_ok dev AT_BRSF_0 s a1 a2 a3
  have s2 := hfp_slc_step_ok dev AT_CIND_TEST (hfp_slc_step dev AT_BRSF_0 s).2 b1 b2 b3
  have s3 := hfp_slc_step_ok dev AT_CIND_READ
    (hfp_slc_step dev AT_CIND_TEST (hfp_slc_step dev AT_BRSF_0 s).2).2 c1 c2 c3
  have s4 := hfp_cmer_step_ok dev
    (hfp_slc_step dev AT_CIND_READ
      (hfp_slc_step dev AT_CIND_TEST (hfp_slc_step dev AT_BRSF_0 s).2).2).2 d1 d2 d3
  unfold hfp_dial_handshake
  simp only [s1.1, s2.1, s3.1, s4.1, Bool.true_eq_false, if_false]
  refine ⟨(hfp_dial_atd_ok env dev number _ e1 e2 e3).1, ?_⟩
  rw [(hfp_dial_atd_ok env dev number _ e1 e2 e3).2, scc_emit _ _ (by simp),
    scc_emit _ _ (by simp), scc_log_msg, s4.2, s3.2, s2.2, s1.2]

/-- The fresh path on which `socket` and `connect` succeed and the device
answers `OK` throughout returns TRUE after one `sco_connect`. -/
theorem hfp_dial_fresh_ok (env : ScoEnv) (dev : DialEnv) (number : List Nat) (s : Phone)
    (hsock : 0 ≤ dev.socket_fd) (hconnect : 0 ≤ dev.connect_ret)
    (hreply : ∀ cmd ∈ [AT_BRSF_0, AT_CIND_TEST, AT_CIND_READ, AT_CMER_1, atd_cmd number],
      0 ≤ (dev.reply cmd).write_ret ∧ 0 < (dev.reply cmd).read_ret ∧
      OK <:+: cstr (dev.reply cmd).read_buf) :
    (hfp_dial_fresh env dev number s).1 = true ∧
    sco_connect_calls (hfp_dial_fresh env dev number s).2 = sco_connect_calls s + 1 := by
  have h1 : ¬ (set_hfp_socket dev.socket_fd (emit Effect.socket (hfp_close s))).hfp_socket < 0 := by
    show ¬ dev.socket_fd < 0
    omega
  have h2 : ¬ dev.connect_ret < 0 := by omega
  unfold hfp_dial_fresh
  simp only [if_neg h1, if_neg h2]
  refine ⟨(hfp_dial_handshake_ok env dev number _ hreply).1, ?_⟩
  rw [(hfp_dial_handshake_ok env dev number _ hreply).2, scc_log_msg, scc_emit _ _ (by simp),
    scc_log_msg,
    show ∀ v t, sco_connect_calls (set_hfp_socket v t) = sco_connect_calls t from
      fun _ _ => rfl, scc_emit _ _ (by simp), scc_hfp_close]

theorem scc_dial_number_success (number : List Nat) (s : Phone) :
    sco_connect_calls (dial_number_success number s) = sco_connect_calls s := by
  unfold dial_number_success
  simp only []
  rw [show ∀ t, sco_connect_calls (update_ui t) = sco_connect_calls t from
    fun t => scc_emit _ t (by simp), scc_set_call_state]
  split <;> rfl

theorem cs_dial_number_success (number : List Nat) (s : Phone) :
    (dial_number_success number s).current_call_state = CallState.CALL_OUTGOING := by
  unfold dial_number_success
  simp only []
  exact cs_set_call_state CallState.CALL_OUTGOING _

/-- C15: with connection state Connected, a device address set and no listener
socket open, `dial_number(number)` for a non-empty number, on a system where
`socket` and `connect` succeed and a device that answers the handshake commands
and `ATD<number>;\r` with a response holding `OK`, ends in call state Outgoing,
and `sco_connect` is called exactly once in the whole operation. -/
theorem dial_number_fresh_outgoing (env : ScoEnv) (dev : DialEnv) (number : List Nat)
    (st : Phone) (hnum : number.head?.getD 0 ≠ 0)
    (hstate : st.current_state = AppState.STATE_CONNECTED)
    (haddr : st.device_addr.head?.getD 0 ≠ 0) (hl : st.hfp_listen_socket < 0)
    (hsock : 0 ≤ dev.socket_fd) (hconnect : 0 ≤ dev.connect_ret)
    (hreply : ∀ cmd ∈ [AT_BRSF_0, AT_CIND_TEST, AT_CIND_READ, AT_CMER_1, atd_cmd number],
      0 ≤ (dev.reply cmd).write_ret ∧ 0 < (dev.reply cmd).read_ret ∧
      OK <:+: cstr (dev.reply cmd).read_buf) :
    (dial_number env dev number st).current_call_state = CallState.CALL_OUTGOING ∧
    sco_connect_calls (dial_number env dev number st) = sco_connect_calls st + 1 := by
  have hs2 : ¬ st.current_state ≠ AppState.STATE_CONNECTED := fun h => h hstate
  have hl2 : ¬ (log_msg st).hfp_listen_socket ≥ 0 := by
    show ¬ st.hfp_listen_socket ≥ 0
    omega
  have haddr2 : ¬ (log_msg st).device_addr.head?.getD 0 = 0 := haddr
  have hd : hfp_dial env dev number (log_msg st) = hfp_dial_fresh env dev number (log_msg st) := by
    unfold hfp_dial
    rw [if_neg haddr2, if_neg hl2]
  have hf := hfp_dial_fresh_ok env dev number (log_msg st) hsock hconnect hreply
  unfold dial_number
  simp only [if_neg hnum, if_neg hs2, hd, hf.1, if_true]
  exact ⟨cs_dial_number_success number _, by
    rw [scc_dial_number_success, hf.2, scc_log_msg]⟩

/-- C15 at the number `5550000`, the initial state without listener socket,
and the device that answers every command with `OK\r\n`. -/
theorem dial_number_fresh_outgoing_witness :
    (dial_number ScoEnv.ok DialEnv.ok (bytes "5550000")
      (set_hfp_listen_socket (-1)
        (Phone.initial [] (bytes "00:11:22:33:44:55")))).current_call_state
      = CallState.CALL_OUTGOING ∧
    sco_connect_calls (dial_number ScoEnv.ok DialEnv.ok (bytes "5550000")
      (set_hfp_listen_socket (-1) (Phone.initial [] (bytes "00:11:22:33:44:55")))) =
    sco_connect_calls (set_hfp_listen_socket (-1)
      (Phone.initial [] (bytes "00:11:22:33:44:55"))) + 1 :=
  dial_number_fresh_outgoing ScoEnv.ok DialEnv.ok (bytes "5550000")
    (set_hfp_listen_socket (-1) (Phone.initial [] (bytes "00:11:22:33:44:55")))
    (by decide) rfl (by decide) (by decide) (by decide) (by decide) (by decide)

/-! ## One chunk with `RING` and `+CLIP:` -/

theorem queue_clip_lookup_contact (s : Phone) :
    (clip_lookup_contact s).idle_queue = s.idle_queue ∧
    (clip_lookup_contact s).current_call_state = s.current_call_state := by
  unfold clip_lookup_contact
  split_ifs
  · split <;> exact ⟨rfl, rfl⟩
  · exact ⟨rfl, rfl⟩

/-- The Ringing callback leaves the caller number alone. -/
theorem caller_hfp_update_ringing (s : Phone) :
    (hfp_update_call_state_cb CallState.CALL_RINGING s).current_call_number =
      s.current_call_number := by
  unfold hfp_update_call_state_cb
  have h : ¬ (CallState.CALL_RINGING = CallState.CALL_IDLE) := by decide
  rw [if_neg h]
  exact (caller_set_call_state CallState.CALL_RINGING s).1

/-- C12 (the claim as stated fails): in the initial state (call state Idle,
nothing queued) the chunk `RING\r\n+CLIP: "5551234",129,,,"Bob"\r\n` leaves two
notifications in the idle queue, not one. -/
theorem ring_clip_chunk_not_one_notification :
    ¬ ((listener_chunk_then_main ScoEnv.ok (bytes "RING\r\n+CLIP: \"5551234\",129,,,\"Bob\"\r\n")
        (Phone.initial [] (bytes "00:11:22:33:44:55"))).current_call_state
          = CallState.CALL_RINGING ∧
      cstr (listener_chunk_then_main ScoEnv.ok
        (bytes "RING\r\n+CLIP: \"5551234\",129,,,\"Bob\"\r\n")
        (Phone.initial [] (bytes "00:11:22:33:44:55"))).current_call_number = bytes "5551234" ∧
      (incoming_call_listener_chunk ScoEnv.ok
        (bytes "RING\r\n+CLIP: \"5551234\",129,,,\"Bob\"\r\n")
        (Phone.initial [] (bytes "00:11:22:33:44:55"))).idle_queue.countP
          IdleCb.isNotification = 1) := by
  decide

/-- C12 (amended): from call state Idle with no transition pending, the chunk
`RING\r\n+CLIP: "5551234",129,,,"Bob"\r\n` received in one read queues two
notifications, both transitions to Ringing (one from the `+CLIP:` block, one
from `RING`), among three log lines; after the main loop has run them the call
state is Ringing and the caller number is `5551234`. -/
theorem ring_clip_chunk_two_notifications (env : ScoEnv) (st : Phone)
    (hidle : st.current_call_state = CallState.CALL_IDLE)
    (hq : ∀ cb ∈ st.idle_queue, cb.isTransition = false)
    (h63 : (st.current_call_number.drop 63).head?.getD 0 = 0)
    (h127 : (st.current_call_name.drop 127).head?.getD 0 = 0) :
    (listener_chunk_then_main env (bytes "RING\r\n+CLIP: \"5551234\",129,,,\"Bob\"\r\n")
      st).current_call_state = CallState.CALL_RINGING ∧
    cstr (listener_chunk_then_main env (bytes "RING\r\n+CLIP: \"5551234\",129,,,\"Bob\"\r\n")
      st).current_call_number = bytes "5551234" ∧
    (incoming_call_listener_chunk env (bytes "RING\r\n+CLIP: \"5551234\",129,,,\"Bob\"\r\n")
      st).idle_queue = st.idle_queue ++ [IdleCb.append_log_ui, IdleCb.append_log_ui,
        IdleCb.hfp_update_call_state_cb CallState.CALL_RINGING, IdleCb.append_log_ui,
        IdleCb.hfp_update_call_state_cb CallState.CALL_RINGING] ∧
    (incoming_call_listener_chunk env (bytes "RING\r\n+CLIP: \"5551234\",129,,,\"Bob\"\r\n")
      st).idle_queue.countP IdleCb.isNotification =
        st.idle_queue.countP IdleCb.isNotification + 2 := by
  have hch : bytes "RING\r\n+CLIP: \"5551234\",129,,,\"Bob\"\r\n" =
      bytes "RING\r\n" ++ (CLIP ++ ([32] ++ 34 :: (bytes "5551234" ++ 34 ::
        bytes ",129,,,\"Bob\"\r\n"))) := by decide
  rw [hch]
  have hclip := listener_clip_number (bytes "RING\r\n") [32] (bytes "5551234")
    (bytes ",129,,,\"Bob\"\r\n") (log_msg st) (by decide) (by decide) (by decide) (by decide)
    (by decide)
  have hrec := chunk_clip_recorded env st (bytes "RING\r\n") [32] (bytes "5551234")
    (bytes ",129,,,\"Bob\"\r\n") (by decide) (by decide) (by decide) (by decide) (by decide)
    (by decide) h63 h127 _ rfl
  have hR : (strstr (bytes "RING\r\n" ++ (CLIP ++ ([32] ++ 34 :: (bytes "5551234" ++ 0 ::
      bytes ",129,,,\"Bob\"\r\n")))) RING).isSome = true := by decide
  have hC : (strstr (bytes "RING\r\n" ++ (CLIP ++ ([32] ++ 34 :: (bytes "5551234" ++ 0 ::
      bytes ",129,,,\"Bob\"\r\n")))) CIEV).isSome = false := by decide
  have hT : ((strstr (bytes "RING\r\n" ++ (CLIP ++ ([32] ++ 34 :: (bytes "5551234" ++ 0 ::
        bytes ",129,,,\"Bob\"\r\n")))) NO_CARRIER).isSome ||
      (strstr (bytes "RING\r\n" ++ (CLIP ++ ([32] ++ 34 :: (bytes "5551234" ++ 0 ::
        bytes ",129,,,\"Bob\"\r\n")))) BUSY).isSome ||
      (strstr (bytes "RING\r\n" ++ (CLIP ++ ([32] ++ 34 :: (bytes "5551234" ++ 0 ::
        bytes ",129,,,\"Bob\"\r\n")))) NO_ANSWER).isSome ||
      (strstr (bytes "RING\r\n" ++ (CLIP ++ ([32] ++ 34 :: (bytes "5551234" ++ 0 ::
        bytes ",129,,,\"Bob\"\r\n")))) ERROR).isSome) = false := by decide
  generalize hx : clip_lookup_contact
    (set_current_call_name ((log_msg st).current_call_name.set 0 0)
      (set_current_call_number
        (strncpy (log_msg st).current_call_number
          (bytes "5551234" ++ 0 :: bytes ",129,,,\"Bob\"\r\n") 63) (log_msg st))) = x at hclip
  have hxq : x.idle_queue = st.idle_queue ++ [IdleCb.append_log_ui] ∧
      x.current_call_state = CallState.CALL_IDLE := by
    rw [← hx, (queue_clip_lookup_contact _).1, (queue_clip_lookup_contact _).2]
    exact ⟨rfl, hidle⟩
  have hnotify : clip_notify x =
      g_idle_add (IdleCb.hfp_update_call_state_cb CallState.CALL_RINGING) (log_msg x) := by
    unfold clip_notify
    have : ¬ ((log_msg x).current_call_state = CallState.CALL_RINGING) := by
      rw [cs_log_msg, hxq.2]
      decide
    simp only [if_neg this]
  rw [hnotify] at hclip
  have hchunk : incoming_call_listener_chunk env
      (bytes "RING\r\n" ++ (CLIP ++ ([32] ++ 34 :: (bytes "5551234" ++ 34 ::
        bytes ",129,,,\"Bob\"\r\n")))) st =
      g_idle_add (IdleCb.hfp_update_call_state_cb CallState.CALL_RINGING)
        (log_msg (g_idle_add (IdleCb.hfp_update_call_state_cb CallState.CALL_RINGING)
          (log_msg x))) := by
    unfold incoming_call_listener_chunk
    simp only [hclip, hR, hC, hT, Bool.true_and, decide_eq_true_eq, cs_g_idle_add, cs_log_msg,
      hxq.2, Bool.false_eq_true, if_false]
    rw [if_pos (by decide)]
  have hqueue : (incoming_call_listener_chunk env
      (bytes "RING\r\n" ++ (CLIP ++ ([32] ++ 34 :: (bytes "5551234" ++ 34 ::
        bytes ",129,,,\"Bob\"\r\n")))) st).idle_queue =
      (st.idle_queue ++ [IdleCb.append_log_ui, IdleCb.append_log_ui]) ++
        IdleCb.hfp_update_call_state_cb CallState.CALL_RINGING ::
          [IdleCb.append_log_ui, IdleCb.hfp_update_call_state_cb CallState.CALL_RINGING] := by
    rw [hchunk]
    simp [g_idle_add, log_msg, hxq.1]
  have h0 : ∀ cb ∈ st.idle_queue ++ [IdleCb.append_log_ui, IdleCb.append_log_ui],
      cb.isTransition = false := by
    intro cb hcb
    rcases List.mem_append.mp hcb with h | h
    · exact hq cb h
    · simp only [List.mem_cons, List.mem_singleton, List.not_mem_nil, or_false, or_self] at h
      rw [h]
      rfl
  obtain ⟨s1, hs1, hrun⟩ := main_iteration_first_transition _ _ _ _ hqueue h0
  have e3 := cs_hfp_update_call_state_cb CallState.CALL_RINGING s1
  have hfinal : listener_chunk_then_main env
      (bytes "RING\r\n" ++ (CLIP ++ ([32] ++ 34 :: (bytes "5551234" ++ 34 ::
        bytes ",129,,,\"Bob\"\r\n")))) st =
      update_ui (hfp_update_call_state_cb CallState.CALL_RINGING s1) := by
    unfold listener_chunk_then_main
    rw [hrun, run_callbacks_cons, run_callbacks_cons, run_callbacks_nil]
    exact hfp_update_reenter_ringing _ e3
  refine ⟨?_, ?_, ?_, ?_⟩
  · rw [hfinal, cs_update_ui, e3]
  · rw [hfinal]
    have : (update_ui (hfp_update_call_state_cb CallState.CALL_RINGING s1)).current_call_number =
        (hfp_update_call_state_cb CallState.CALL_RINGING s1).current_call_number := rfl
    rw [this, caller_hfp_update_ringing, hs1.2.1]
    exact hrec.1
  · rw [hqueue]
    simp
  · rw [hqueue]
    simp [List.countP_append, List.countP_cons, IdleCb.isNotification]

/-- C12 (amended) at the initial state: two notifications are queued. -/
theorem ring_clip_chunk_two_notifications_witness :
    (incoming_call_listener_chunk ScoEnv.ok (bytes "RING\r\n+CLIP: \"5551234\",129,,,\"Bob\"\r\n")
      (Phone.initial [] (bytes "00:11:22:33:44:55"))).idle_queue.countP IdleCb.isNotification =
      (Phone.initial [] (bytes "00:11:22:33:44:55")).idle_queue.countP IdleCb.isNotification + 2 :=
  (ring_clip_chunk_two_notifications ScoEnv.ok (Phone.initial [] (bytes "00:11:22:33:44:55"))
    rfl (by decide) (by decide) (by decide)).2.2.2

/-! ## Tokens after the `+CLIP:` number -/

/-- C20 (the code at the failing inputs): in the initial state, the chunk
`NO CARRIER\r\n+CLIP: "5551234",129\r\n` queues the transition to Ringing and
then the one to Idle, and the call ends up Idle; with the same two lines in the
other order only the transition to Ringing is queued and the call ends up
Ringing. Likewise `+CIEV: 1,1` is dispatched (transition to Active) before the
`+CLIP:` line and not after it, and `RING` queues its own request before the
line and none after it. -/
theorem clip_hides_later_tokens :
    (incoming_call_listener_chunk ScoEnv.ok (bytes "NO CARRIER\r\n+CLIP: \"5551234\",129\r\n")
      (Phone.initial [] (bytes "00:11:22:33:44:55"))).idle_queue =
      [IdleCb.append_log_ui, IdleCb.append_log_ui,
        IdleCb.hfp_update_call_state_cb CallState.CALL_RINGING, IdleCb.append_log_ui,
        IdleCb.hfp_update_call_state_cb CallState.CALL_IDLE] ∧
    (incoming_call_listener_chunk ScoEnv.ok (bytes "+CLIP: \"5551234\",129\r\nNO CARRIER\r\n")
      (Phone.initial [] (bytes "00:11:22:33:44:55"))).idle_queue =
      [IdleCb.append_log_ui, IdleCb.append_log_ui,
        IdleCb.hfp_update_call_state_cb CallState.CALL_RINGING] ∧
    (listener_chunk_then_main ScoEnv.ok (bytes "NO CARRIER\r\n+CLIP: \"5551234\",129\r\n")
      (Phone.initial [] (bytes "00:11:22:33:44:55"))).current_call_state
        = CallState.CALL_IDLE ∧
    (listener_chunk_then_main ScoEnv.ok (bytes "+CLIP: \"5551234\",129\r\nNO CARRIER\r\n")
      (Phone.initial [] (bytes "00:11:22:33:44:55"))).current_call_state
        = CallState.CALL_RINGING ∧
    (listener_chunk_then_main ScoEnv.ok (bytes "+CIEV: 1,1\r\n+CLIP: \"5551234\",129\r\n")
      (Phone.initial [] (bytes "00:11:22:33:44:55"))).current_call_state
        = CallState.CALL_ACTIVE ∧
    (listener_chunk_then_main ScoEnv.ok (bytes "+CLIP: \"5551234\",129\r\n+CIEV: 1,1\r\n")
      (Phone.initial [] (bytes "00:11:22:33:44:55"))).current_call_state
        = CallState.CALL_RINGING ∧
    (incoming_call_listener_chunk ScoEnv.ok (bytes "RING\r\n+CLIP: \"5551234\",129\r\n")
      (Phone.initial [] (bytes "00:11:22:33:44:55"))).idle_queue.countP
        IdleCb.isTransition = 2 ∧
    (incoming_call_listener_chunk ScoEnv.ok (bytes "+CLIP: \"5551234\",129\r\nRING\r\n")
      (Phone.initial [] (bytes "00:11:22:33:44:55"))).idle_queue.countP
        IdleCb.isTransition = 1 := by
  decide

/-! ## The capture worker's send loop -/

theorem take_min_append_drop (X : List Nat) (mm n : Nat) :
    X.take (min mm n) ++ (X.take n).drop mm = X.take n := by
  have h : X.take (min mm n) = (X.take n).take mm := by
    rw [List.take_take]
  rw [h, List.take_append_drop]

theorem ceil_div_step (d mm : Nat) (hm : 1 ≤ mm) (hd : 1 ≤ d) :
    (d + mm - 1) / mm = (d - mm + mm - 1) / mm + 1 := by
  by_cases h : d ≤ mm
  · have e1 : d - mm = 0 := by omega
    rw [e1, Nat.zero_add, Nat.div_eq_of_lt (by omega : mm - 1 < mm)]
    apply Nat.div_eq_of_lt_le <;> simp <;> omega
  · have e : d + mm - 1 = (d - mm + mm - 1) + mm := by omega
    rw [e, Nat.add_div_right _ (by omega)]

/-- The piece sent at offset `o` followed by what remains after it. -/
theorem piece_append_rest (buf : List Nat) (l o mm : Nat) :
    (buf.drop o).take (min mm (l - o)) ++ (buf.take l).drop (o + mm) = (buf.take l).drop o := by
  have e1 : (buf.take l).drop o = (buf.drop o).take (l - o) := List.drop_take _ _ _
  have e2 : (buf.take l).drop (o + mm) = ((buf.take l).drop o).drop mm := by
    rw [List.drop_drop, Nat.add_comm]
  rw [e2, e1]
  exact take_min_append_drop _ _ _

/-- One turn of the send loop, with the offsets and lengths as naturals. -/
theorem capture_send_loop_succ (send : Nat → SendResult) (buf : List Nat) (l mm fuel o calls : Nat)
    (h : o < l) :
    capture_send_loop send buf l mm (fuel + 1) o calls =
      match send calls with
      | SendResult.peer_closed => some ([((o : Int), (buf.drop o).take (min mm (l - o)))], false)
      | _ =>
        match capture_send_loop send buf l mm fuel ((o + mm : Nat) : Int) (calls + 1) with
        | some r => some (((o : Int), (buf.drop o).take (min mm (l - o))) :: r.1, r.2)
        | none => none := by
  have h1 : (o : Int) < (l : Int) := by exact_mod_cast h
  have h2 : (if (l : Int) - (o : Int) > (mm : Int) then (mm : Int) else (l : Int) - (o : Int)).toNat
      = min mm (l - o) := by
    split_ifs <;> omega
  rw [capture_send_loop]
  simp only [if_pos h1, h2, Int.toNat_ofNat, Nat.cast_add]

theorem capture_send_loop_done (send : Nat → SendResult) (buf : List Nat) (l mm fuel o calls : Nat)
    (h : l ≤ o) :
    capture_send_loop send buf l mm (fuel + 1) o calls = some ([], true) := by
  have h1 : ¬ (o : Int) < (l : Int) := by
    intro hc
    have : o < l := by exact_mod_cast hc
    omega
  rw [capture_send_loop]
  simp only [if_neg h1]

/-- The send loop from offset `o` on: it ends, and hands to `send` the pieces
of at most `mm` bytes at the offsets `o`, `o + mm`, ...; when the peer stays
there it reaches the end of the frame. -/
theorem capture_send_loop_spec (send : Nat → SendResult) (buf : List Nat) (l mm : Nat)
    (hm : 1 ≤ mm) :
    ∀ (fuel o calls : Nat), l - o < fuel →
      ∃ chunks fin, capture_send_loop send buf l mm fuel o calls = some (chunks, fin) ∧
        (∀ i (hi : i < chunks.length), o + i * mm < l ∧
          chunks.get ⟨i, hi⟩ = (((o + i * mm : Nat) : Int),
            (buf.drop (o + i * mm)).take (min mm (l - (o + i * mm))))) ∧
        ((∀ k, send k ≠ SendResult.peer_closed) → fin = true ∧
          (chunks.map Prod.snd).flatten = (buf.take l).drop o ∧
          chunks.length = (l - o + mm - 1) / mm) := by
  intro fuel
  induction fuel with
  | zero => intro o calls h; omega
  | succ fuel ih =>
    intro o calls hf
    by_cases h : o < l
    · rw [capture_send_loop_succ send buf l mm fuel o calls h]
      obtain ⟨chunks, fin, hrec, hpieces, hall⟩ := ih (o + mm) (calls + 1) (by omega)
      have hfirst : ∀ (rest : List (Int × List Nat)) (i : Nat)
          (hi : i < (((o : Int), (buf.drop o).take (min mm (l - o))) :: rest).length),
          (∀ j (hj : j < rest.length), o + mm + j * mm < l ∧
            rest.get ⟨j, hj⟩ = (((o + mm + j * mm : Nat) : Int),
              (buf.drop (o + mm + j * mm)).take (min mm (l - (o + mm + j * mm))))) →
          o + i * mm < l ∧
          (((o : Int), (buf.drop o).take (min mm (l - o))) :: rest).get ⟨i, hi⟩ =
            (((o + i * mm : Nat) : Int),
              (buf.drop (o + i * mm)).take (min mm (l - (o + i * mm)))) := by
        intro rest i hi hrest
        cases i with
        | zero => simpa using h
        | succ j =>
          have hj : j < rest.length := by simpa using hi
          have e : o + (j + 1) * mm = o + mm + j * mm := by
            rw [Nat.succ_mul]
            omega
          obtain ⟨a, b⟩ := hrest j hj
          rw [e]
          exact ⟨a, by simpa using b⟩
      have hgo : ∃ chunks2 fin2,
          (match capture_send_loop send buf l mm fuel ((o + mm : Nat) : Int) (calls + 1) with
            | some r => some (((o : Int), (buf.drop o).take (min mm (l - o))) :: r.1, r.2)
            | none => none) = some (chunks2, fin2) ∧
          (∀ i (hi : i < chunks2.length), o + i * mm < l ∧
            chunks2.get ⟨i, hi⟩ = (((o + i * mm : Nat) : Int),
              (buf.drop (o + i * mm)).take (min mm (l - (o + i * mm))))) ∧
          ((∀ k, send k ≠ SendResult.peer_closed) → fin2 = true ∧
            (chunks2.map Prod.snd).flatten = (buf.take l).drop o ∧
            chunks2.length = (l - o + mm - 1) / mm) := by
        rw [hrec]
        refine ⟨_, _, rfl, fun i hi => hfirst chunks i hi hpieces, ?_⟩
        intro hno
        obtain ⟨h1, h2, h3⟩ := hall hno
        refine ⟨h1, ?_, ?_⟩
        · simp only [List.map_cons, List.flatten_cons, h2]
          exact piece_append_rest buf l o mm
        · rw [List.length_cons, h3, ceil_div_step (l - o) mm hm (by omega)]
          have e : l - (o + mm) = l - o - mm := by omega
          rw [e]
      cases hs : send calls with
      | peer_closed =>
        refine ⟨_, _, rfl, fun i hi => hfirst [] i hi (fun j hj => absurd hj (by simp)), ?_⟩
        intro hno
        exact absurd hs (hno calls)
      | sent => exact hgo
      | would_block => exact hgo
      | failed => exact hgo
    · rw [capture_send_loop_done send buf l mm fuel o calls (by omega)]
      refine ⟨[], true, rfl, fun i hi => absurd hi (by simp), fun _ => ⟨rfl, ?_, ?_⟩⟩
      · simp only [List.map_nil, List.flatten_nil]
        symm
        apply List.drop_eq_nil_of_le
        rw [List.length_take]
        omega
      · have e : l - o = 0 := by omega
        rw [e, Nat.zero_add]
        exact (Nat.div_eq_of_lt (by omega)).symm

/-- C18: in the capture worker's send loop, for every frame of `L > 0` bytes
and every MTU `m ≥ 1`, with enough fuel the loop ends; the `i`-th chunk handed
to `send` starts at offset `i * m`, is the slice of the frame at that offset,
and has at least 1 and at most `m` bytes, within the frame; when every `send`
succeeds the loop runs to its end, the chunks put together are exactly the
first `L` bytes of the buffer, and there are `ceil(L/m)` of them. -/
theorem capture_send_chunks (send : Nat → SendResult) (buf : List Nat) (L m : Int) (fuel : Nat)
    (hL : 0 < L) (hm : 1 ≤ m) (hbuf : L ≤ buf.length) (hfuel : L.toNat < fuel) :
    ∃ chunks fin, capture_send_loop send buf L m fuel 0 0 = some (chunks, fin) ∧
      (∀ i (hi : i < chunks.length),
        (chunks.get ⟨i, hi⟩).1 = i * m ∧
        1 ≤ (chunks.get ⟨i, hi⟩).2.length ∧
        ((chunks.get ⟨i, hi⟩).2.length : Int) ≤ m ∧
        (chunks.get ⟨i, hi⟩).1 + (chunks.get ⟨i, hi⟩).2.length ≤ L ∧
        (chunks.get ⟨i, hi⟩).2 =
          (buf.drop (i * m.toNat)).take (chunks.get ⟨i, hi⟩).2.length) ∧
      ((∀ k, send k = SendResult.sent) →
        fin = true ∧ (chunks.map Prod.snd).flatten = buf.take L.toNat ∧
        (chunks.length : Int) = (L + m - 1) / m) := by
  obtain ⟨l, rfl⟩ := Int.eq_ofNat_of_zero_le (le_of_lt hL)
  obtain ⟨mm, rfl⟩ := Int.eq_ofNat_of_zero_le (le_trans (by decide) hm)
  have hm2 : 1 ≤ mm := by exact_mod_cast hm
  have hl2 : 0 < l := by exact_mod_cast hL
  have hb2 : l ≤ buf.length := by exact_mod_cast hbuf
  have hf2 : l - 0 < fuel := by simpa using hfuel
  obtain ⟨chunks, fin, hrun, hpieces, hall⟩ :=
    capture_send_loop_spec send buf l mm hm2 fuel 0 0 hf2
  refine ⟨chunks, fin, by simpa using hrun, ?_, ?_⟩
  · intro i hi
    obtain ⟨hlt, hget⟩ := hpieces i hi
    rw [Nat.zero_add] at hlt hget
    have hlen : (chunks.get ⟨i, hi⟩).2.length = min mm (l - i * mm) := by
      rw [hget]
      simp only [List.length_take, List.length_drop]
      omega
    refine ⟨?_, ?_, ?_, ?_, ?_⟩
    · rw [hget]
      push_cast
      rfl
    · rw [hlen]
      omega
    · rw [hlen]
      have : min mm (l - i * mm) ≤ mm := Nat.min_le_left _ _
      exact_mod_cast this
    · rw [hlen, hget]
      have : i * mm + min mm (l - i * mm) ≤ l := by omega
      show ((i * mm : Nat) : Int) + ((min mm (l - i * mm) : Nat) : Int) ≤ (l : Int)
      exact_mod_cast this
    · rw [hlen]
      rw [hget]
      simp
  · intro hsent
    have hno : ∀ k, send k ≠ SendResult.peer_closed := by
      intro k
      rw [hsent k]
      decide
    obtain ⟨h1, h2, h3⟩ := hall hno
    refine ⟨h1, ?_, ?_⟩
    · rw [h2]
      simp
    · rw [h3]
      have e : ((l : Int) + (mm : Int) - 1) = ((l - 0 + mm - 1 : Nat) : Int) := by omega
      rw [e]
      norm_cast

/-- C18 at a frame of 5 bytes sent with MTU 2: the chunks are the bytes at
offsets 0, 2 and 4. -/
theorem capture_send_chunks_witness :
    ∃ chunks fin, capture_send_loop (fun (_ : Nat) => SendResult.sent) [1, 2, 3, 4, 5] 5 2 6 0 0 =
        some (chunks, fin) ∧
      (∀ i (hi : i < chunks.length),
        (chunks.get ⟨i, hi⟩).1 = i * 2 ∧
        1 ≤ (chunks.get ⟨i, hi⟩).2.length ∧
        ((chunks.get ⟨i, hi⟩).2.length : Int) ≤ 2 ∧
        (chunks.get ⟨i, hi⟩).1 + (chunks.get ⟨i, hi⟩).2.length ≤ 5 ∧
        (chunks.get ⟨i, hi⟩).2 =
          ([1, 2, 3, 4, 5].drop (i * (2 : Int).toNat)).take (chunks.get ⟨i, hi⟩).2.length) ∧
      ((∀ k, (fun (_ : Nat) => SendResult.sent) k = SendResult.sent) →
        fin = true ∧ (chunks.map Prod.snd).flatten = [1, 2, 3, 4, 5].take (5 : Int).toNat ∧
        (chunks.length : Int) = (5 + 2 - 1) / 2) :=
  capture_send_chunks (fun (_ : Nat) => SendResult.sent) [1, 2, 3, 4, 5] 5 2 6
    (by decide) (by decide) (by decide) (by decide)

/-! ## The FIFO invariant in every reachable state -/

/-- The invariant spelled out with the capacity 4000. -/
theorem inv_bounds (f : AecFifo) (h : f.Inv) :
    f.aec_fifo_size ≤ 4000 ∧ f.aec_fifo_head < 4000 ∧ f.aec_fifo_tail < 4000 ∧
    f.aec_fifo_head = (f.aec_fifo_tail + f.aec_fifo_size) % 4000 := by
  unfold AecFifo.Inv at h
  simp only [cap_eq] at h
  obtain ⟨h1, h2, h3⟩ := h
  refine ⟨h1, ?_, h2, h3⟩
  rw [h3]
  exact Nat.mod_lt _ (by decide)

/-- C29: every reachable state of the render FIFO has `size ≤ 4000`,
`head < 4000`, `tail < 4000` and `head = (tail + size) mod 4000` (the cursors
are never negative); so has the initial state, and so has the state after
`aec_fifo_clear`, after `aec_fifo_push` of any samples and after
`aec_fifo_pop` of any count, whether it succeeds or not. -/
theorem aec_fifo_invariant (f : AecFifo) (hf : AecFifo.Reachable f) (samples : List Int)
    (out : Nat → Int) (count : Int) :
    (f.aec_fifo_size ≤ 4000 ∧ f.aec_fifo_head < 4000 ∧ f.aec_fifo_tail < 4000 ∧
      f.aec_fifo_head = (f.aec_fifo_tail + f.aec_fifo_size) % 4000) ∧
    (AecFifo.initial.aec_fifo_size ≤ 4000 ∧ AecFifo.initial.aec_fifo_head < 4000 ∧
      AecFifo.initial.aec_fifo_tail < 4000 ∧
      AecFifo.initial.aec_fifo_head =
        (AecFifo.initial.aec_fifo_tail + AecFifo.initial.aec_fifo_size) % 4000) ∧
    ((aec_fifo_clear f).aec_fifo_size ≤ 4000 ∧ (aec_fifo_clear f).aec_fifo_head < 4000 ∧
      (aec_fifo_clear f).aec_fifo_tail < 4000 ∧
      (aec_fifo_clear f).aec_fifo_head =
        ((aec_fifo_clear f).aec_fifo_tail + (aec_fifo_clear f).aec_fifo_size) % 4000) ∧
    ((aec_fifo_push f samples).aec_fifo_size ≤ 4000 ∧
      (aec_fifo_push f samples).aec_fifo_head < 4000 ∧
      (aec_fifo_push f samples).aec_fifo_tail < 4000 ∧
      (aec_fifo_push f samples).aec_fifo_head =
        ((aec_fifo_push f samples).aec_fifo_tail +
          (aec_fifo_push f samples).aec_fifo_size) % 4000) ∧
    ((aec_fifo_pop f out count).2.2.aec_fifo_size ≤ 4000 ∧
      (aec_fifo_pop f out count).2.2.aec_fifo_head < 4000 ∧
      (aec_fifo_pop f out count).2.2.aec_fifo_tail < 4000 ∧
      (aec_fifo_pop f out count).2.2.aec_fifo_head =
        ((aec_fifo_pop f out count).2.2.aec_fifo_tail +
          (aec_fifo_pop f out count).2.2.aec_fifo_size) % 4000) :=
  ⟨inv_bounds f (inv_of_reachable f hf), inv_bounds _ inv_initial, inv_bounds _ (inv_clear f),
    inv_bounds _ (inv_push f samples (inv_of_reachable f hf)),
    inv_bounds _ (inv_pop f out count (inv_of_reachable f hf))⟩

/-- C29 at the FIFO reached by pushing `1, 2, 3` into the initial one. -/
theorem aec_fifo_invariant_witness :
    (aec_fifo_push AecFifo.initial [1, 2, 3]).aec_fifo_size ≤ 4000 ∧
    (aec_fifo_push AecFifo.initial [1, 2, 3]).aec_fifo_head < 4000 ∧
    (aec_fifo_push AecFifo.initial [1, 2, 3]).aec_fifo_tail < 4000 ∧
    (aec_fifo_push AecFifo.initial [1, 2, 3]).aec_fifo_head =
      ((aec_fifo_push AecFifo.initial [1, 2, 3]).aec_fifo_tail +
        (aec_fifo_push AecFifo.initial [1, 2, 3]).aec_fifo_size) % 4000 :=
  (aec_fifo_invariant (aec_fifo_push AecFifo.initial [1, 2, 3])
    (AecFifo.Reachable.push _ _ AecFifo.Reachable.initial) [] (fun _ => 0) 1).1

/-! ## `parse_ciev` and the first `+CIEV:` of a chunk -/

/-- C28: `parse_ciev` looks at the first `"+CIEV:"` only: on a buffer whose
first occurrence comes after `lead`, the result is the result on the text from
that occurrence on. So `+CIEV: x\r\n+CIEV: 1,0\r\n`, whose first event is
malformed, gives FALSE although a well-formed event follows, and
`+CIEV: 3,5\r\n+CIEV: 1,0\r\n` gives `(3, 5)`, as does `+CIEV: 3,5\r\n` followed
by anything: the listener, which calls
`parse_ciev` once for a chunk, requests nothing for the `1,0` that follows. -/
theorem parse_ciev_first_occurrence (lead rest : List Nat) (ind0 val0 : Int)
    (h0 : ∀ c ∈ lead, c ≠ 0) (hno : ¬ CIEV <:+: lead) :
    parse_ciev (lead ++ (CIEV ++ rest)) ind0 val0 = parse_ciev (CIEV ++ rest) ind0 val0 ∧
    parse_ciev (bytes "+CIEV: x\r\n+CIEV: 1,0\r\n") ind0 val0 = (false, ind0, val0) ∧
    parse_ciev (bytes "+CIEV: 3,5\r\n+CIEV: 1,0\r\n") ind0 val0 = (true, 3, 5) ∧
    (∀ later, parse_ciev (bytes "+CIEV: 3,5\r\n" ++ later) (-1) (-1) = (true, 3, 5)) ∧
    requested (incoming_call_listener_chunk ScoEnv.ok (bytes "+CIEV: 3,5\r\n+CIEV: 1,0\r\n")
      (set_current_call_state CallState.CALL_ACTIVE
        (Phone.initial [] (bytes "00:11:22:33:44:55")))) = [] := by
  refine ⟨?_, ?_, ?_, ?_, by decide⟩
  · unfold parse_ciev
    rw [strstr_ciev lead rest h0 hno, strstr_here CIEV rest (by simp [CIEV])]
  · have h := strstr_here CIEV (bytes " x\r\n+CIEV: 1,0\r\n") (by simp [CIEV])
    have e : bytes "+CIEV: x\r\n+CIEV: 1,0\r\n" = CIEV ++ bytes " x\r\n+CIEV: 1,0\r\n" := by
      decide
    unfold parse_ciev
    rw [e, h]
    rfl
  · have h := strstr_here CIEV (bytes " 3,5\r\n+CIEV: 1,0\r\n") (by simp [CIEV])
    have e : bytes "+CIEV: 3,5\r\n+CIEV: 1,0\r\n" = CIEV ++ bytes " 3,5\r\n+CIEV: 1,0\r\n" := by
      decide
    unfold parse_ciev
    rw [e, h]
    rfl
  · intro later
    have e : bytes "+CIEV: 3,5\r\n" ++ later =
        [] ++ (CIEV ++ (32 :: 51 :: 44 :: 53 :: (13 :: 10 :: later))) := by
      have e0 : bytes "+CIEV: 3,5\r\n" = CIEV ++ [32, 51, 44, 53, 13, 10] := by decide
      rw [e0]
      simp
    rw [e]
    exact parse_ciev_digits [] (13 :: 10 :: later) 51 53 (by simp) (by decide) (by simp)
      (by decide) (by decide)

/-- C28 at the buffer `RING\r\n+CIEV: 1,0\r\n`. -/
theorem parse_ciev_first_occurrence_witness :
    parse_ciev (bytes "RING\r\n" ++ (CIEV ++ bytes " 1,0\r\n")) (-1) (-1) =
      parse_ciev (CIEV ++ bytes " 1,0\r\n") (-1) (-1) :=
  (parse_ciev_first_occurrence (bytes "RING\r\n") (bytes " 1,0\r\n") (-1) (-1)
    (by decide) (by decide)).1

/-! ## A failed `send` in the capture worker -/

/-- The send loop hands the same chunks to `send` whether or not sends fail,
as long as the peer is there: a failed chunk is passed over. -/
theorem capture_send_loop_ignores_failures (send : Nat → SendResult) (buf : List Nat)
    (read_bytes mtu : Int) (h : ∀ k, send k ≠ SendResult.peer_closed) :
    ∀ (fuel : Nat) (offset : Int) (calls : Nat),
      capture_send_loop send buf read_bytes mtu fuel offset calls =
        capture_send_loop (fun _ => SendResult.sent) buf read_bytes mtu fuel offset calls := by
  intro fuel
  induction fuel with
  | zero =>
    intro offset calls
    rfl
  | succ fuel ih =>
    intro offset calls
    rw [capture_send_loop, capture_send_loop]
    by_cases hlt : offset < read_bytes
    · simp only [if_pos hlt]
      rw [ih (offset + mtu) (calls + 1)]
      cases hs : send calls with
      | peer_closed => exact absurd hs (h calls)
      | sent => rfl
      | would_block => rfl
      | failed => rfl
    · simp only [if_neg hlt]

/-! ## The capture worker's read size and the MTU -/

/-- C30 (the code at the failing input): when `getsockopt` reports an MTU of
255 and AEC ends up disabled, `sco_connect` stores 255 in `sco_mtu` and the
capture worker asks for 255 bytes into its buffer of `AEC_FRAME_BYTES` = 160
bytes. -/
theorem capture_read_exceeds_buffer :
    (sco_connect { ScoEnv.ok with getsockopt_mtu := some 255, aec_ok := false }
      (Phone.initial [] (bytes "00:11:22:33:44:55"))).1 = true ∧
    (sco_connect { ScoEnv.ok with getsockopt_mtu := some 255, aec_ok := false }
      (Phone.initial [] (bytes "00:11:22:33:44:55"))).2.sco_mtu = 255 ∧
    capture_read_bytes (sco_connect { ScoEnv.ok with getsockopt_mtu := some 255, aec_ok := false }
      (Phone.initial [] (bytes "00:11:22:33:44:55"))).2 = 255 ∧
    (AEC_FRAME_BYTES : Int) = 160 := by
  decide

/-! ## The two programs on `+CIEV: 2,0` during a call -/

/-- C27 (the code at the failing input): in call state Active the event
`+CIEV: 2,0` makes the listener of `bt_headset_gui.c` request Idle, while
`handle_ciev_event` of `pc_phone_gui.c` requests nothing and leaves the state
as it is. -/
theorem bt_headset_ciev_setup_end_differs (f : Phone → Phone) (env : ScoEnv) :
    requested (bt_headset_ciev f 2 0 (set_current_call_state CallState.CALL_ACTIVE
      (Phone.initial [] (bytes "00:11:22:33:44:55")))) = [CallState.CALL_IDLE] ∧
    handle_ciev_event env 2 0 (set_current_call_state CallState.CALL_ACTIVE
      (Phone.initial [] (bytes "00:11:22:33:44:55"))) =
      set_current_call_state CallState.CALL_ACTIVE
        (Phone.initial [] (bytes "00:11:22:33:44:55")) := by
  constructor
  · rfl
  · rfl

/-! ## The commands written during a dial -/

theorem wr_emit_write (fd : Int) (d : List Nat) (s : Phone) :
    written_cmds (emit (Effect.write fd d) s) = written_cmds s ++ [d] := by
  simp [written_cmds, emit, List.filterMap_append, Effect.written]

theorem wr_emit (e : Effect) (s : Phone) (he : e.written = none) :
    written_cmds (emit e s) = written_cmds s := by
  simp [written_cmds, emit, List.filterMap_append, he]

theorem wr_log_msg (s : Phone) : written_cmds (log_msg s) = written_cmds s := rfl

theorem wr_stop_sco_audio (r : Bool) (s : Phone) :
    written_cmds (stop_sco_audio r s) = written_cmds s := by
  cases s
  simp only [written_cmds, stop_sco_audio, shutdown_webrtc_aec, clear_fifo, set_aec_enabled,
    set_sco_audio_running, close_sco_socket, set_sco_socket, emit, g_idle_add]
  split_ifs <;> simp [List.filterMap_append, Effect.written]

theorem wr_sco_close_previous (s : Phone) :
    written_cmds (sco_close_previous s) = written_cmds s := by
  cases s
  simp only [written_cmds, sco_close_previous, log_msg,
    stop_sco_audio, shutdown_webrtc_aec, clear_fifo, set_aec_enabled,
    set_sco_audio_running, close_sco_socket, set_sco_socket, emit, g_idle_add]
  split_ifs <;> simp [List.filterMap_append, Effect.written]

theorem wr_sco_connected (env : ScoEnv) (s : Phone) :
    written_cmds (sco_connected env s).2 = written_cmds s := by
  cases s
  simp only [written_cmds, sco_connected, init_webrtc_aec, log_msg, set_sco_mtu,
    clear_fifo, set_aec_enabled, set_sco_audio_running, emit, g_idle_add]
  split <;> simp [List.filterMap_append, Effect.written]

theorem wr_sco_connect_retry (env : ScoEnv) (s : Phone) :
    written_cmds (sco_connect_retry env s).2 = written_cmds s := by
  unfold sco_connect_retry
  simp only []
  split_ifs
  · rw [wr_sco_connected]
    rfl
  · rw [show ∀ v t, written_cmds (set_sco_socket v t) = written_cmds t from
      fun _ _ => rfl, wr_emit _ _ (by rfl)]
    rfl
  · rfl

theorem wr_sco_connect_failed (env : ScoEnv) (s : Phone) :
    written_cmds (sco_connect_failed env s).2 = written_cmds s := by
  unfold sco_connect_failed
  simp only []
  split_ifs
  · rw [wr_sco_connect_retry]
    rw [show ∀ v t, written_cmds (set_sco_socket v t) = written_cmds t from
      fun _ _ => rfl, wr_emit _ _ (by rfl)]
    rfl
  · rw [show ∀ v t, written_cmds (set_sco_socket v t) = written_cmds t from
      fun _ _ => rfl, wr_emit _ _ (by rfl)]
    rfl

/-- `sco_connect` writes no command. -/
theorem wr_sco_connect (env : ScoEnv) (s : Phone) :
    written_cmds (sco_connect env s).2 = written_cmds s := by
  have h1 : written_cmds (set_sco_socket env.socket1
      (sco_close_previous (emit Effect.sco_connect s))) = written_cmds s := by
    rw [show ∀ v t, written_cmds (set_sco_socket v t) = written_cmds t from
      fun _ _ => rfl, wr_sco_close_previous, wr_emit _ _ (by rfl)]
  unfold sco_connect
  simp only []
  split_ifs
  · exact wr_emit _ _ (by rfl)
  · exact h1
  · rw [wr_sco_connect_failed]
    exact h1
  · rw [wr_sco_connect_failed]
    exact h1
  · rw [wr_sco_connected]
    exact h1
  · rw [wr_sco_connected]
    exact h1

/-- `hfp_close` writes no command, keeps the listener socket, and leaves the
control socket closed when it was open. -/
theorem hfp_close_spec (s : Phone) :
    written_cmds (hfp_close s) = written_cmds s ∧
    sco_connect_calls (hfp_close s) = sco_connect_calls s ∧
    ((hfp_close s).hfp_socket = if s.hfp_socket ≥ 0 then -1 else s.hfp_socket) := by
  refine ⟨?_, scc_hfp_close s, ?_⟩
  · cases s
    simp only [written_cmds, hfp_close, join_hfp_monitor, close_hfp_socket, set_hfp_socket,
      set_hfp_monitor_running, set_hfp_monitor_thread_handle, log_msg,
      set_sco_audio_running, close_sco_socket, set_sco_socket, emit, g_idle_add]
    split_ifs <;> simp [List.filterMap_append, Effect.written]
  · cases s
    simp only [hfp_close, join_hfp_monitor, close_hfp_socket, set_hfp_socket,
      set_hfp_monitor_running, set_hfp_monitor_thread_handle, log_msg,
      set_sco_audio_running, close_sco_socket, set_sco_socket, emit, g_idle_add]
    split_ifs <;> simp_all

/-- One handshake step of the fresh path: it writes its command once, keeps
the control socket, calls no `sco_connect`, and goes on exactly when the write
did not fail, the read returned bytes and the response holds `OK`. -/
theorem hfp_slc_step_spec (dev : DialEnv) (cmd : List Nat) (s : Phone) :
    written_cmds (hfp_slc_step dev cmd s).2 = written_cmds s ++ [cmd] ∧
    (hfp_slc_step dev cmd s).2.hfp_socket = s.hfp_socket ∧
    sco_connect_calls (hfp_slc_step dev cmd s).2 = sco_connect_calls s ∧
    ((hfp_slc_step dev cmd s).1 = true ↔
      0 ≤ (dev.reply cmd).write_ret ∧ 0 < (dev.reply cmd).read_ret ∧
      OK <:+: cstr (dev.reply cmd).read_buf) := by
  have hOK := strstr_isSome_iff OK (dev.reply cmd).read_buf (by decide) (by decide)
  unfold hfp_slc_step
  simp only []
  split_ifs with h1 h2
  · refine ⟨wr_emit_write _ _ _, rfl, scc_emit _ _ (by simp), ?_⟩
    constructor
    · intro h
      exact absurd h (by simp)
    · intro h
      omega
  · refine ⟨?_, rfl, ?_, ?_⟩
    · rw [wr_log_msg, wr_emit _ _ (by rfl), wr_emit_write]
    · rw [scc_log_msg, scc_emit _ _ (by simp), scc_emit _ _ (by simp)]
    · constructor
      · intro h
        exact absurd h (by simp)
      · intro h
        rcases h2 with h2 | h2
        · omega
        · rw [hOK.mpr h.2.2] at h2
          exact absurd h2 (by simp)
  · refine ⟨?_, rfl, ?_, ?_⟩
    · rw [wr_emit _ _ (by rfl), wr_emit_write]
    · rw [scc_emit _ _ (by simp), scc_emit _ _ (by simp)]
    · constructor
      · intro _
        refine ⟨by omega, by omega, ?_⟩
        apply hOK.mp
        by_contra hc
        exact h2 (Or.inr (by simpa using hc))
      · intro _
        rfl

/-! ## A failed handshake step on the fresh path -/

theorem atd_cmd_take (number : List Nat) : (atd_cmd number).take 3 = [65, 84, 68] := by
  simp [atd_cmd, List.take_take]

/-- No handshake command is the `ATD` command. -/
theorem atd_cmd_ne (number : List Nat) :
    atd_cmd number ≠ AT_BRSF_0 ∧ atd_cmd number ≠ AT_CIND_TEST ∧
    atd_cmd number ≠ AT_CIND_READ ∧ atd_cmd number ≠ AT_CMER_1 ∧
    atd_cmd number ≠ AT_CMER_0 ∧ atd_cmd number ≠ AT_NREC_0 := by
  have h := atd_cmd_take number
  refine ⟨?_, ?_, ?_, ?_, ?_, ?_⟩ <;>
  · intro hc
    rw [hc] at h
    exact absurd h (by decide)

/-- The handshake with one of its first three steps not answered with `OK`:
it ends in `hfp_close()` and FALSE, having written at most those three. -/
theorem hfp_dial_handshake_abort (env : ScoEnv) (dev : DialEnv) (number : List Nat) (s : Phone)
    (hs : 0 ≤ s.hfp_socket)
    (hfail : ¬ (∀ cmd ∈ [AT_BRSF_0, AT_CIND_TEST, AT_CIND_READ],
      0 ≤ (dev.reply cmd).write_ret ∧ 0 < (dev.reply cmd).read_ret ∧
      OK <:+: cstr (dev.reply cmd).read_buf)) :
    (hfp_dial_handshake env dev number s).1 = false ∧
    (hfp_dial_handshake env dev number s).2.hfp_socket = -1 ∧
    sco_connect_calls (hfp_dial_handshake env dev number s).2 = sco_connect_calls s ∧
    ∃ added, written_cmds (hfp_dial_handshake env dev number s).2 = written_cmds s ++ added ∧
      added <+: [AT_BRSF_0, AT_CIND_TEST, AT_CIND_READ] := by
  obtain ⟨w1, k1, c1, t1⟩ := hfp_slc_step_spec dev AT_BRSF_0 s
  obtain ⟨w2, k2, c2, t2⟩ := hfp_slc_step_spec dev AT_CIND_TEST (hfp_slc_step dev AT_BRSF_0 s).2
  obtain ⟨w3, k3, c3, t3⟩ := hfp_slc_step_spec dev AT_CIND_READ
    (hfp_slc_step dev AT_CIND_TEST (hfp_slc_step dev AT_BRSF_0 s).2).2
  have hclose : ∀ x : Phone, x.hfp_socket = s.hfp_socket → (hfp_close x).hfp_socket = -1 := by
    intro x hx
    rw [(hfp_close_spec x).2.2, hx, if_pos hs]
  unfold hfp_dial_handshake hfp_dial_error
  simp only []
  split_ifs with h1 h2 h3 h4
  · exact ⟨rfl, hclose _ k1, by rw [(hfp_close_spec _).2.1, c1],
      [AT_BRSF_0], by rw [(hfp_close_spec _).1, w1], by decide⟩
  · exact ⟨rfl, hclose _ (k2.trans k1), by rw [(hfp_close_spec _).2.1, c2, c1],
      [AT_BRSF_0, AT_CIND_TEST], by rw [(hfp_close_spec _).1, w2, w1]; simp, by decide⟩
  · exact ⟨rfl, hclose _ (k3.trans (k2.trans k1)),
      by rw [(hfp_close_spec _).2.1, c3, c2, c1],
      [AT_BRSF_0, AT_CIND_TEST, AT_CIND_READ],
      by rw [(hfp_close_spec _).1, w3, w2, w1]; simp, by decide⟩
  · exfalso
    apply hfail
    intro cmd hcmd
    simp only [List.mem_cons, List.mem_singleton, List.not_mem_nil, or_false] at hcmd
    rcases hcmd with rfl | rfl | rfl
    · exact t1.mp (by simpa using h1)
    · exact t2.mp (by simpa using h2)
    · exact t3.mp (by simpa using h3)
  · exfalso
    apply hfail
    intro cmd hcmd
    simp only [List.mem_cons, List.mem_singleton, List.not_mem_nil, or_false] at hcmd
    rcases hcmd with rfl | rfl | rfl
    · exact t1.mp (by simpa using h1)
    · exact t2.mp (by simpa using h2)
    · exact t3.mp (by simpa using h3)

/-- The fresh path of `hfp_dial` up to the handshake, when `socket` and
`connect` succeed. -/
theorem hfp_dial_fresh_start (env : ScoEnv) (dev : DialEnv) (number : List Nat) (st : Phone)
    (haddr : st.device_addr.head?.getD 0 ≠ 0) (hl : st.hfp_listen_socket < 0)
    (hsock : 0 ≤ dev.socket_fd) (hconnect : 0 ≤ dev.connect_ret) :
    ∃ s, hfp_dial env dev number st = hfp_dial_handshake env dev number s ∧
      s.hfp_socket = dev.socket_fd ∧ written_cmds s = written_cmds st ∧
      sco_connect_calls s = sco_connect_calls st := by
  have hl2 : ¬ st.hfp_listen_socket ≥ 0 := by omega
  have h1 : ¬ (set_hfp_socket dev.socket_fd (emit Effect.socket (hfp_close st))).hfp_socket < 0 := by
    show ¬ dev.socket_fd < 0
    omega
  have h2 : ¬ dev.connect_ret < 0 := by omega
  unfold hfp_dial
  rw [if_neg haddr, if_neg hl2]
  unfold hfp_dial_fresh
  simp only [if_neg h1, if_neg h2]
  refine ⟨_, rfl, rfl, ?_, ?_⟩
  · rw [wr_log_msg, wr_emit _ _ (by rfl), wr_log_msg,
      show ∀ v t, written_cmds (set_hfp_socket v t) = written_cmds t from fun _ _ => rfl,
      wr_emit _ _ (by rfl), (hfp_close_spec st).1]
  · rw [scc_log_msg, scc_emit _ _ (by simp), scc_log_msg,
      show ∀ v t, sco_connect_calls (set_hfp_socket v t) = sco_connect_calls t from
        fun _ _ => rfl, scc_emit _ _ (by simp), scc_hfp_close]

/-! ## The `AT+CMER` fallback on the fresh path -/

/-- The `AT+CMER` step: `AT+CMER=3,0,0,1` is written once, and
`AT+CMER=3,0,0,0` once after it exactly when the response is empty or holds no
`OK`; the step goes on unless a write fails. -/
theorem hfp_cmer_step_spec (dev : DialEnv) (s : Phone)
    (hw : 0 ≤ (dev.reply AT_CMER_1).write_ret) :
    (hfp_cmer_step dev s).2.hfp_socket = s.hfp_socket ∧
    sco_connect_calls (hfp_cmer_step dev s).2 = sco_connect_calls s ∧
    ((0 < (dev.reply AT_CMER_1).read_ret ∧ OK <:+: cstr (dev.reply AT_CMER_1).read_buf) →
      (hfp_cmer_step dev s).1 = true ∧
      written_cmds (hfp_cmer_step dev s).2 = written_cmds s ++ [AT_CMER_1]) ∧
    (¬ (0 < (dev.reply AT_CMER_1).read_ret ∧ OK <:+: cstr (dev.reply AT_CMER_1).read_buf) →
      written_cmds (hfp_cmer_step dev s).2 = written_cmds s ++ [AT_CMER_1, AT_CMER_0] ∧
      ((hfp_cmer_step dev s).1 = true ↔ 0 ≤ (dev.reply AT_CMER_0).write_ret)) := by
  have hOK := strstr_isSome_iff OK (dev.reply AT_CMER_1).read_buf (by decide) (by decide)
  have h1 : ¬ (dev.reply AT_CMER_1).write_ret < 0 := by omega
  unfold hfp_cmer_step
  simp only [if_neg h1]
  split_ifs with h2 h3
  · refine ⟨rfl, ?_, ?_, ?_⟩
    · rw [scc_emit _ _ (by simp), scc_emit _ _ (by simp), scc_emit _ _ (by simp)]
    · intro hok
      exfalso
      rcases h2 with h2 | h2
      · omega
      · rw [hOK.mpr hok.2] at h2
        exact absurd h2 (by simp)
    · intro _
      refine ⟨?_, ?_⟩
      · rw [wr_emit_write, wr_emit _ _ (by rfl), wr_emit_write]
        simp
      · constructor
        · intro h
          exact absurd h (by simp)
        · intro h
          omega
  · refine ⟨rfl, ?_, ?_, ?_⟩
    · rw [scc_emit _ _ (by simp), scc_emit _ _ (by simp), scc_emit _ _ (by simp),
        scc_emit _ _ (by simp)]
    · intro hok
      exfalso
      rcases h2 with h2 | h2
      · omega
      · rw [hOK.mpr hok.2] at h2
        exact absurd h2 (by simp)
    · intro _
      refine ⟨?_, ?_⟩
      · rw [wr_emit _ _ (by rfl), wr_emit_write, wr_emit _ _ (by rfl), wr_emit_write]
        simp
      · constructor
        · intro _
          omega
        · intro _
          rfl
  · refine ⟨rfl, ?_, ?_, ?_⟩
    · rw [scc_emit _ _ (by simp), scc_emit _ _ (by simp)]
    · intro _
      refine ⟨rfl, ?_⟩
      rw [wr_emit _ _ (by rfl), wr_emit_write]
    · intro hno
      exfalso
      apply hno
      refine ⟨by omega, ?_⟩
      apply hOK.mp
      by_contra hc
      exact h2 (Or.inr (by simpa using hc))

theorem wr_start_hfp_monitor (s : Phone) :
    written_cmds (start_hfp_monitor s) = written_cmds s := by
  unfold start_hfp_monitor
  rw [show ∀ v t, written_cmds (set_hfp_monitor_thread_handle v t) = written_cmds t
    from fun _ _ => rfl, wr_emit _ _ (by rfl)]
  rfl

/-- The `ATD` step writes its command once, however it ends. -/
theorem hfp_dial_atd_written (env : ScoEnv) (dev : DialEnv) (number : List Nat) (s : Phone) :
    written_cmds (hfp_dial_atd env dev number s).2 = written_cmds s ++ [atd_cmd number] := by
  unfold hfp_dial_atd hfp_dial_error
  simp only []
  split_ifs
  · rw [(hfp_close_spec _).1, wr_emit_write]
  · rw [wr_start_hfp_monitor, wr_sco_connect, wr_log_msg, wr_emit _ _ (by rfl), wr_emit_write]
  · rw [(hfp_close_spec _).1, wr_log_msg, wr_emit _ _ (by rfl), wr_emit_write]

/-- The handshake from the `AT+CMER` step on, after three steps answered with
`OK`. -/
theorem hfp_dial_handshake_from_cmer (env : ScoEnv) (dev : DialEnv) (number : List Nat)
    (s : Phone)
    (hreply : ∀ cmd ∈ [AT_BRSF_0, AT_CIND_TEST, AT_CIND_READ],
      0 ≤ (dev.reply cmd).write_ret ∧ 0 < (dev.reply cmd).read_ret ∧
      OK <:+: cstr (dev.reply cmd).read_buf)
    (hgo : (hfp_cmer_step dev (hfp_slc_step dev AT_CIND_READ
      (hfp_slc_step dev AT_CIND_TEST (hfp_slc_step dev AT_BRSF_0 s).2).2).2).1 = true) :
    written_cmds (hfp_dial_handshake env dev number s).2 =
      written_cmds (hfp_cmer_step dev (hfp_slc_step dev AT_CIND_READ
        (hfp_slc_step dev AT_CIND_TEST (hfp_slc_step dev AT_BRSF_0 s).2).2).2).2 ++
        [AT_NREC_0, atd_cmd number] ∧
    written_cmds (hfp_slc_step dev AT_CIND_READ
        (hfp_slc_step dev AT_CIND_TEST (hfp_slc_step dev AT_BRSF_0 s).2).2).2 =
      written_cmds s ++ [AT_BRSF_0, AT_CIND_TEST, AT_CIND_READ] := by
  obtain ⟨w1, -, -, t1⟩ := hfp_slc_step_spec dev AT_BRSF_0 s
  obtain ⟨w2, -, -, t2⟩ := hfp_slc_step_spec dev AT_CIND_TEST (hfp_slc_step dev AT_BRSF_0 s).2
  obtain ⟨w3, -, -, t3⟩ := hfp_slc_step_spec dev AT_CIND_READ
    (hfp_slc_step dev AT_CIND_TEST (hfp_slc_step dev AT_BRSF_0 s).2).2
  have s1 := t1.mpr (hreply AT_BRSF_0 (by simp))
  have s2 := t2.mpr (hreply AT_CIND_TEST (by simp))
  have s3 := t3.mpr (hreply AT_CIND_READ (by simp))
  constructor
  · unfold hfp_dial_handshake
    simp only [s1, s2, s3, hgo, Bool.true_eq_false, if_false]
    rw [hfp_dial_atd_written, wr_emit _ _ (by rfl), wr_emit_write, wr_log_msg]
    simp
  · rw [w3, w2, w1]
    simp

/-- C24: on the fresh path of `hfp_dial`, after three handshake steps answered
with `OK` and a successful write of `AT+CMER=3,0,0,1`: when the response to it
holds `OK`, the commands written by the whole dial are `AT+BRSF=0`,
`AT+CIND=?`, `AT+CIND?`, `AT+CMER=3,0,0,1`, `AT+NREC=0`, `ATD<number>;`, each
once and in this order, without `AT+CMER=3,0,0,0`; when the response is empty
or holds no `OK`, `AT+CMER=3,0,0,0` is written once after `AT+CMER=3,0,0,1`
and, its write succeeding, `AT+NREC=0` and `ATD<number>;` follow whatever the
response to the fallback is. No other command is written twice. -/
theorem hfp_dial_cmer_fallback (env : ScoEnv) (dev : DialEnv) (number : List Nat)
    (st : Phone) (haddr : st.device_addr.head?.getD 0 ≠ 0) (hl : st.hfp_listen_socket < 0)
    (hsock : 0 ≤ dev.socket_fd) (hconnect : 0 ≤ dev.connect_ret)
    (hreply : ∀ cmd ∈ [AT_BRSF_0, AT_CIND_TEST, AT_CIND_READ],
      0 ≤ (dev.reply cmd).write_ret ∧ 0 < (dev.reply cmd).read_ret ∧
      OK <:+: cstr (dev.reply cmd).read_buf)
    (hw : 0 ≤ (dev.reply AT_CMER_1).write_ret) :
    ((0 < (dev.reply AT_CMER_1).read_ret ∧ OK <:+: cstr (dev.reply AT_CMER_1).read_buf) →
      written_cmds (hfp_dial env dev number st).2 = written_cmds st ++
        [AT_BRSF_0, AT_CIND_TEST, AT_CIND_READ, AT_CMER_1, AT_NREC_0, atd_cmd number]) ∧
    (¬ (0 < (dev.reply AT_CMER_1).read_ret ∧ OK <:+: cstr (dev.reply AT_CMER_1).read_buf) →
      0 ≤ (dev.reply AT_CMER_0).write_ret →
      written_cmds (hfp_dial env dev number st).2 = written_cmds st ++
        [AT_BRSF_0, AT_CIND_TEST, AT_CIND_READ, AT_CMER_1, AT_CMER_0, AT_NREC_0,
          atd_cmd number]) := by
  obtain ⟨s, hd, -, hws, -⟩ := hfp_dial_fresh_start env dev number st haddr hl hsock hconnect
  obtain ⟨-, -, hyes, hno⟩ := hfp_cmer_step_spec dev (hfp_slc_step dev AT_CIND_READ
    (hfp_slc_step dev AT_CIND_TEST (hfp_slc_step dev AT_BRSF_0 s).2).2).2 hw
  rw [hd]
  constructor
  · intro hok
    obtain ⟨g, w⟩ := hyes hok
    obtain ⟨a, b⟩ := hfp_dial_handshake_from_cmer env dev number s hreply g
    rw [a, w, b, hws]
    simp
  · intro hbad hw0
    obtain ⟨w, g⟩ := hno hbad
    obtain ⟨a, b⟩ := hfp_dial_handshake_from_cmer env dev number s hreply (g.mpr hw0)
    rw [a, w, b, hws]
    simp

/-- C24 at a device that answers `AT+CMER=3,0,0,1` and `AT+CMER=3,0,0,0` with
`ERROR\r\n` and everything else with `OK\r\n`: the dial of `5550000` writes the
fallback once and goes on to `AT+NREC=0` and `ATD5550000;`. -/
theorem hfp_dial_cmer_fallback_witness :
    written_cmds (hfp_dial ScoEnv.ok
      { socket_fd := 9, connect_ret := 0,
        reply := fun cmd =>
          if cmd = AT_CMER_1 ∨ cmd = AT_CMER_0 then
            { write_ret := 16, read_ret := 7, read_buf := bytes "ERROR\r\n" }
          else { write_ret := cmd.length, read_ret := 4, read_buf := bytes "OK\r\n" } }
      (bytes "5550000")
      (set_hfp_listen_socket (-1) (Phone.initial [] (bytes "00:11:22:33:44:55")))).2 =
    written_cmds (set_hfp_listen_socket (-1) (Phone.initial [] (bytes "00:11:22:33:44:55"))) ++
      [AT_BRSF_0, AT_CIND_TEST, AT_CIND_READ, AT_CMER_1, AT_CMER_0, AT_NREC_0,
        atd_cmd (bytes "5550000")] :=
  (hfp_dial_cmer_fallback ScoEnv.ok
    { socket_fd := 9, connect_ret := 0,
      reply := fun cmd =>
        if cmd = AT_CMER_1 ∨ cmd = AT_CMER_0 then
          { write_ret := 16, read_ret := 7, read_buf := bytes "ERROR\r\n" }
        else { write_ret := cmd.length, read_ret := 4, read_buf := bytes "OK\r\n" } }
    (bytes "5550000")
    (set_hfp_listen_socket (-1) (Phone.initial [] (bytes "00:11:22:33:44:55")))
    (by decide) (by decide) (by decide) (by decide) (by decide) (by decide)).2
    (by decide) (by decide)

/-! ## What the audio channel leaves alone -/

theorem ctl_emit (e : Effect) (s : Phone) : control_state (emit e s) = control_state s := rfl

theorem ctl_log_msg (s : Phone) : control_state (log_msg s) = control_state s := rfl

theorem ctl_stop_sco_audio (r : Bool) (s : Phone) :
    control_state (stop_sco_audio r s) = control_state s := by
  cases s
  simp only [control_state, stop_sco_audio, shutdown_webrtc_aec, clear_fifo,
    set_aec_enabled, set_sco_audio_running, close_sco_socket, set_sco_socket, emit, g_idle_add]
  split_ifs <;> simp

theorem ctl_set_call_state (X : CallState) (s : Phone) :
    control_state (set_call_state X s) = control_state s := by
  cases s
  simp only [control_state, set_call_state, set_current_call_state,
    bring_window_to_front, start_ringtone, stop_ringtone, g_timeout_add, set_ringtone_timer_id,
    update_call_ui, stop_sco_audio, shutdown_webrtc_aec, clear_fifo, set_aec_enabled,
    set_sco_audio_running, close_sco_socket, set_sco_socket, emit, g_idle_add]
  split_ifs <;> simp

theorem ctl_sco_close_previous (s : Phone) :
    control_state (sco_close_previous s) = control_state s := by
  cases s
  simp only [control_state, sco_close_previous, log_msg,
    stop_sco_audio, shutdown_webrtc_aec, clear_fifo, set_aec_enabled,
    set_sco_audio_running, close_sco_socket, set_sco_socket, emit, g_idle_add]
  split_ifs <;> simp

theorem ctl_sco_connected (env : ScoEnv) (s : Phone) :
    control_state (sco_connected env s).2 = control_state s := by
  cases s
  simp only [control_state, sco_connected, init_webrtc_aec, log_msg, set_sco_mtu,
    clear_fifo, set_aec_enabled, set_sco_audio_running, emit, g_idle_add]
  split <;> simp

theorem ctl_sco_connect_retry (env : ScoEnv) (s : Phone) :
    control_state (sco_connect_retry env s).2 = control_state s := by
  unfold sco_connect_retry
  simp only []
  split_ifs
  · rw [ctl_sco_connected]
    rfl
  · rfl
  · rfl

theorem ctl_sco_connect_failed (env : ScoEnv) (s : Phone) :
    control_state (sco_connect_failed env s).2 = control_state s := by
  unfold sco_connect_failed
  simp only []
  split_ifs
  · rw [ctl_sco_connect_retry]
    rfl
  · rfl

/-- `sco_connect` touches neither RFCOMM socket nor the listener's flag. -/
theorem ctl_sco_connect (env : ScoEnv) (s : Phone) :
    control_state (sco_connect env s).2 = control_state s := by
  have h1 : control_state (set_sco_socket env.socket1
      (sco_close_previous (emit Effect.sco_connect s))) = control_state s := by
    rw [show ∀ v t, control_state (set_sco_socket v t) = control_state t from
      fun _ _ => rfl, ctl_sco_close_previous]
    rfl
  unfold sco_connect
  simp only []
  split_ifs
  · rfl
  · exact h1
  · rw [ctl_sco_connect_failed]
    exact h1
  · rw [ctl_sco_connect_failed]
    exact h1
  · rw [ctl_sco_connected]
    exact h1
  · rw [ctl_sco_connected]
    exact h1

/-! ## The response to `ATD` on the fresh path -/

/-- The handshake answered with `OK` at its first four steps comes to the
`ATD` step with the control socket as it was and no `sco_connect` called. -/
theorem hfp_dial_handshake_to_atd (env : ScoEnv) (dev : DialEnv) (number : List Nat) (s : Phone)
    (hreply : ∀ cmd ∈ [AT_BRSF_0, AT_CIND_TEST, AT_CIND_READ, AT_CMER_1],
      0 ≤ (dev.reply cmd).write_ret ∧ 0 < (dev.reply cmd).read_ret ∧
      OK <:+: cstr (dev.reply cmd).read_buf) :
    ∃ s2, hfp_dial_handshake env dev number s = hfp_dial_atd env dev number s2 ∧
      s2.hfp_socket = s.hfp_socket ∧ sco_connect_calls s2 = sco_connect_calls s := by
  obtain ⟨-, k1, c1, t1⟩ := hfp_slc_step_spec dev AT_BRSF_0 s
  obtain ⟨-, k2, c2, t2⟩ := hfp_slc_step_spec dev AT_CIND_TEST (hfp_slc_step dev AT_BRSF_0 s).2
  obtain ⟨-, k3, c3, t3⟩ := hfp_slc_step_spec dev AT_CIND_READ
    (hfp_slc_step dev AT_CIND_TEST (hfp_slc_step dev AT_BRSF_0 s).2).2
  obtain ⟨d1, d2, d3⟩ := hreply AT_CMER_1 (by simp)
  obtain ⟨k4, c4, t4, -⟩ := hfp_cmer_step_spec dev (hfp_slc_step dev AT_CIND_READ
    (hfp_slc_step dev AT_CIND_TEST (hfp_slc_step dev AT_BRSF_0 s).2).2).2 d1
  have s1 := t1.mpr (hreply AT_BRSF_0 (by simp))
  have s2 := t2.mpr (hreply AT_CIND_TEST (by simp))
  have s3 := t3.mpr (hreply AT_CIND_READ (by simp))
  have s4 := (t4 ⟨d2, d3⟩).1
  unfold hfp_dial_handshake
  simp only [s1, s2, s3, s4, Bool.true_eq_false, if_false]
  refine ⟨_, rfl, ?_, ?_⟩
  · show (hfp_cmer_step dev _).2.hfp_socket = s.hfp_socket
    rw [k4, k3, k2, k1]
  · rw [scc_emit _ _ (by simp), scc_emit _ _ (by simp), scc_log_msg, c4, c3, c2, c1]

/-- The state of the listener after the `RING` test of a chunk without
`+CLIP:`. -/
theorem chunk_without_clip (env : ScoEnv) (chunk : List Nat) (st : Phone)
    (hclip : ¬ CLIP <:+: cstr chunk) :
    incoming_call_listener_chunk env chunk st =
      if (strstr chunk CIEV).isSome then
        if (parse_ciev chunk (-1) (-1)).1 then
          handle_ciev_event env (parse_ciev chunk (-1) (-1)).2.1 (parse_ciev chunk (-1) (-1)).2.2
            (if ((strstr chunk RING).isSome &&
                decide ((log_msg st).current_call_state ≠ CallState.CALL_RINGING)) = true then
              g_idle_add (IdleCb.hfp_update_call_state_cb CallState.CALL_RINGING)
                (log_msg (log_msg st))
            else log_msg st)
        else
          (if ((strstr chunk RING).isSome &&
              decide ((log_msg st).current_call_state ≠ CallState.CALL_RINGING)) = true then
            g_idle_add (IdleCb.hfp_update_call_state_cb CallState.CALL_RINGING)
              (log_msg (log_msg st))
          else log_msg st)
      else if (strstr chunk NO_CARRIER).isSome || (strstr chunk BUSY).isSome ||
          (strstr chunk NO_ANSWER).isSome || (strstr chunk ERROR).isSome then
        g_idle_add (IdleCb.hfp_update_call_state_cb CallState.CALL_IDLE)
          (log_msg (if ((strstr chunk RING).isSome &&
              decide ((log_msg st).current_call_state ≠ CallState.CALL_RINGING)) = true then
            g_idle_add (IdleCb.hfp_update_call_state_cb CallState.CALL_RINGING)
              (log_msg (log_msg st))
          else log_msg st))
      else
        (if ((strstr chunk RING).isSome &&
            decide ((log_msg st).current_call_state ≠ CallState.CALL_RINGING)) = true then
          g_idle_add (IdleCb.hfp_update_call_state_cb CallState.CALL_RINGING)
            (log_msg (log_msg st))
        else log_msg st) := by
  unfold incoming_call_listener_chunk
  simp only [listener_clip_none chunk _ hclip]

/-- A main-loop turn on a queue that ends with the request for Idle ends in
Idle with the caller info cleared. -/
theorem main_iteration_last_idle (r : Phone) (q : List IdleCb)
    (hq : r.idle_queue = q ++ [IdleCb.hfp_update_call_state_cb CallState.CALL_IDLE]) :
    (g_main_iteration r).current_call_state = CallState.CALL_IDLE ∧
    cstr (g_main_iteration r).current_call_number = [] ∧
    cstr (g_main_iteration r).current_call_name = [] := by
  have h : g_main_iteration r = hfp_update_call_state_cb CallState.CALL_IDLE
      (run_callbacks q { r with idle_queue := [] }) := by
    unfold g_main_iteration
    rw [hq, run_callbacks_append, run_callbacks_cons, run_callbacks_nil]
    rfl
  rw [h]
  obtain ⟨k1, k2⟩ := caller_hfp_update_idle (run_callbacks q { r with idle_queue := [] })
  exact ⟨cs_hfp_update_call_state_cb _ _, by rw [k1]; exact cstr_replicate_zero_nil 64,
    by rw [k2]; exact cstr_replicate_zero_nil 128⟩

/-- C21 (the claim as stated fails): in call state Active the chunk
`+CIEV: 5,3\r\nNO CARRIER\r\n` requests no transition at all, and the call
state is still Active after the main loop has run. -/
theorem terminal_token_with_ciev_ignored :
    NO_CARRIER <:+: cstr (bytes "+CIEV: 5,3\r\nNO CARRIER\r\n") ∧
    requested (incoming_call_listener_chunk ScoEnv.ok (bytes "+CIEV: 5,3\r\nNO CARRIER\r\n")
      (set_current_call_state CallState.CALL_ACTIVE
        (Phone.initial [] (bytes "00:11:22:33:44:55")))) = [] ∧
    (listener_chunk_then_main ScoEnv.ok (bytes "+CIEV: 5,3\r\nNO CARRIER\r\n")
      (set_current_call_state CallState.CALL_ACTIVE
        (Phone.initial [] (bytes "00:11:22:33:44:55")))).current_call_state
      = CallState.CALL_ACTIVE := by
  decide

/-- C21 (amended): for every chunk without `+CLIP:` and without `+CIEV:` that
holds `NO CARRIER`, `BUSY`, `NO ANSWER` or `ERROR`, the listener queues the
transition to Idle as the last callback, whatever else (a `RING`) the chunk
carries, and after the main loop has run the call state is Idle with the
caller number and name empty. For a chunk without `+CLIP:` that holds
`+CIEV:`, what the listener does is the dispatch of that event alone (nothing
when it does not parse): the terminal tokens are not looked at. -/
theorem terminal_token_requests_idle (env : ScoEnv) (chunk : List Nat) (st : Phone)
    (hclip : ¬ CLIP <:+: cstr chunk) :
    (¬ CIEV <:+: cstr chunk →
      (NO_CARRIER <:+: cstr chunk ∨ BUSY <:+: cstr chunk ∨ NO_ANSWER <:+: cstr chunk ∨
        ERROR <:+: cstr chunk) →
      (∃ q, (incoming_call_listener_chunk env chunk st).idle_queue =
        st.idle_queue ++ q ++ [IdleCb.hfp_update_call_state_cb CallState.CALL_IDLE]) ∧
      (requested (incoming_call_listener_chunk env chunk st)).getLast? =
        some CallState.CALL_IDLE ∧
      (listener_chunk_then_main env chunk st).current_call_state = CallState.CALL_IDLE ∧
      cstr (listener_chunk_then_main env chunk st).current_call_number = [] ∧
      cstr (listener_chunk_then_main env chunk st).current_call_name = []) ∧
    (CIEV <:+: cstr chunk →
      incoming_call_listener_chunk env chunk st =
        if (parse_ciev chunk (-1) (-1)).1 then
          handle_ciev_event env (parse_ciev chunk (-1) (-1)).2.1 (parse_ciev chunk (-1) (-1)).2.2
            (if ((strstr chunk RING).isSome &&
                decide ((log_msg st).current_call_state ≠ CallState.CALL_RINGING)) = true then
              g_idle_add (IdleCb.hfp_update_call_state_cb CallState.CALL_RINGING)
                (log_msg (log_msg st))
            else log_msg st)
        else
          (if ((strstr chunk RING).isSome &&
              decide ((log_msg st).current_call_state ≠ CallState.CALL_RINGING)) = true then
            g_idle_add (IdleCb.hfp_update_call_state_cb CallState.CALL_RINGING)
              (log_msg (log_msg st))
          else log_msg st)) := by
  have hform := chunk_without_clip env chunk st hclip
  constructor
  · intro hciev hterm
    have hc : (strstr chunk CIEV).isSome = false := by
      rw [strstr_none_of_no_occurrence CIEV chunk (by simp [CIEV]) (by decide) hciev]
      rfl
    have ht : ((strstr chunk NO_CARRIER).isSome || (strstr chunk BUSY).isSome ||
        (strstr chunk NO_ANSWER).isSome || (strstr chunk ERROR).isSome) = true := by
      rcases hterm with h | h | h | h
      · rw [strstr_isSome_of_occurrence _ _ h]
        simp
      · rw [strstr_isSome_of_occurrence _ _ h]
        simp
      · rw [strstr_isSome_of_occurrence _ _ h]
        simp
      · rw [strstr_isSome_of_occurrence _ _ h]
        simp
    rw [hc, ht] at hform
    simp only [Bool.false_eq_true, if_false, if_true] at hform
    have hqueue : ∃ q, (incoming_call_listener_chunk env chunk st).idle_queue =
        st.idle_queue ++ q ++ [IdleCb.hfp_update_call_state_cb CallState.CALL_IDLE] := by
      rw [hform]
      split_ifs
      · exact ⟨[IdleCb.append_log_ui, IdleCb.append_log_ui,
          IdleCb.hfp_update_call_state_cb CallState.CALL_RINGING, IdleCb.append_log_ui],
          by simp [g_idle_add, log_msg]⟩
      · exact ⟨[IdleCb.append_log_ui, IdleCb.append_log_ui], by simp [g_idle_add, log_msg]⟩
    obtain ⟨q, hq⟩ := hqueue
    refine ⟨⟨q, hq⟩, ?_, ?_⟩
    · unfold requested
      rw [hq, List.filterMap_append]
      simp [IdleCb.request]
    · unfold listener_chunk_then_main
      exact main_iteration_last_idle _ (st.idle_queue ++ q) hq
  · intro hciev
    rw [hform, strstr_isSome_of_occurrence _ _ hciev]
    simp only [if_true]

/-- C21 (amended) at the chunk `RING\r\nNO CARRIER\r\n` received in call state
Active. -/
theorem terminal_token_requests_idle_witness :
    (listener_chunk_then_main ScoEnv.ok (bytes "RING\r\nNO CARRIER\r\n")
      (set_current_call_state CallState.CALL_ACTIVE
        (Phone.initial [] (bytes "00:11:22:33:44:55")))).current_call_state
      = CallState.CALL_IDLE :=
  ((terminal_token_requests_idle ScoEnv.ok (bytes "RING\r\nNO CARRIER\r\n")
    (set_current_call_state CallState.CALL_ACTIVE (Phone.initial [] (bytes "00:11:22:33:44:55")))
    (by decide)).1 (by decide) (Or.inl (by decide))).2.2.1

/-! ## What a dial leaves of the listener -/

theorem lis_of_ctl {a b : Phone} (h : control_state a = control_state b) :
    listener_state a = listener_state b :=
  congrArg Prod.snd h

theorem lis_emit (e : Effect) (s : Phone) : listener_state (emit e s) = listener_state s := rfl

theorem lis_log_msg (s : Phone) : listener_state (log_msg s) = listener_state s := rfl

theorem lis_set_hfp_socket (v : Int) (s : Phone) :
    listener_state (set_hfp_socket v s) = listener_state s := rfl

theorem lis_set_hfp_listen_paused (v : Bool) (s : Phone) :
    listener_state (set_hfp_listen_paused v s) = listener_state s := rfl

theorem lis_update_ui (s : Phone) : listener_state (update_ui s) = listener_state s := rfl

theorem lis_set_current_call_number (v : List Nat) (s : Phone) :
    listener_state (set_current_call_number v s) = listener_state s := rfl

theorem lis_set_current_call_name (v : List Nat) (s : Phone) :
    listener_state (set_current_call_name v s) = listener_state s := rfl

theorem lis_start_hfp_monitor (s : Phone) :
    listener_state (start_hfp_monitor s) = listener_state s := rfl

theorem lis_dial_number_failure (s : Phone) :
    listener_state (dial_number_failure s) = listener_state s := rfl

theorem lis_set_call_state (X : CallState) (s : Phone) :
    listener_state (set_call_state X s) = listener_state s :=
  lis_of_ctl (ctl_set_call_state X s)

theorem lis_sco_connect (env : ScoEnv) (s : Phone) :
    listener_state (sco_connect env s).2 = listener_state s :=
  lis_of_ctl (ctl_sco_connect env s)

theorem lis_hfp_close (s : Phone) : listener_state (hfp_close s) = listener_state s := by
  cases s
  simp only [listener_state, hfp_close, join_hfp_monitor, close_hfp_socket, set_hfp_socket,
    set_hfp_monitor_running, set_hfp_monitor_thread_handle, log_msg,
    set_sco_audio_running, close_sco_socket, set_sco_socket, emit, g_idle_add]
  split_ifs <;> simp

theorem lis_hfp_slc_step (dev : DialEnv) (cmd : List Nat) (s : Phone) :
    listener_state (hfp_slc_step dev cmd s).2 = listener_state s := by
  unfold hfp_slc_step
  simp only []
  split_ifs <;> simp only [lis_emit, lis_log_msg]

theorem lis_hfp_cmer_step (dev : DialEnv) (s : Phone) :
    listener_state (hfp_cmer_step dev s).2 = listener_state s := by
  unfold hfp_cmer_step
  simp only []
  split_ifs <;> simp only [lis_emit, lis_log_msg]

theorem lis_hfp_dial_atd (env : ScoEnv) (dev : DialEnv) (number : List Nat) (s : Phone) :
    listener_state (hfp_dial_atd env dev number s).2 = listener_state s := by
  unfold hfp_dial_atd hfp_dial_error
  simp only []
  split_ifs <;>
    simp only [lis_hfp_close, lis_start_hfp_monitor, lis_sco_connect, lis_emit, lis_log_msg]

theorem lis_hfp_dial_handshake (env : ScoEnv) (dev : DialEnv) (number : List Nat) (s : Phone) :
    listener_state (hfp_dial_handshake env dev number s).2 = listener_state s := by
  unfold hfp_dial_handshake hfp_dial_error
  simp only []
  split_ifs <;>
    simp only [lis_hfp_close, lis_hfp_dial_atd, lis_hfp_cmer_step, lis_hfp_slc_step, lis_emit,
      lis_log_msg]

theorem lis_hfp_dial_fresh (env : ScoEnv) (dev : DialEnv) (number : List Nat) (s : Phone) :
    listener_state (hfp_dial_fresh env dev number s).2 = listener_state s := by
  unfold hfp_dial_fresh
  simp only []
  split_ifs <;>
    simp only [lis_hfp_dial_handshake, lis_hfp_close, lis_set_hfp_socket, lis_emit, lis_log_msg]

theorem lis_hfp_dial_accept (env : ScoEnv) (s : Phone) :
    listener_state (hfp_dial_accept env s) = listener_state s := by
  unfold hfp_dial_accept
  simp only [lis_set_hfp_listen_paused, lis_set_call_state, lis_sco_connect]

theorem lis_hfp_dial_listener (env : ScoEnv) (dev : DialEnv) (number : List Nat) (s : Phone) :
    listener_state (hfp_dial_listener env dev number s).2 = listener_state s := by
  unfold hfp_dial_listener hfp_dial_classify
  simp only []
  split_ifs <;>
    simp only [lis_hfp_dial_accept, lis_set_hfp_listen_paused, lis_emit, lis_log_msg]

theorem lis_hfp_dial (env : ScoEnv) (dev : DialEnv) (number : List Nat) (s : Phone) :
    listener_state (hfp_dial env dev number s).2 = listener_state s := by
  unfold hfp_dial
  split_ifs
  · exact lis_log_msg s
  · exact lis_hfp_dial_listener env dev number s
  · exact lis_hfp_dial_fresh env dev number s

theorem lis_dial_number_success (number : List Nat) (s : Phone) :
    listener_state (dial_number_success number s) = listener_state s := by
  unfold dial_number_success
  simp only [lis_update_ui, lis_set_call_state]
  split <;> simp only [lis_set_current_call_name, lis_set_current_call_number]

/-- `dial_number` leaves the listener socket and the listener's running flag
as they are. -/
theorem lis_dial_number (env : ScoEnv) (dev : DialEnv) (number : List Nat) (s : Phone) :
    listener_state (dial_number env dev number s) = listener_state s := by
  unfold dial_number
  simp only []
  split_ifs <;>
    simp only [lis_dial_number_success, lis_dial_number_failure, lis_hfp_dial, lis_log_msg]

/-! ## The handshake of the listener -/

theorem wr_listener_slc_step (cmd : List Nat) (s : Phone) :
    written_cmds (listener_slc_step cmd s) = written_cmds s ++ [cmd] := by
  unfold listener_slc_step
  rw [wr_emit _ _ (by rfl), wr_emit_write]

/-- The listener's handshake writes its five commands, once each, and leaves
the listener socket and flag alone. -/
theorem listener_handshake_spec (s : Phone) :
    written_cmds (listener_handshake s) =
      written_cmds s ++ [AT_BRSF_1, AT_CIND_TEST, AT_CIND_READ, AT_CMER_1, AT_CLIP_1] ∧
    listener_state (listener_handshake s) = listener_state s := by
  constructor
  · unfold listener_handshake
    simp only [wr_listener_slc_step, List.append_assoc, List.singleton_append]
    simp
  · simp only [listener_handshake, listener_slc_step, lis_emit]

/-- C25 (the claim as stated fails): with a device that answers every command
with `ERROR\r\n`, the listener writes `AT+BRSF=1`, `AT+CIND=?`, `AT+CIND?`,
`AT+CMER=3,0,0,1`, `AT+CLIP=1` and nothing else: neither the fallback
`AT+CMER=3,0,0,0` nor `AT+NREC=0` is written. -/
theorem listener_handshake_not_as_claimed :
    written_cmds (incoming_call_listener_setup ScoEnv.ok
      { socket_fd := 5, connect_ret := 0,
        reply := fun cmd =>
          { write_ret := cmd.length, read_ret := 7, read_buf := bytes "ERROR\r\n" } }
      [] (set_hfp_listen_socket (-1) (Phone.initial [] (bytes "00:11:22:33:44:55")))).2 =
      [AT_BRSF_1, AT_CIND_TEST, AT_CIND_READ, AT_CMER_1, AT_CLIP_1] ∧
    [AT_BRSF_1, AT_CIND_TEST, AT_CIND_READ, AT_CMER_1, AT_CLIP_1] ≠
      [AT_BRSF_1, AT_CIND_TEST, AT_CIND_READ, AT_CMER_1, AT_CMER_0, AT_NREC_0, AT_CLIP_1] ∧
    [AT_BRSF_1, AT_CIND_TEST, AT_CIND_READ, AT_CMER_1, AT_CLIP_1] ≠
      [AT_BRSF_1, AT_CIND_TEST, AT_CIND_READ, AT_CMER_1, AT_NREC_0, AT_CLIP_1] := by
  decide

/-- C25 (amended): on the listener path, after `socket` and `connect` have
succeeded, the commands written during the handshake are, in this order and
each ending in `\r`: `AT+BRSF=1`, `AT+CIND=?`, `AT+CIND?`, `AT+CMER=3,0,0,1`,
`AT+CLIP=1`, whatever the responses are (they are not looked at); no other
command is written before the event loop unless a dial is pending, and the
event loop is entered, the listener's running flag being as it was. -/
theorem listener_handshake_commands (env : ScoEnv) (dev : DialEnv) (pending : List Nat)
    (st : Phone) (hsock : 0 ≤ dev.socket_fd) (hconnect : 0 ≤ dev.connect_ret) :
    (∀ s, written_cmds (listener_handshake s) =
      written_cmds s ++ [AT_BRSF_1, AT_CIND_TEST, AT_CIND_READ, AT_CMER_1, AT_CLIP_1]) ∧
    (∀ cmd ∈ [AT_BRSF_1, AT_CIND_TEST, AT_CIND_READ, AT_CMER_1, AT_CLIP_1],
      cmd.getLast? = some 13) ∧
    (pending.head?.getD 0 = 0 →
      written_cmds (incoming_call_listener_setup env dev pending st).2 =
        written_cmds st ++ [AT_BRSF_1, AT_CIND_TEST, AT_CIND_READ, AT_CMER_1, AT_CLIP_1]) ∧
    (incoming_call_listener_setup env dev pending st).2.hfp_listen_socket = dev.socket_fd ∧
    (incoming_call_listener_setup env dev pending st).1 = st.incoming_call_running := by
  have h1 : ¬ (set_hfp_listen_socket dev.socket_fd (emit Effect.socket (log_msg st))).hfp_listen_socket
      < 0 := by
    show ¬ dev.socket_fd < 0
    omega
  have h2 : ¬ dev.connect_ret < 0 := by omega
  have hstate : listener_state (incoming_call_listener_setup env dev pending st).2 =
      (dev.socket_fd, st.incoming_call_running) := by
    unfold incoming_call_listener_setup
    simp only [if_neg h1, if_neg h2]
    split_ifs
    · simp only [lis_dial_number, lis_log_msg, (listener_handshake_spec _).2, lis_emit]
      rfl
    · simp only [lis_log_msg, (listener_handshake_spec _).2, lis_emit]
      rfl
  have hsk : (incoming_call_listener_setup env dev pending st).2.hfp_listen_socket =
      dev.socket_fd := congrArg Prod.fst hstate
  have hrun : (incoming_call_listener_setup env dev pending st).2.incoming_call_running =
      st.incoming_call_running := congrArg Prod.snd hstate
  have hflag : (incoming_call_listener_setup env dev pending st).1 =
      ((incoming_call_listener_setup env dev pending st).2.incoming_call_running &&
        decide ((incoming_call_listener_setup env dev pending st).2.hfp_listen_socket ≥ 0)) := by
    unfold incoming_call_listener_setup
    simp only [if_neg h1, if_neg h2]
  refine ⟨fun s => (listener_handshake_spec s).1, by decide, ?_, hsk, ?_⟩
  · intro hp
    have hp2 : ¬ pending.head?.getD 0 ≠ 0 := fun h => h hp
    unfold incoming_call_listener_setup
    simp only [if_neg h1, if_neg h2, if_neg hp2]
    rw [wr_log_msg, (listener_handshake_spec _).1, wr_emit _ _ (by rfl),
      show ∀ v t, written_cmds (set_hfp_listen_socket v t) = written_cmds t from
        fun _ _ => rfl, wr_emit _ _ (by rfl), wr_log_msg]
  · rw [hflag, hrun, hsk]
    have : decide (dev.socket_fd ≥ 0) = true := by simpa using hsock
    rw [this, Bool.and_true]

/-- C25 (amended) at the device that answers every command with `ERROR\r\n`:
the five commands are written and the event loop is entered. -/
theorem listener_handshake_commands_witness :
    written_cmds (incoming_call_listener_setup ScoEnv.ok
      { socket_fd := 5, connect_ret := 0,
        reply := fun cmd =>
          { write_ret := cmd.length, read_ret := 7, read_buf := bytes "ERROR\r\n" } }
      [] (set_hfp_listen_socket (-1) (Phone.initial [] (bytes "00:11:22:33:44:55")))).2 =
      written_cmds (set_hfp_listen_socket (-1) (Phone.initial [] (bytes "00:11:22:33:44:55"))) ++
        [AT_BRSF_1, AT_CIND_TEST, AT_CIND_READ, AT_CMER_1, AT_CLIP_1] ∧
    (incoming_call_listener_setup ScoEnv.ok
      { socket_fd := 5, connect_ret := 0,
        reply := fun cmd =>
          { write_ret := cmd.length, read_ret := 7, read_buf := bytes "ERROR\r\n" } }
      [] (set_hfp_listen_socket (-1) (Phone.initial [] (bytes "00:11:22:33:44:55")))).1 =
      (set_hfp_listen_socket (-1)
        (Phone.initial [] (bytes "00:11:22:33:44:55"))).incoming_call_running :=
  ⟨(listener_handshake_commands ScoEnv.ok
      { socket_fd := 5, connect_ret := 0,
        reply := fun cmd =>
          { write_ret := cmd.length, read_ret := 7, read_buf := bytes "ERROR\r\n" } }
      [] (set_hfp_listen_socket (-1) (Phone.initial [] (bytes "00:11:22:33:44:55")))
      (by decide) (by decide)).2.2.1 (by decide),
   (listener_handshake_commands ScoEnv.ok
      { socket_fd := 5, connect_ret := 0,
        reply := fun cmd =>
          { write_ret := cmd.length, read_ret := 7, read_buf := bytes "ERROR\r\n" } }
      [] (set_hfp_listen_socket (-1) (Phone.initial [] (bytes "00:11:22:33:44:55")))
      (by decide) (by decide)).2.2.2.2⟩

/-! ## The timer removed when a call becomes active -/

theorem rm_emit (e : Effect) (s : Phone) (he : e.removed = none) :
    removed_sources (emit e s) = removed_sources s := by
  simp [removed_sources, emit, List.filterMap_append, he]

theorem rm_log_msg (s : Phone) : removed_sources (log_msg s) = removed_sources s := rfl

theorem rm_g_idle_add (cb : IdleCb) (s : Phone) :
    removed_sources (g_idle_add cb s) = removed_sources s := rfl

theorem rm_stop_sco_audio (r : Bool) (s : Phone) :
    removed_sources (stop_sco_audio r s) = removed_sources s := by
  cases s
  simp only [removed_sources, stop_sco_audio, shutdown_webrtc_aec, clear_fifo, set_aec_enabled,
    set_sco_audio_running, close_sco_socket, set_sco_socket, emit, g_idle_add]
  split_ifs <;> simp [List.filterMap_append, Effect.removed]

theorem rm_sco_close_previous (s : Phone) :
    removed_sources (sco_close_previous s) = removed_sources s := by
  cases s
  simp only [removed_sources, sco_close_previous, log_msg,
    stop_sco_audio, shutdown_webrtc_aec, clear_fifo, set_aec_enabled,
    set_sco_audio_running, close_sco_socket, set_sco_socket, emit, g_idle_add]
  split_ifs <;> simp [List.filterMap_append, Effect.removed]

theorem rm_sco_connected (env : ScoEnv) (s : Phone) :
    removed_sources (sco_connected env s).2 = removed_sources s := by
  cases s
  simp only [removed_sources, sco_connected, init_webrtc_aec, log_msg, set_sco_mtu,
    clear_fifo, set_aec_enabled, set_sco_audio_running, emit, g_idle_add]
  split <;> simp [List.filterMap_append, Effect.removed]

theorem rm_sco_connect_retry (env : ScoEnv) (s : Phone) :
    removed_sources (sco_connect_retry env s).2 = removed_sources s := by
  unfold sco_connect_retry
  simp only []
  split_ifs
  · rw [rm_sco_connected]
    rfl
  · rw [show ∀ v t, removed_sources (set_sco_socket v t) = removed_sources t from
      fun _ _ => rfl, rm_emit _ _ (by rfl)]
    rfl
  · rfl

theorem rm_sco_connect_failed (env : ScoEnv) (s : Phone) :
    removed_sources (sco_connect_failed env s).2 = removed_sources s := by
  unfold sco_connect_failed
  simp only []
  split_ifs
  · rw [rm_sco_connect_retry]
    rw [show ∀ v t, removed_sources (set_sco_socket v t) = removed_sources t from
      fun _ _ => rfl, rm_emit _ _ (by rfl)]
    rfl
  · rw [show ∀ v t, removed_sources (set_sco_socket v t) = removed_sources t from
      fun _ _ => rfl, rm_emit _ _ (by rfl)]
    rfl

/-- `sco_connect` removes no GLib source. -/
theorem rm_sco_connect (env : ScoEnv) (s : Phone) :
    removed_sources (sco_connect env s).2 = removed_sources s := by
  have h1 : removed_sources (set_sco_socket env.socket1
      (sco_close_previous (emit Effect.sco_connect s))) = removed_sources s := by
    rw [show ∀ v t, removed_sources (set_sco_socket v t) = removed_sources t from
      fun _ _ => rfl, rm_sco_close_previous, rm_emit _ _ (by rfl)]
  unfold sco_connect
  simp only []
  split_ifs
  · exact rm_emit _ _ (by rfl)
  · exact h1
  · rw [rm_sco_connect_failed]
    exact h1
  · rw [rm_sco_connect_failed]
    exact h1
  · rw [rm_sco_connected]
    exact h1
  · rw [rm_sco_connected]
    exact h1

theorem rm_sco_connect_if_closed (env : ScoEnv) (s : Phone) :
    removed_sources (sco_connect_if_closed env s) = removed_sources s := by
  unfold sco_connect_if_closed
  split_ifs
  · exact rm_sco_connect env s
  · rfl

/-- A callback that is no transition removes no GLib source. -/
theorem rm_dispatch (cb : IdleCb) (h : cb.isTransition = false) (s : Phone) :
    removed_sources (dispatch cb s) = removed_sources s := by
  cases cb with
  | hfp_update_call_state_cb X => exact absurd h (by simp [IdleCb.isTransition])
  | hfp_refresh_ui_cb => exact rm_emit _ _ (by rfl)
  | restart_incoming_listener_cb =>
    simp only [dispatch, restart_incoming_listener_cb, start_incoming_call_listener]
    split_ifs <;> rfl
  | append_log_ui => rfl
  | lambda_log => rfl

theorem rm_run_callbacks (l : List IdleCb) (hl : ∀ cb ∈ l, cb.isTransition = false)
    (s : Phone) : removed_sources (run_callbacks l s) = removed_sources s := by
  induction l generalizing s with
  | nil => rfl
  | cons cb l ih =>
    rw [run_callbacks_cons, ih (fun c hc => hl c (List.mem_cons_of_mem _ hc)),
      rm_dispatch cb (hl cb (List.mem_cons_self _ _))]

/-- The callback for Active, run in another state: it removes the recorded
timer if there is one, and nothing else. -/
theorem rm_hfp_update_active (s : Phone) (h : s.current_call_state ≠ CallState.CALL_ACTIVE) :
    removed_sources (hfp_update_call_state_cb CallState.CALL_ACTIVE s) =
      removed_sources s ++ (if s.ringtone_timer_id = 0 then [] else [s.ringtone_timer_id]) := by
  have h1 : ¬ (CallState.CALL_ACTIVE = CallState.CALL_IDLE) := by decide
  unfold hfp_update_call_state_cb
  rw [if_neg h1, show ∀ t, removed_sources (update_ui t) = removed_sources t from
    fun t => rm_emit _ t (by rfl)]
  exact ((set_call_state_timer_effects CallState.CALL_ACTIVE s h).2 (by decide)).2.1

/-- A main-loop turn on a queue whose first transition is `X`: the callbacks
before it leave the call alone and remove no GLib source. -/
theorem main_iteration_first_transition_removed (r : Phone) (q0 rest : List IdleCb)
    (X : CallState) (hq : r.idle_queue = q0 ++ IdleCb.hfp_update_call_state_cb X :: rest)
    (h0 : ∀ cb ∈ q0, cb.isTransition = false) :
    ∃ s1, Calm r s1 ∧ removed_sources s1 = removed_sources r ∧
      g_main_iteration r = run_callbacks rest (hfp_update_call_state_cb X s1) := by
  refine ⟨run_callbacks q0 { r with idle_queue := [] },
    calm_trans (calm_clear_queue r) (quiet_run_callbacks _ h0 _).1, ?_, ?_⟩
  · rw [rm_run_callbacks q0 h0]
    rfl
  · unfold g_main_iteration
    rw [hq, run_callbacks_append, run_callbacks_cons]
    rfl

/-- C10: from call state Ringing (no transition pending), a chunk whose
`+CIEV` event reads `+CIEV: 1,1` (no `+CLIP:` in it) ends, once the main loop
has run, in call state Active with the ringtone timer stopped: the recorded id
is 0 (`ringtone_timer_id = 0`), the timer that was armed has been removed with
`g_source_remove` (exactly that one, and no other source), and no timer has
been started. -/
theorem ciev_call_active_stops_ringtone (env : ScoEnv) (st : Phone) (a c : List Nat)
    (hring : st.current_call_state = CallState.CALL_RINGING)
    (hq : ∀ cb ∈ st.idle_queue, cb.isTransition = false)
    (ha0 : ∀ x ∈ a, x ≠ 0) (ha : ¬ CIEV <:+: a)
    (hc : ∀ x, c.head? = some x → ¬ (48 ≤ x ∧ x ≤ 57))
    (hclip : ¬ CLIP <:+: cstr (a ++ (CIEV ++ (32 :: 49 :: 44 :: 49 :: c)))) :
    (listener_chunk_then_main env (a ++ (CIEV ++ (32 :: 49 :: 44 :: 49 :: c))) st).current_call_state
      = CallState.CALL_ACTIVE ∧
    (listener_chunk_then_main env (a ++ (CIEV ++ (32 :: 49 :: 44 :: 49 :: c))) st).ringtone_timer_id
      = 0 ∧
    (st.ringtone_timer_id ≠ 0 →
      removed_sources (listener_chunk_then_main env
        (a ++ (CIEV ++ (32 :: 49 :: 44 :: 49 :: c))) st) =
        removed_sources st ++ [st.ringtone_timer_id]) ∧
    timers_started (listener_chunk_then_main env
      (a ++ (CIEV ++ (32 :: 49 :: 44 :: 49 :: c))) st) = timers_started st := by
  have hparse := parse_ciev_digits a c 49 49 ha0 ha hc (by decide) (by decide)
  have hchunk := chunk_ciev_only env _ st 1 1 hclip (strstr_ciev_isSome a _ ha0 ha) hparse
  have hno : ¬ (((strstr (a ++ (CIEV ++ (32 :: 49 :: 44 :: 49 :: c))) RING).isSome &&
      decide ((log_msg st).current_call_state ≠ CallState.CALL_RINGING)) = true) := by
    rw [cs_log_msg, hring]
    simp
  rw [if_neg hno] at hchunk
  have hev : handle_ciev_event env 1 1 (log_msg st) =
      g_idle_add (IdleCb.hfp_update_call_state_cb CallState.CALL_ACTIVE)
        (sco_connect_if_closed env (log_msg (log_msg st))) := by
    unfold handle_ciev_event
    rw [if_pos rfl, if_pos rfl]
  rw [hev] at hchunk
  have hA : Quiet st (sco_connect_if_closed env (log_msg (log_msg st))) :=
    quiet_sco_connect_if_closed env (quiet_log_msg (quiet_log_msg (quiet_refl st)))
  have hrmA : removed_sources (sco_connect_if_closed env (log_msg (log_msg st))) =
      removed_sources st := by
    rw [rm_sco_connect_if_closed, rm_log_msg, rm_log_msg]
  obtain ⟨hcA, e1, he1, hl1⟩ := hA
  have hqueue : (g_idle_add (IdleCb.hfp_update_call_state_cb CallState.CALL_ACTIVE)
      (sco_connect_if_closed env (log_msg (log_msg st)))).idle_queue =
      (st.idle_queue ++ e1) ++ IdleCb.hfp_update_call_state_cb CallState.CALL_ACTIVE :: [] := by
    show (sco_connect_if_closed env (log_msg (log_msg st))).idle_queue ++ _ = _
    rw [he1]
  have h0 : ∀ cb ∈ st.idle_queue ++ e1, cb.isTransition = false := by
    intro cb hcb
    rcases List.mem_append.mp hcb with h | h
    · exact hq cb h
    · exact logs_not_transition e1 hl1 cb h
  obtain ⟨s1, hs1, hrm1, hrun⟩ := main_iteration_first_transition_removed _ _ _ _ hqueue h0
  rw [run_callbacks_nil] at hrun
  have hst1 : Calm st s1 := calm_trans (calm_g_idle_add _ hcA) hs1
  have hs1call : s1.current_call_state ≠ CallState.CALL_ACTIVE := by
    rw [hst1.1, hring]
    decide
  have hfinal : listener_chunk_then_main env (a ++ (CIEV ++ (32 :: 49 :: 44 :: 49 :: c))) st =
      hfp_update_call_state_cb CallState.CALL_ACTIVE s1 := by
    unfold listener_chunk_then_main
    rw [hchunk, hrun]
  rw [hfinal]
  refine ⟨cs_hfp_update_call_state_cb _ _, hfp_update_active_timer s1 hs1call, ?_, ?_⟩
  · intro ht
    rw [rm_hfp_update_active s1 hs1call, hst1.2.2.2.1, if_neg ht, hrm1, rm_g_idle_add, hrmA]
  · have h1 : ¬ (CallState.CALL_ACTIVE = CallState.CALL_IDLE) := by decide
    have hu : timers_started (hfp_update_call_state_cb CallState.CALL_ACTIVE s1) =
        timers_started s1 := by
      unfold hfp_update_call_state_cb
      rw [if_neg h1]
      have e : ∀ t, timers_started (update_ui t) = timers_started t := by
        intro t
        simp [timers_started, update_ui, emit, List.count_append]
      rw [e]
      exact ((set_call_state_timer_effects CallState.CALL_ACTIVE s1 hs1call).2 (by decide)).1
    rw [hu]
    exact hst1.2.2.2.2.2.2.2.2

/-- C10 at the chunk `+CIEV: 1,1\r\n` received while ringing with timer 1
armed: the state is Active, the id is 0 and timer 1 has been removed. -/
theorem ciev_call_active_stops_ringtone_witness :
    (listener_chunk_then_main ScoEnv.ok (bytes "+CIEV: 1,1\r\n")
      (set_ringtone_timer_id 1 (set_current_call_state CallState.CALL_RINGING
        (Phone.initial [] (bytes "00:11:22:33:44:55"))))).current_call_state
      = CallState.CALL_ACTIVE ∧
    (listener_chunk_then_main ScoEnv.ok (bytes "+CIEV: 1,1\r\n")
      (set_ringtone_timer_id 1 (set_current_call_state CallState.CALL_RINGING
        (Phone.initial [] (bytes "00:11:22:33:44:55"))))).ringtone_timer_id = 0 ∧
    removed_sources (listener_chunk_then_main ScoEnv.ok ([] ++ (CIEV ++
        (32 :: 49 :: 44 :: 49 :: bytes "\r\n")))
      (set_ringtone_timer_id 1 (set_current_call_state CallState.CALL_RINGING
        (Phone.initial [] (bytes "00:11:22:33:44:55"))))) =
      removed_sources (set_ringtone_timer_id 1 (set_current_call_state CallState.CALL_RINGING
        (Phone.initial [] (bytes "00:11:22:33:44:55")))) ++
        [(set_ringtone_timer_id 1 (set_current_call_state CallState.CALL_RINGING
          (Phone.initial [] (bytes "00:11:22:33:44:55")))).ringtone_timer_id] :=
  ⟨(ciev_call_active_stops_ringtone ScoEnv.ok
      (set_ringtone_timer_id 1 (set_current_call_state CallState.CALL_RINGING
        (Phone.initial [] (bytes "00:11:22:33:44:55"))))
      [] (bytes "\r\n") rfl (by decide) (by decide) (by decide) (by decide) (by decide)).1,
   (ciev_call_active_stops_ringtone ScoEnv.ok
      (set_ringtone_timer_id 1 (set_current_call_state CallState.CALL_RINGING
        (Phone.initial [] (bytes "00:11:22:33:44:55"))))
      [] (bytes "\r\n") rfl (by decide) (by decide) (by decide) (by decide) (by decide)).2.1,
   (ciev_call_active_stops_ringtone ScoEnv.ok
      (set_ringtone_timer_id 1 (set_current_call_state CallState.CALL_RINGING
        (Phone.initial [] (bytes "00:11:22:33:44:55"))))
      [] (bytes "\r\n") rfl (by decide) (by decide) (by decide) (by decide) (by decide)).2.2.1
      (by decide)⟩

/-! ## The channel released after a failed handshake -/

/-- `hfp_close` on an open control socket, with the audio socket closed and no
monitor thread: the control socket is shut down and closed, nothing else is
called. -/
theorem hfp_close_trace (s : Phone) (h1 : s.sco_socket < 0) (h2 : 0 ≤ s.hfp_socket)
    (h3 : s.hfp_monitor_thread_handle = false) :
    (hfp_close s).trace =
      s.trace ++ [Effect.shutdown s.hfp_socket, Effect.close s.hfp_socket] := by
  cases s
  simp only [hfp_close, join_hfp_monitor, close_hfp_socket, set_hfp_socket,
    set_hfp_monitor_running, set_hfp_monitor_thread_handle, log_msg,
    set_sco_audio_running, close_sco_socket, set_sco_socket, emit, g_idle_add] at h1 h2 h3 ⊢
  split_ifs <;> first
    | (simp_all; done)
    | (simp_all; omega)

/-- After `hfp_close` the audio socket is closed and there is no monitor
thread; the trace has only grown. -/
theorem hfp_close_post (s : Phone) :
    (hfp_close s).sco_socket < 0 ∧ (hfp_close s).hfp_monitor_thread_handle = false ∧
    ∃ m, (hfp_close s).trace = s.trace ++ m := by
  cases s
  simp only [hfp_close, join_hfp_monitor, close_hfp_socket, set_hfp_socket,
    set_hfp_monitor_running, set_hfp_monitor_thread_handle, log_msg,
    set_sco_audio_running, close_sco_socket, set_sco_socket, emit, g_idle_add]
  split_ifs <;> first
    | exact ⟨by simp_all, by simp_all, ⟨_, by simp only [List.append_assoc]; rfl⟩⟩
    | exact ⟨by simp_all, by simp_all, ⟨[], by simp⟩⟩

/-- A handshake step touches neither the audio socket nor the monitor thread,
and only adds to the trace. -/
theorem hfp_slc_step_frame (dev : DialEnv) (cmd : List Nat) (s : Phone) :
    (hfp_slc_step dev cmd s).2.sco_socket = s.sco_socket ∧
    (hfp_slc_step dev cmd s).2.hfp_monitor_thread_handle = s.hfp_monitor_thread_handle ∧
    ∃ m, (hfp_slc_step dev cmd s).2.trace = s.trace ++ m := by
  unfold hfp_slc_step
  simp only []
  split_ifs
  · exact ⟨rfl, rfl, _, rfl⟩
  · exact ⟨rfl, rfl, [Effect.write s.hfp_socket cmd, Effect.read s.hfp_socket],
      by simp [emit, log_msg, g_idle_add]⟩
  · exact ⟨rfl, rfl, [Effect.write s.hfp_socket cmd, Effect.read s.hfp_socket],
      by simp [emit]⟩

/-- The handshake with one of its first three steps not answered with `OK`,
started with the audio socket closed and no monitor thread: its last two calls
are the `shutdown` and the `close` of the control socket. -/
theorem hfp_dial_handshake_abort_trace (env : ScoEnv) (dev : DialEnv) (number : List Nat)
    (s : Phone) (hs : 0 ≤ s.hfp_socket) (hsco : s.sco_socket < 0)
    (hmon : s.hfp_monitor_thread_handle = false)
    (hfail : ¬ (∀ cmd ∈ [AT_BRSF_0, AT_CIND_TEST, AT_CIND_READ],
      0 ≤ (dev.reply cmd).write_ret ∧ 0 < (dev.reply cmd).read_ret ∧
      OK <:+: cstr (dev.reply cmd).read_buf)) :
    ∃ mid, (hfp_dial_handshake env dev number s).2.trace =
      s.trace ++ mid ++ [Effect.shutdown s.hfp_socket, Effect.close s.hfp_socket] := by
  obtain ⟨-, k1, -, t1⟩ := hfp_slc_step_spec dev AT_BRSF_0 s
  obtain ⟨-, k2, -, t2⟩ := hfp_slc_step_spec dev AT_CIND_TEST (hfp_slc_step dev AT_BRSF_0 s).2
  obtain ⟨-, k3, -, t3⟩ := hfp_slc_step_spec dev AT_CIND_READ
    (hfp_slc_step dev AT_CIND_TEST (hfp_slc_step dev AT_BRSF_0 s).2).2
  obtain ⟨a1, b1, m1, c1⟩ := hfp_slc_step_frame dev AT_BRSF_0 s
  obtain ⟨a2, b2, m2, c2⟩ := hfp_slc_step_frame dev AT_CIND_TEST (hfp_slc_step dev AT_BRSF_0 s).2
  obtain ⟨a3, b3, m3, c3⟩ := hfp_slc_step_frame dev AT_CIND_READ
    (hfp_slc_step dev AT_CIND_TEST (hfp_slc_step dev AT_BRSF_0 s).2).2
  have hclose : ∀ (x : Phone) (m : List Effect), x.hfp_socket = s.hfp_socket →
      x.sco_socket = s.sco_socket → x.hfp_monitor_thread_handle = s.hfp_monitor_thread_handle →
      x.trace = s.trace ++ m →
      (hfp_close x).trace =
        s.trace ++ m ++ [Effect.shutdown s.hfp_socket, Effect.close s.hfp_socket] := by
    intro x m hx1 hx2 hx3 hx4
    rw [hfp_close_trace x (by rw [hx2]; exact hsco) (by rw [hx1]; exact hs)
      (by rw [hx3]; exact hmon), hx1, hx4]
  unfold hfp_dial_handshake hfp_dial_error
  simp only []
  split_ifs with h1 h2 h3 h4
  · exact ⟨m1, hclose _ m1 k1 a1 b1 c1⟩
  · exact ⟨m1 ++ m2, hclose _ (m1 ++ m2) (k2.trans k1) (a2.trans a1) (b2.trans b1)
      (by rw [c2, c1, List.append_assoc])⟩
  · exact ⟨m1 ++ m2 ++ m3, hclose _ (m1 ++ m2 ++ m3) (k3.trans (k2.trans k1))
      (a3.trans (a2.trans a1)) (b3.trans (b2.trans b1))
      (by rw [c3, c2, c1]; simp only [List.append_assoc])⟩
  · exfalso
    apply hfail
    intro cmd hcmd
    simp only [List.mem_cons, List.mem_singleton, List.not_mem_nil, or_false] at hcmd
    rcases hcmd with rfl | rfl | rfl
    · exact t1.mp (by simpa using h1)
    · exact t2.mp (by simpa using h2)
    · exact t3.mp (by simpa using h3)
  · exfalso
    apply hfail
    intro cmd hcmd
    simp only [List.mem_cons, List.mem_singleton, List.not_mem_nil, or_false] at hcmd
    rcases hcmd with rfl | rfl | rfl
    · exact t1.mp (by simpa using h1)
    · exact t2.mp (by simpa using h2)
    · exact t3.mp (by simpa using h3)

/-- The fresh path of `hfp_dial` up to the handshake, when `socket` and
`connect` succeed: the control socket is the new one, the audio socket is
closed, there is no monitor thread. -/
theorem hfp_dial_fresh_start_full (env : ScoEnv) (dev : DialEnv) (number : List Nat)
    (st : Phone) (haddr : st.device_addr.head?.getD 0 ≠ 0) (hl : st.hfp_listen_socket < 0)
    (hsock : 0 ≤ dev.socket_fd) (hconnect : 0 ≤ dev.connect_ret) :
    ∃ s, hfp_dial env dev number st = hfp_dial_handshake env dev number s ∧
      s.hfp_socket = dev.socket_fd ∧ written_cmds s = written_cmds st ∧
      s.sco_socket < 0 ∧ s.hfp_monitor_thread_handle = false ∧
      sco_connect_calls s = sco_connect_calls st ∧
      ∃ m, s.trace = st.trace ++ m := by
  have hl2 : ¬ st.hfp_listen_socket ≥ 0 := by omega
  have h1 : ¬ (set_hfp_socket dev.socket_fd (emit Effect.socket (hfp_close st))).hfp_socket < 0 := by
    show ¬ dev.socket_fd < 0
    omega
  have h2 : ¬ dev.connect_ret < 0 := by omega
  obtain ⟨p1, p2, m0, p3⟩ := hfp_close_post st
  unfold hfp_dial
  rw [if_neg haddr, if_neg hl2]
  unfold hfp_dial_fresh
  simp only [if_neg h1, if_neg h2]
  refine ⟨_, rfl, rfl, ?_, ?_, ?_, ?_, m0 ++ [Effect.socket, Effect.connect dev.socket_fd], ?_⟩
  · rw [wr_log_msg, wr_emit _ _ (by rfl), wr_log_msg,
      show ∀ v t, written_cmds (set_hfp_socket v t) = written_cmds t from fun _ _ => rfl,
      wr_emit _ _ (by rfl), (hfp_close_spec st).1]
  · generalize hfp_close st = c at p1
    cases c
    simpa [log_msg, emit, g_idle_add, set_hfp_socket] using p1
  · generalize hfp_close st = c at p2
    cases c
    simpa [log_msg, emit, g_idle_add, set_hfp_socket] using p2
  · rw [scc_log_msg, scc_emit _ _ (by simp), scc_log_msg,
      show ∀ v t, sco_connect_calls (set_hfp_socket v t) = sco_connect_calls t from
        fun _ _ => rfl, scc_emit _ _ (by simp), scc_hfp_close]
  · generalize hfp_close st = c at p3
    cases c
    simp only [log_msg, emit, g_idle_add, set_hfp_socket] at p3 ⊢
    rw [p3]
    simp only [List.append_assoc, List.singleton_append]

/-- C23: on the fresh path of `hfp_dial` (device address set, no listener
socket, `socket` and `connect` succeeding), if the response to `AT+BRSF=0`, to
`AT+CIND=?` or to `AT+CIND?` is empty or holds no `OK` (or the write of that
step fails), `hfp_dial` returns FALSE and closes the control socket: the last
two calls of the dial are `shutdown` and `close` on the descriptor `socket`
gave, and `hfp_socket = -1`. The commands it has written are a beginning of
those three: the `ATD` command is not among them. So `ATD` is written only
when all three steps were answered with `OK`. -/
theorem hfp_dial_handshake_failure (env : ScoEnv) (dev : DialEnv) (number : List Nat)
    (st : Phone) (haddr : st.device_addr.head?.getD 0 ≠ 0) (hl : st.hfp_listen_socket < 0)
    (hsock : 0 ≤ dev.socket_fd) (hconnect : 0 ≤ dev.connect_ret)
    (hfail : ∃ cmd ∈ [AT_BRSF_0, AT_CIND_TEST, AT_CIND_READ],
      (dev.reply cmd).write_ret < 0 ∨ (dev.reply cmd).read_ret ≤ 0 ∨
      ¬ OK <:+: cstr (dev.reply cmd).read_buf) :
    (hfp_dial env dev number st).1 = false ∧
    (hfp_dial env dev number st).2.hfp_socket = -1 ∧
    (∃ added, written_cmds (hfp_dial env dev number st).2 = written_cmds st ++ added ∧
      added <+: [AT_BRSF_0, AT_CIND_TEST, AT_CIND_READ] ∧ atd_cmd number ∉ added) ∧
    (∃ mid, (hfp_dial env dev number st).2.trace =
      st.trace ++ mid ++ [Effect.shutdown dev.socket_fd, Effect.close dev.socket_fd]) := by
  obtain ⟨s, hd, hsk, hw, hsco, hmon, -, m0, htr⟩ :=
    hfp_dial_fresh_start_full env dev number st haddr hl hsock hconnect
  have hf : ¬ (∀ cmd ∈ [AT_BRSF_0, AT_CIND_TEST, AT_CIND_READ],
      0 ≤ (dev.reply cmd).write_ret ∧ 0 < (dev.reply cmd).read_ret ∧
      OK <:+: cstr (dev.reply cmd).read_buf) := by
    intro hall
    obtain ⟨cmd, hcmd, hbad⟩ := hfail
    obtain ⟨a, b, c⟩ := hall cmd hcmd
    rcases hbad with h | h | h
    · omega
    · omega
    · exact h c
  obtain ⟨r1, r2, -, added, r3, r4⟩ :=
    hfp_dial_handshake_abort env dev number s (by rw [hsk]; exact hsock) hf
  obtain ⟨mid, r5⟩ := hfp_dial_handshake_abort_trace env dev number s
    (by rw [hsk]; exact hsock) hsco hmon hf
  rw [hd]
  refine ⟨r1, r2, ⟨added, by rw [r3, hw], r4, ?_⟩, ⟨m0 ++ mid, ?_⟩⟩
  · intro hmem
    have hsub := r4.subset hmem
    obtain ⟨n1, n2, n3, -⟩ := atd_cmd_ne number
    simp only [List.mem_cons, List.mem_singleton, List.not_mem_nil, or_false] at hsub
    rcases hsub with h | h | h
    · exact n1 h
    · exact n2 h
    · exact n3 h
  · rw [r5, htr, hsk]
    simp only [List.append_assoc]

/-- C23 at a device that answers `AT+CIND=?` with `ERROR\r\n` and everything
else with `OK\r\n`: the dial of `5550000` fails with the control socket closed. -/
theorem hfp_dial_handshake_failure_witness :
    (hfp_dial ScoEnv.ok
      { socket_fd := 9, connect_ret := 0,
        reply := fun cmd =>
          if cmd = AT_CIND_TEST then
            { write_ret := 10, read_ret := 7, read_buf := bytes "ERROR\r\n" }
          else { write_ret := cmd.length, read_ret := 4, read_buf := bytes "OK\r\n" } }
      (bytes "5550000")
      (set_hfp_listen_socket (-1) (Phone.initial [] (bytes "00:11:22:33:44:55")))).1 = false ∧
    (hfp_dial ScoEnv.ok
      { socket_fd := 9, connect_ret := 0,
        reply := fun cmd =>
          if cmd = AT_CIND_TEST then
            { write_ret := 10, read_ret := 7, read_buf := bytes "ERROR\r\n" }
          else { write_ret := cmd.length, read_ret := 4, read_buf := bytes "OK\r\n" } }
      (bytes "5550000")
      (set_hfp_listen_socket (-1)
        (Phone.initial [] (bytes "00:11:22:33:44:55")))).2.hfp_socket = -1 ∧
    (∃ mid, (hfp_dial ScoEnv.ok
      { socket_fd := 9, connect_ret := 0,
        reply := fun cmd =>
          if cmd = AT_CIND_TEST then
            { write_ret := 10, read_ret := 7, read_buf := bytes "ERROR\r\n" }
          else { write_ret := cmd.length, read_ret := 4, read_buf := bytes "OK\r\n" } }
      (bytes "5550000")
      (set_hfp_listen_socket (-1) (Phone.initial [] (bytes "00:11:22:33:44:55")))).2.trace =
      (set_hfp_listen_socket (-1) (Phone.initial [] (bytes "00:11:22:33:44:55"))).trace ++ mid ++
        [Effect.shutdown 9, Effect.close 9]) :=
  ⟨(hfp_dial_handshake_failure ScoEnv.ok
      { socket_fd := 9, connect_ret := 0,
        reply := fun cmd =>
          if cmd = AT_CIND_TEST then
            { write_ret := 10, read_ret := 7, read_buf := bytes "ERROR\r\n" }
          else { write_ret := cmd.length, read_ret := 4, read_buf := bytes "OK\r\n" } }
      (bytes "5550000")
      (set_hfp_listen_socket (-1) (Phone.initial [] (bytes "00:11:22:33:44:55")))
      (by decide) (by decide) (by decide) (by decide)
      ⟨AT_CIND_TEST, by decide, Or.inr (Or.inr (by decide))⟩).1,
   (hfp_dial_handshake_failure ScoEnv.ok
      { socket_fd := 9, connect_ret := 0,
        reply := fun cmd =>
          if cmd = AT_CIND_TEST then
            { write_ret := 10, read_ret := 7, read_buf := bytes "ERROR\r\n" }
          else { write_ret := cmd.length, read_ret := 4, read_buf := bytes "OK\r\n" } }
      (bytes "5550000")
      (set_hfp_listen_socket (-1) (Phone.initial [] (bytes "00:11:22:33:44:55")))
      (by decide) (by decide) (by decide) (by decide)
      ⟨AT_CIND_TEST, by decide, Or.inr (Or.inr (by decide))⟩).2.1,
   (hfp_dial_handshake_failure ScoEnv.ok
      { socket_fd := 9, connect_ret := 0,
        reply := fun cmd =>
          if cmd = AT_CIND_TEST then
            { write_ret := 10, read_ret := 7, read_buf := bytes "ERROR\r\n" }
          else { write_ret := cmd.length, read_ret := 4, read_buf := bytes "OK\r\n" } }
      (bytes "5550000")
      (set_hfp_listen_socket (-1) (Phone.initial [] (bytes "00:11:22:33:44:55")))
      (by decide) (by decide) (by decide) (by decide)
      ⟨AT_CIND_TEST, by decide, Or.inr (Or.inr (by decide))⟩).2.2.2⟩

/-! ## A failed `send` of a captured frame -/

/-- C26 (the code at the failing input): with AEC off the capture worker
reads frames of `sco_mtu` bytes, so a frame is one chunk. When the `send` of
that chunk fails with `EAGAIN` (or with another error that does not mean the
peer is gone), the send loop is over after this one call: the frame has been
handed to `send` once, at offset 0, and is not handed to it again. -/
theorem capture_send_failed_frame_dropped (send : Nat → SendResult) (buf : List Nat)
    (st : Phone) (fuel : Nat) (haec : st.aec_enabled = false) (hm : 1 ≤ st.sco_mtu)
    (hlen : (buf.length : Int) = st.sco_mtu)
    (hfail : send 0 = SendResult.would_block ∨ send 0 = SendResult.failed)
    (hfuel : 2 ≤ fuel) :
    capture_read_bytes st = st.sco_mtu ∧
    capture_send_loop send buf (capture_read_bytes st) st.sco_mtu fuel 0 0 =
      some ([(0, buf)], true) := by
  have hread : capture_read_bytes st = st.sco_mtu := by
    unfold capture_read_bytes
    rw [haec]
    rfl
  refine ⟨hread, ?_⟩
  rw [hread]
  obtain ⟨mm, hmm⟩ := Int.eq_ofNat_of_zero_le (le_trans (by decide) hm)
  rw [hmm] at hlen hm ⊢
  have hm2 : 1 ≤ mm := by exact_mod_cast hm
  have hl2 : buf.length = mm := by exact_mod_cast hlen
  obtain ⟨f, rfl⟩ : ∃ f, fuel = f + 2 := ⟨fuel - 2, by omega⟩
  have h1 := capture_send_loop_succ send buf mm mm (f + 1) 0 0 (by omega)
  have h2 := capture_send_loop_done send buf mm mm f (0 + mm) (0 + 1) (by omega)
  have hpiece : (buf.drop 0).take (min mm (mm - 0)) = buf := by
    rw [List.drop_zero, Nat.sub_zero, Nat.min_self, ← hl2, List.take_length]
  rw [hpiece, h2] at h1
  simp only [Nat.cast_zero] at h1
  rw [h1]
  rcases hfail with h | h <;> rw [h]

/-- C26 at a frame of 48 bytes after `sco_connect` has read the MTU 48, the
`send` failing with `EAGAIN`. -/
theorem capture_send_failed_frame_dropped_witness :
    capture_send_loop (fun (_ : Nat) => SendResult.would_block) (List.replicate 48 1)
      (capture_read_bytes (sco_connect ScoEnv.ok (Phone.initial [] (bytes "00:11:22:33:44:55"))).2)
      (sco_connect ScoEnv.ok (Phone.initial [] (bytes "00:11:22:33:44:55"))).2.sco_mtu 2 0 0 =
      some ([(0, List.replicate 48 1)], true) :=
  (capture_send_failed_frame_dropped (fun (_ : Nat) => SendResult.would_block)
    (List.replicate 48 1) (sco_connect ScoEnv.ok (Phone.initial [] (bytes "00:11:22:33:44:55"))).2
    2 (by decide) (by decide) (by decide) (Or.inl rfl) (by decide)).2

/-! ## The channel released after a rejected `ATD` -/

end PcPhone
